import Mathlib

/-!
Verification of the normalized-entity-graph resolver and profile materializer
of the Fastboard scraping repository (`src/scraping/main.py`), together with
the identifier canonicalizer (`url_to_public_id`) and the search-result
deduplication stage (`src/scraping/src/scraping/scrapers/search.py`).

The Python code is shallowly embedded: JSON-like payload values become the
inductive type `Val`; Python runtime errors (AttributeError, TypeError,
KeyError, IndexError, and the ValueError raised when no root profile entity
is found) become the `PyErr` type, and every fallible embedded function
returns `Except PyErr _`.  Python truthiness, hashability of dict keys,
`dict.get` with and without a default, subscripting, `in`, and iteration
are modelled by dedicated primitives below, each matching CPython semantics
on the value forms that can occur in a parsed JSON payload.
-/

set_option maxHeartbeats 1000000

namespace Fastboard

/-- A JSON-like Python value as it appears in a parsed Voyager payload:
strings, integers, booleans, `None`, lists, and string-keyed dicts
(association lists in insertion order, keys unique). -/
inductive Val where
  | str (s : String)
  | num (n : Int)
  | bool (b : Bool)
  | null
  | list (xs : List Val)
  | obj (fs : List (String × Val))

mutual

/-- Structural equality of payload values (Python `==` restricted to
same-type comparisons). -/
def beqVal : Val → Val → Bool
  | .str a, .str b => a == b
  | .num a, .num b => a == b
  | .bool a, .bool b => a == b
  | .null, .null => true
  | .list as, .list bs => beqValList as bs
  | .obj as, .obj bs => beqValFields as bs
  | _, _ => false

/-- Structural equality of value lists. -/
def beqValList : List Val → List Val → Bool
  | [], [] => true
  | a :: as, b :: bs => beqVal a b && beqValList as bs
  | _, _ => false

/-- Structural equality of dict field lists. -/
def beqValFields : List (String × Val) → List (String × Val) → Bool
  | [], [] => true
  | (k1, v1) :: as, (k2, v2) :: bs => k1 == k2 && beqVal v1 v2 && beqValFields as bs
  | _, _ => false

end

mutual

theorem beqVal_iff : ∀ a b : Val, beqVal a b = true ↔ a = b
  | .str a, .str b => by simp [beqVal]
  | .num a, .num b => by simp [beqVal]
  | .bool a, .bool b => by simp [beqVal]
  | .null, .null => by simp [beqVal]
  | .list as, .list bs => by simp [beqVal, beqValList_iff as bs]
  | .obj as, .obj bs => by simp [beqVal, beqValFields_iff as bs]
  | .str _, .num _ => by simp [beqVal]
  | .str _, .bool _ => by simp [beqVal]
  | .str _, .null => by simp [beqVal]
  | .str _, .list _ => by simp [beqVal]
  | .str _, .obj _ => by simp [beqVal]
  | .num _, .str _ => by simp [beqVal]
  | .num _, .bool _ => by simp [beqVal]
  | .num _, .null => by simp [beqVal]
  | .num _, .list _ => by simp [beqVal]
  | .num _, .obj _ => by simp [beqVal]
  | .bool _, .str _ => by simp [beqVal]
  | .bool _, .num _ => by simp [beqVal]
  | .bool _, .null => by simp [beqVal]
  | .bool _, .list _ => by simp [beqVal]
  | .bool _, .obj _ => by simp [beqVal]
  | .null, .str _ => by simp [beqVal]
  | .null, .num _ => by simp [beqVal]
  | .null, .bool _ => by simp [beqVal]
  | .null, .list _ => by simp [beqVal]
  | .null, .obj _ => by simp [beqVal]
  | .list _, .str _ => by simp [beqVal]
  | .list _, .num _ => by simp [beqVal]
  | .list _, .bool _ => by simp [beqVal]
  | .list _, .null => by simp [beqVal]
  | .list _, .obj _ => by simp [beqVal]
  | .obj _, .str _ => by simp [beqVal]
  | .obj _, .num _ => by simp [beqVal]
  | .obj _, .bool _ => by simp [beqVal]
  | .obj _, .null => by simp [beqVal]
  | .obj _, .list _ => by simp [beqVal]

theorem beqValList_iff : ∀ as bs : List Val, beqValList as bs = true ↔ as = bs
  | [], [] => by simp [beqValList]
  | [], _ :: _ => by simp [beqValList]
  | _ :: _, [] => by simp [beqValList]
  | a :: as, b :: bs => by
      simp [beqValList, beqVal_iff a b, beqValList_iff as bs]

theorem beqValFields_iff :
    ∀ as bs : List (String × Val), beqValFields as bs = true ↔ as = bs
  | [], [] => by simp [beqValFields]
  | [], _ :: _ => by simp [beqValFields]
  | (_, _) :: _, [] => by simp [beqValFields]
  | (k1, v1) :: as, (k2, v2) :: bs => by
      simp [beqValFields, beqVal_iff v1 v2, beqValFields_iff as bs,
        and_assoc]

end

instance : DecidableEq Val := fun a b =>
  decidable_of_iff (beqVal a b = true) (beqVal_iff a b)

/-- Python truthiness: `""`, `0`, `False`, `None`, `[]`, and `{}` are falsy. -/
def falsy : Val → Bool
  | .str s => s.isEmpty
  | .num n => n == 0
  | .bool b => !b
  | .null => true
  | .list xs => xs.isEmpty
  | .obj fs => fs.isEmpty

/-- Python truthiness, positive form. -/
def truthy (v : Val) : Bool := !falsy v

/-- Whether a value is hashable in Python (usable as a dict key):
scalars are, lists and dicts are not. -/
def hashable : Val → Bool
  | .list _ => false
  | .obj _ => false
  | _ => true

/-- Python `==` on payload values.  Python treats `True == 1` and
`False == 0`; container comparison is structural.  (Numeric/boolean
cross-type equality nested inside containers is not modelled; no payload
in scope compares containers.) -/
def pyEq (a b : Val) : Bool :=
  match a, b with
  | .bool x, .num n => (if x then (1 : Int) else 0) == n
  | .num n, .bool x => n == (if x then (1 : Int) else 0)
  | _, _ => beqVal a b

/-- Python runtime errors that the embedded code can raise.
`rootEntityNotFound` stands for the `ValueError("Could not find profile
entity in response")` raised by `parse_linkedin_voyager_response`
(the spec's `RootEntityNotFound`). -/
inductive PyErr where
  | rootEntityNotFound
  | keyError (k : Val)
  | attributeError
  | typeError
  | indexError
  | valueError
deriving DecidableEq

instance {ε α : Type} [DecidableEq ε] [DecidableEq α] :
    DecidableEq (Except ε α) := fun a b =>
  match a, b with
  | .error e1, .error e2 =>
      match decEq e1 e2 with
      | isTrue h => isTrue (by rw [h])
      | isFalse h => isFalse (by intro hc; cases hc; exact h rfl)
  | .ok v1, .ok v2 =>
      match decEq v1 v2 with
      | isTrue h => isTrue (by rw [h])
      | isFalse h => isFalse (by intro hc; cases hc; exact h rfl)
  | .error _, .ok _ => isFalse (by intro hc; cases hc)
  | .ok _, .error _ => isFalse (by intro hc; cases hc)

/-- Python `v.get(k)` for a string key: on a dict, the stored value or
`None` when the key is missing; on any non-dict, `AttributeError`
(no `get` attribute). -/
def pyGet : Val → String → Except PyErr Val
  | .obj fs, k =>
      .ok (match fs.find? (fun p => p.1 == k) with
            | some p => p.2
            | none => .null)
  | _, _ => .error .attributeError

/-- Python `v.get(k, d)` with a default: a present key returns its value
(even `None`), a missing key returns the default. -/
def pyGetD : Val → String → Val → Except PyErr Val
  | .obj fs, k, d =>
      .ok (match fs.find? (fun p => p.1 == k) with
            | some p => p.2
            | none => d)
  | _, _, _ => .error .attributeError

/-- Python `v[k]` for a string key: `KeyError` on a dict missing the key,
`TypeError` on a non-dict. -/
def pySubscript : Val → String → Except PyErr Val
  | .obj fs, k =>
      match fs.find? (fun p => p.1 == k) with
      | some p => .ok p.2
      | none => .error (.keyError (.str k))
  | _, _ => .error .typeError

/-- Python `v[0]`: first element of a list or `IndexError` when empty;
first character of a string; `KeyError 0` on a dict (string-keyed payload
dicts have no integer key); `TypeError` otherwise. -/
def pyIndex0 : Val → Except PyErr Val
  | .list [] => .error .indexError
  | .list (x :: _) => .ok x
  | .str s =>
      match s.data with
      | [] => .error .indexError
      | c :: _ => .ok (.str (String.mk [c]))
  | .obj _ => .error (.keyError (.num 0))
  | _ => .error .typeError

/-- Python iteration `for x in v`: the elements of a list, the characters
of a string, the keys of a dict; `TypeError` on scalars. -/
def pyIter : Val → Except PyErr (List Val)
  | .list xs => .ok xs
  | .str s => .ok (s.data.map fun c => .str (String.mk [c]))
  | .obj fs => .ok (fs.map fun p => .str p.1)
  | _ => .error .typeError

/-- Whether `pat` occurs as a substring of the character list `hay`. -/
def listIsPrefix : List Char → List Char → Bool
  | [], _ => true
  | _ :: _, [] => false
  | a :: as, b :: bs => a == b && listIsPrefix as bs

/-- Substring search over character lists. -/
def listContainsSub (hay pat : List Char) : Bool :=
  listIsPrefix pat hay ||
    match hay with
    | [] => false
    | _ :: t => listContainsSub t pat

/-- Python `pat in s` on strings: substring containment. -/
def strContains (s pat : String) : Bool := listContainsSub s.data pat.data

/-- Python `k in v` for a string `k`: key membership on a dict, substring
test on a string, element membership on a list, `TypeError` on scalars. -/
def pyIn (k : String) : Val → Except PyErr Bool
  | .obj fs => .ok (fs.any fun p => p.1 == k)
  | .str s => .ok (strContains s k)
  | .list xs => .ok (xs.any fun v => pyEq v (.str k))
  | _ => .error .typeError

/-- Lookup in a Python dict whose keys are arbitrary hashable values
(the URN map): last binding for an equal key, if any. -/
def rawMapLookup (m : List (Val × Val)) (k : Val) : Option Val :=
  (m.reverse.find? (fun p => pyEq p.1 k)).map (·.2)

/-- Python `m.get(k)` on the URN map: `TypeError` for an unhashable key,
otherwise the bound value or `None`. -/
def mapGet (m : List (Val × Val)) (k : Val) : Except PyErr Val :=
  if hashable k then .ok ((rawMapLookup m k).getD .null)
  else .error .typeError

mutual

/-- Python `repr(v)` for payload values (string escaping inside reprs is
not modelled; only used to build the profile's display strings). -/
def pyRepr : Val → String
  | .str s => "'" ++ s ++ "'"
  | .num n => toString n
  | .bool b => if b then "True" else "False"
  | .null => "None"
  | .list xs => "[" ++ String.intercalate ", " (pyReprList xs) ++ "]"
  | .obj fs => "\x7b" ++ String.intercalate ", " (pyReprFields fs) ++ "\x7d"

/-- Reprs of the elements of a list value. -/
def pyReprList : List Val → List String
  | [] => []
  | x :: xs => pyRepr x :: pyReprList xs

/-- Reprs of the fields of a dict value. -/
def pyReprFields : List (String × Val) → List String
  | [] => []
  | (k, v) :: fs => ("'" ++ k ++ "': " ++ pyRepr v) :: pyReprFields fs

end

/-- Python `str(v)` as used by f-string interpolation. -/
def pyStr : Val → String
  | .str s => s
  | .num n => toString n
  | .bool b => if b then "True" else "False"
  | .null => "None"
  | v => pyRepr v

/-! ## Dataclasses of `src/scraping/main.py`

The dataclass fields keep the source's names (`end` is a Lean keyword, so
`DateRange.end` becomes `end_`).  Fields whose Python value is copied
straight from the payload keep type `Val`. -/

/-- Dataclass `Date`: year/month copied through from the raw payload. -/
structure Date where
  year : Val
  month : Val
deriving DecidableEq

/-- Dataclass `DateRange`. -/
structure DateRange where
  start : Option Date
  end_ : Option Date
deriving DecidableEq

/-- Dataclass `Position`. -/
structure Position where
  title : Val
  company_name : Val
  company_urn : Val
  location : Val
  date_range : Option DateRange
  description : Val
  urn : Val
deriving DecidableEq

/-- Dataclass `Education`. -/
structure Education where
  school_name : Val
  degree_name : Val
  field_of_study : Val
  date_range : Option DateRange
  urn : Val
deriving DecidableEq

/-- Dataclass `LinkedInProfile`. -/
structure LinkedInProfile where
  url : String
  urn : Val
  full_name : String
  first_name : Val
  last_name : Val
  headline : Val
  summary : Val
  public_identifier : Val
  location_name : Val
  geo : Val
  industry : Val
  positions : List Position
  educations : List Education
  connection_distance : Val
  connection_degree : Val
deriving DecidableEq

/-! ## Embedded functions of `src/scraping/main.py` -/

/-- The fixed distance-token → degree dict `DISTANCE_TO_DEGREE`. -/
def DISTANCE_TO_DEGREE : List (Val × Val) :=
  [(.str "DISTANCE_1", .num 1), (.str "DISTANCE_2", .num 2),
   (.str "DISTANCE_3", .num 3), (.str "OUT_OF_NETWORK", .null)]

/-- Body of the dict comprehension in `_resolve_references`: iterate the
included entities, keeping `entity.get("entityUrn") : entity` for entities
with a truthy `entityUrn` (an unhashable urn value raises at insertion). -/
def buildUrnMap (entities : List Val) (acc : List (Val × Val)) :
    Except PyErr (List (Val × Val)) :=
  match entities with
  | [] => .ok acc
  | entity :: rest => do
      let urn ← pyGet entity "entityUrn"
      if truthy urn then
        if hashable urn then buildUrnMap rest (acc ++ [(urn, entity)])
        else .error .typeError
      else buildUrnMap rest acc

/-- `_resolve_references(data)`: URN → entity map over `data["included"]`. -/
def _resolve_references (data : Val) : Except PyErr (List (Val × Val)) := do
  let included ← pyGetD data "included" (.list [])
  let entities ← pyIter included
  buildUrnMap entities []

/-- Body of the list comprehension in `_resolve_star_field`:
`[urn_map.get(urn) for urn in value if urn_map.get(urn)]`. -/
def resolveListLoop (xs : List Val) (urn_map : List (Val × Val)) (acc : List Val) :
    Except PyErr (List Val) :=
  match xs with
  | [] => .ok acc
  | urn :: rest => do
      let r ← mapGet urn_map urn
      if truthy r then resolveListLoop rest urn_map (acc ++ [r])
      else resolveListLoop rest urn_map acc

/-- `_resolve_star_field(entity, urn_map, field_name)`. -/
def _resolve_star_field (entity : Val) (urn_map : List (Val × Val))
    (field_name : String) : Except PyErr Val := do
  let value ← pyGet entity field_name
  if falsy value then .ok .null
  else
    match value with
    | .list xs => do
        let rs ← resolveListLoop xs urn_map []
        .ok (.list rs)
    | _ => mapGet urn_map value

/-- `_date_from_raw(raw)`. -/
def _date_from_raw (raw : Val) : Except PyErr (Option Date) := do
  if falsy raw then .ok none
  else do
    let y ← pyGet raw "year"
    let m ← pyGet raw "month"
    .ok (some { year := y, month := m })

/-- `_date_range_from_raw(raw)`. -/
def _date_range_from_raw (raw : Val) : Except PyErr (Option DateRange) := do
  if falsy raw then .ok none
  else do
    let s ← pyGet raw "start"
    let sd ← _date_from_raw s
    let e ← pyGet raw "end"
    let ed ← _date_from_raw e
    .ok (some { start := sd, end_ := ed })

/-- `_enrich_position(pos, urn_map)`. -/
def _enrich_position (pos : Val) (urn_map : List (Val × Val)) :
    Except PyErr Position := do
  let company ← _resolve_star_field pos urn_map "*company"
  let t ← pyGet pos "title"
  let title := if truthy t then t else Val.str "Unknown Title"
  let company_name ←
    if truthy company then pyGet company "name"
    else pyGetD pos "companyName" (.str "Unknown Company")
  let company_urn ←
    if truthy company then pyGet company "entityUrn"
    else pyGet pos "companyUrn"
  let location ← pyGet pos "locationName"
  let dr ← pyGet pos "dateRange"
  let date_range ← _date_range_from_raw dr
  let description ← pyGet pos "description"
  let urn ← pyGet pos "entityUrn"
  .ok { title := title, company_name := company_name, company_urn := company_urn,
        location := location, date_range := date_range,
        description := description, urn := urn }

/-- `_enrich_education(edu, urn_map)`. -/
def _enrich_education (edu : Val) (urn_map : List (Val × Val)) :
    Except PyErr Education := do
  let school ← _resolve_star_field edu urn_map "*school"
  let school_name ←
    if truthy school then pyGet school "name"
    else pyGetD edu "schoolName" (.str "Unknown School")
  let degree_name ← pyGet edu "degreeName"
  let field_of_study ← pyGet edu "fieldOfStudy"
  let dr ← pyGet edu "dateRange"
  let date_range ← _date_range_from_raw dr
  let urn ← pyGet edu "entityUrn"
  .ok { school_name := school_name, degree_name := degree_name,
        field_of_study := field_of_study, date_range := date_range, urn := urn }

/-- `_extract_connection_info(profile_entity, urn_map)`: the returned pair
is `(connection_distance, connection_degree)` with `None` encoded as
`Val.null`. -/
def _extract_connection_info (profile_entity : Val) (urn_map : List (Val × Val)) :
    Except PyErr (Val × Val) := do
  let member_rel_urn ← pyGet profile_entity "*memberRelationship"
  if falsy member_rel_urn then .ok (.null, .null)
  else do
    let rel ← mapGet urn_map member_rel_urn
    if falsy rel then .ok (.null, .null)
    else do
      let u1 ← pyGet rel "memberRelationshipUnion"
      let union ← if truthy u1 then pure u1 else pyGet rel "memberRelationshipData"
      if falsy union then .ok (.null, .null)
      else do
        let c1 ← pyIn "connectedMember" union
        let c2 ← if c1 then pure true else pyIn "connected" union
        if c2 then .ok (.str "DISTANCE_1", .num 1)
        else do
          let nc ← pyIn "noConnection" union
          if nc then do
            let ncv ← pySubscript union "noConnection"
            let dist ← pyGet ncv "memberDistance"
            let deg ← mapGet DISTANCE_TO_DEGREE dist
            .ok (dist, deg)
          else .ok (.null, .null)

/-- The `$type` tag selecting root profile entities. -/
def PROFILE_TYPE : String := "com.linkedin.voyager.dash.identity.profile.Profile"

/-- The root-entity scan loop at the top of `parse_linkedin_voyager_response`:
first included entity whose `$type` is the profile tag and, when a target
public identifier is supplied, whose `publicIdentifier` equals it.
Returns `Val.null` when no entity matches. -/
def findProfileEntityLoop (items : List Val) (public_identifier : Option String) :
    Except PyErr Val :=
  match items with
  | [] => .ok .null
  | entity :: rest => do
      let t ← pyGet entity "$type"
      if pyEq t (.str PROFILE_TYPE) then
        match public_identifier with
        | none => .ok entity
        | some pid => do
            let v ← pyGet entity "publicIdentifier"
            if pyEq v (.str pid) then .ok entity
            else findProfileEntityLoop rest public_identifier
      else findProfileEntityLoop rest public_identifier

/-- Inner loop of the positions chain: iterate a position collection's
`*elements`, resolving and enriching each position entity. -/
def positionsInColl (elems : List Val) (urn_map : List (Val × Val))
    (acc : List Position) : Except PyErr (List Position) :=
  match elems with
  | [] => .ok acc
  | pos_urn :: rest => do
      let pos ← mapGet urn_map pos_urn
      if falsy pos then positionsInColl rest urn_map acc
      else do
        let p ← _enrich_position pos urn_map
        positionsInColl rest urn_map (acc ++ [p])

/-- Outer loop of the positions chain: iterate the position groups. -/
def positionGroupsLoop (groups : List Val) (urn_map : List (Val × Val))
    (acc : List Position) : Except PyErr (List Position) :=
  match groups with
  | [] => .ok acc
  | group_urn :: rest => do
      let group ← mapGet urn_map group_urn
      if falsy group then positionGroupsLoop rest urn_map acc
      else do
        let positions_urn ← pyGet group "*profilePositionInPositionGroup"
        if falsy positions_urn then positionGroupsLoop rest urn_map acc
        else do
          let pos_coll ← mapGet urn_map positions_urn
          if falsy pos_coll then positionGroupsLoop rest urn_map acc
          else do
            let pelems ← pyGetD pos_coll "*elements" (.list [])
            let plist ← pyIter pelems
            let acc2 ← positionsInColl plist urn_map acc
            positionGroupsLoop rest urn_map acc2

/-- The positions section of `parse_linkedin_voyager_response`
(root → `*profilePositionGroups` → groups → position collections). -/
def extractPositions (profile_entity : Val) (urn_map : List (Val × Val)) :
    Except PyErr (List Position) := do
  let pos_groups_urn ← pyGet profile_entity "*profilePositionGroups"
  if falsy pos_groups_urn then .ok []
  else do
    let group_resp ← mapGet urn_map pos_groups_urn
    if falsy group_resp then .ok []
    else do
      let elems ← pyGetD group_resp "*elements" (.list [])
      let groups ← pyIter elems
      positionGroupsLoop groups urn_map []

/-- Loop of the educations chain. -/
def educationsLoop (elems : List Val) (urn_map : List (Val × Val))
    (acc : List Education) : Except PyErr (List Education) :=
  match elems with
  | [] => .ok acc
  | e_urn :: rest => do
      let edu ← mapGet urn_map e_urn
      if falsy edu then educationsLoop rest urn_map acc
      else do
        let e ← _enrich_education edu urn_map
        educationsLoop rest urn_map (acc ++ [e])

/-- The educations section of `parse_linkedin_voyager_response`. -/
def extractEducations (profile_entity : Val) (urn_map : List (Val × Val)) :
    Except PyErr (List Education) := do
  let edu_urn ← pyGet profile_entity "*profileEducations"
  if falsy edu_urn then .ok []
  else do
    let edu_coll ← mapGet urn_map edu_urn
    if falsy edu_coll then .ok []
    else do
      let elems ← pyGetD edu_coll "*elements" (.list [])
      let items ← pyIter elems
      educationsLoop items urn_map []

/-- Root-entity selection of `parse_linkedin_voyager_response` (lines
151–160): scan the included entities for a tagged root (preferring a
supplied public identifier), falling back to the payload's primary result
pointer `data["*elements"][0]` when the scan finds nothing truthy. -/
def selectProfileEntity (json_response : Val) (public_identifier : Option String)
    (urn_map : List (Val × Val)) : Except PyErr Val := do
  let included ← pyGetD json_response "included" (.list [])
  let items ← pyIter included
  let found ← findProfileEntityLoop items public_identifier
  if falsy found then do
    let data ← pyGetD json_response "data" (.obj [])
    let elems ← pyGetD data "*elements" (.list [.null])
    let main_urn ← pyIndex0 elems
    mapGet urn_map main_urn
  else pure found

/-- Profile assembly of `parse_linkedin_voyager_response` (lines 165–211),
evaluating subexpressions in the source's order: the bare subscript
`profile_entity["entityUrn"]` comes after the connection/position/education
sections and before the remaining field reads. -/
def assembleProfile (profile_entity : Val) (urn_map : List (Val × Val)) :
    Except PyErr LinkedInProfile := do
  let first_name ← pyGetD profile_entity "firstName" (.str "")
    let last_name ← pyGetD profile_entity "lastName" (.str "")
    let conn ← _extract_connection_info profile_entity urn_map
    let positions ← extractPositions profile_entity urn_map
    let educations ← extractEducations profile_entity urn_map
    let urn ← pySubscript profile_entity "entityUrn"
    let headline ← pyGet profile_entity "headline"
    let summary ← pyGet profile_entity "summary"
    let public_id ← pyGet profile_entity "publicIdentifier"
    let location_name ← pyGet profile_entity "locationName"
    let geo ← _resolve_star_field profile_entity urn_map "*geo"
    let industry ← _resolve_star_field profile_entity urn_map "*industry"
    let url_pid ← pyGetD profile_entity "publicIdentifier" (.str "")
    .ok { url := "https://www.linkedin.com/in/" ++ pyStr url_pid ++ "/"
          urn := urn
          full_name := (pyStr first_name ++ " " ++ pyStr last_name).trim
          first_name := first_name
          last_name := last_name
          headline := headline
          summary := summary
          public_identifier := public_id
          location_name := location_name
          geo := geo
          industry := industry
          positions := positions
          educations := educations
          connection_distance := conn.1
          connection_degree := conn.2 }

/-- `parse_linkedin_voyager_response(json_response, public_identifier)`:
build the URN map, select the root entity, raise `rootEntityNotFound`
(the source's `ValueError`) when nothing truthy was selected, and
otherwise assemble the profile. -/
def parse_linkedin_voyager_response (json_response : Val)
    (public_identifier : Option String) : Except PyErr LinkedInProfile := do
  let urn_map ← _resolve_references json_response
  let profile_entity ← selectProfileEntity json_response public_identifier urn_map
  if falsy profile_entity then .error .rootEntityNotFound
  else assembleProfile profile_entity urn_map

/-! ## `url_to_public_id` and its `urllib.parse.urlparse` path model

`urlparse(url).path` is modelled by `urlparsePath`, following CPython's
`urlsplit`: remove the unsafe bytes tab/CR/LF from the whole URL, detect
and drop a scheme (a leading ASCII letter followed by letters/digits/`+-.`
up to a `:`), split off a `//`-introduced authority up to the next `/`,
`?` or `#` and raise `ValueError` ("Invalid IPv6 URL") when it carries an
unmatched square bracket, cut the fragment and then the query, and
finally split `;`-parameters off the last path segment (`urlparse` only).
Not modelled: the NFKC netloc check (which can only raise on non-ASCII
input) and, on newer interpreters, validation of the host between a
matched bracket pair — theorems about inputs with brackets in the
authority are therefore limited to the unmatched case. -/

/-- Characters allowed in a URL scheme. -/
def schemeChar (c : Char) : Bool :=
  c.isAlpha || c.isDigit || c == '+' || c == '-' || c == '.'

/-- Index of the first character satisfying `p`. -/
def findIdxA (p : Char → Bool) : List Char → Option Nat
  | [] => none
  | c :: cs => if p c then some 0 else (findIdxA p cs).map (· + 1)

/-- Drop a leading `scheme:` as CPython's `urlsplit` does. -/
def dropScheme (s : List Char) : List Char :=
  match findIdxA (· == ':') s with
  | some i =>
      if decide (0 < i) &&
         (match s with | c :: _ => c.isAlpha | [] => false) &&
         (s.take i).all schemeChar
      then s.drop (i + 1) else s
  | none => s

/-- The unsafe bytes CPython's `urlsplit` removes from the URL before
parsing (`_UNSAFE_URL_BYTES_TO_REMOVE`). -/
def removeUnsafe (s : List Char) : List Char :=
  s.filter (fun c => !(c == '\t' || c == '\r' || c == '\n'))

/-- Split off a `//`-introduced authority: the netloc up to the next `/`,
`?` or `#`, and the remainder of the URL. -/
def splitNetloc (s : List Char) : List Char × List Char :=
  match s with
  | '/' :: '/' :: rest =>
      (rest.takeWhile (fun c => !(c == '/' || c == '?' || c == '#')),
       rest.dropWhile (fun c => !(c == '/' || c == '?' || c == '#')))
  | _ => ([], s)

/-- `urlsplit`'s bracket validation: `ValueError` when the authority has
`[` without `]` or `]` without `[`. -/
def invalidIPv6 (nl : List Char) : Bool :=
  (nl.contains '[' && !nl.contains ']') ||
    (nl.contains ']' && !nl.contains '[')

/-- Split `;`-parameters off the last segment (CPython `_splitparams`). -/
def splitParamsPath (p : List Char) : List Char :=
  if p.contains ';' then
    if p.contains '/' then
      let lastSlash := p.length - 1 - ((findIdxA (· == '/') p.reverse).getD 0)
      match findIdxA (· == ';') (p.drop lastSlash) with
      | some k => p.take (lastSlash + k)
      | none => p
    else p.takeWhile (fun c => c != ';')
  else p

/-- `urllib.parse.urlparse(url).path`, with `urlsplit`'s `ValueError`. -/
def urlparsePath (url : String) : Except PyErr String :=
  let s1 := dropScheme (removeUnsafe url.data)
  let nl := (splitNetloc s1).1
  let s2 := (splitNetloc s1).2
  if invalidIPv6 nl then .error .valueError
  else
    let s3 := (s2.takeWhile (fun c => c != '#')).takeWhile (fun c => c != '?')
    .ok (String.mk (splitParamsPath s3))

/-- Python `str.split('/')`. -/
def splitSlashAux : List Char → List Char → List (List Char)
  | [], acc => [acc.reverse]
  | c :: cs, acc =>
      if c == '/' then acc.reverse :: splitSlashAux cs []
      else splitSlashAux cs (c :: acc)

/-- Python `path.split('/')` as strings. -/
def pySplitSlash (s : String) : List String := (splitSlashAux s.data []).map String.mk

/-- Python `path.strip("/")`. -/
def stripSlashes (s : String) : String :=
  String.mk (((s.data.dropWhile (· == '/')).reverse.dropWhile (· == '/')).reverse)

/-- Python `list.index` for strings (callers guard membership first). -/
def idxOfStr : List String → String → Nat
  | [], _ => 0
  | x :: xs, t => if x == t then 0 else idxOfStr xs t + 1

/-- Identifier extraction from an already-parsed path: the segment after
the first `"in"` path segment, or — when that segment has no successor
(the `IndexError` branch, caught in the source) or no `"in"` segment
exists — the `/`-trimmed path.  Total, as the only raising operation in
this part of the source (`parts[index + 1]`) has its `IndexError`
caught. -/
def publicIdFromPath (path : String) : String :=
  let parts := (pySplitSlash path).filter (fun q => !q.isEmpty)
  if parts.contains "in" then
    match parts[idxOfStr parts "in" + 1]? with
    | some nxt => nxt
    | none => stripSlashes path
  else stripSlashes path

/-- `url_to_public_id(url)` from `src/scraping/main.py`: empty input maps
to `""`; a string without `"linkedin.com"` is returned unchanged;
otherwise the identifier is extracted from `urlparse(url).path` — whose
`ValueError` (unmatched bracket in the authority) escapes uncaught, so
the function is fallible. -/
def url_to_public_id (url : String) : Except PyErr String :=
  if url.isEmpty then .ok ""
  else if !strContains url "linkedin.com" then .ok url
  else do
    let path ← urlparsePath url
    .ok (publicIdFromPath path)

/-! ## Search-hit filtering and deduplication
(`src/scraping/src/scraping/scrapers/search.py`) -/

/-- Dataclass-model `ProfileSearchResult`: the values stored by
`_search_ddgs` (`href`, `title`, `body` reads off a raw search result). -/
structure ProfileSearchResult where
  href : Val
  title : Val
  description : Val
deriving DecidableEq

/-- Result-processing loop of `ProfileSearcher._search_ddgs`: keep hits
whose href contains the marker `"linkedin.com/in/"`, building
`ProfileSearchResult`s; the URL is used exactly as returned (no query
stripping).  The surrounding `try`/`except` makes a raising item abort the
loop with the hits collected so far. -/
def searchDdgsLoop (rs : List Val) (acc : List ProfileSearchResult) :
    List ProfileSearchResult :=
  match rs with
  | [] => acc
  | r :: rest =>
      match (do
        let href ← pyGetD r "href" (.str "")
        let keep ← pyIn "linkedin.com/in/" href
        if keep then do
          let t ← pyGet r "title"
          let d ← pyGet r "body"
          Except.ok (some (ProfileSearchResult.mk href t d))
        else Except.ok none : Except PyErr (Option ProfileSearchResult)) with
      | .error _ => acc
      | .ok none => searchDdgsLoop rest acc
      | .ok (some hit) => searchDdgsLoop rest (acc ++ [hit])

/-- Deduplication stage of `ProfileSearcher.search`: keep the first result
for each exact `href`; `seen` models the Python set (membership test on an
unhashable href raises `TypeError`). -/
def searchDedup (rs : List ProfileSearchResult) (seen : List Val)
    (acc : List ProfileSearchResult) : Except PyErr (List ProfileSearchResult) :=
  match rs with
  | [] => .ok acc
  | r :: rest =>
      if hashable r.href then
        if seen.any (fun v => pyEq v r.href) then searchDedup rest seen acc
        else searchDedup rest (seen ++ [r.href]) (acc ++ [r])
      else .error .typeError

/-! ## Statement-side helpers

Pure lookups and shape predicates used to state the claims.  The `ws…`
predicates delimit payloads whose values have the shapes the parser
expects (each entity a record, reference fields scalar-valued, date and
union sub-structures records when present) — the domain over which the
spec's totality and error-taxonomy statements are interpreted. -/

/-- Pure field lookup on a dict's association list. -/
def lookupF (fs : List (String × Val)) (k : String) : Option Val :=
  (fs.find? (fun p => p.1 == k)).map (·.2)

/-- Value of a field as Python `get` sees it (`None` when missing). -/
def getF (fs : List (String × Val)) (k : String) : Val :=
  (lookupF fs k).getD .null

/-- Whether a value is a dict. -/
def isObj : Val → Bool
  | .obj _ => true
  | _ => false

/-- Shape of a single-reference field: falsy (skipped) or a hashable
scalar (usable as a map key). -/
def wsChainVal (v : Val) : Bool := falsy v || hashable v

/-- Shape of a field resolved by `_resolve_star_field` whose result is
passed through opaquely (`*geo`, `*industry`): any scalar, or a list of
hashable identifiers. -/
def wsRefVal : Val → Bool
  | .list xs => xs.all hashable
  | .obj _ => false
  | _ => true

/-- Shape of a raw date: falsy or a record. -/
def wsDateVal (v : Val) : Bool := falsy v || isObj v

/-- Shape of a raw date range: falsy, or a record whose `start`/`end` are
falsy or records. -/
def wsDRVal : Val → Bool
  | .obj fs => wsDateVal (getF fs "start") && wsDateVal (getF fs "end")
  | v => falsy v

/-- Shape of a relationship union container: falsy, or a record whose
`noConnection` key (when present) holds a record with a hashable
`memberDistance`. -/
def wsUnionVal : Val → Bool
  | .obj fs =>
      match lookupF fs "noConnection" with
      | none => true
      | some (.obj nfs) => hashable (getF nfs "memberDistance")
      | some _ => false
  | v => falsy v

/-- Shape of a `*elements` field: absent, or a list of hashable
identifiers (this field is read with default `[]` and then iterated). -/
def wsOptElems : Option Val → Bool
  | none => true
  | some (.list xs) => xs.all hashable
  | some _ => false

/-- Well-shaped entity: a record whose fields probed by the parser have
the shapes the code expects. -/
def WSEntity : Val → Bool
  | .obj fs =>
      wsChainVal (getF fs "entityUrn") &&
      wsChainVal (getF fs "*memberRelationship") &&
      wsChainVal (getF fs "*profilePositionGroups") &&
      wsChainVal (getF fs "*profileEducations") &&
      wsChainVal (getF fs "*profilePositionInPositionGroup") &&
      wsChainVal (getF fs "*company") &&
      wsChainVal (getF fs "*school") &&
      wsRefVal (getF fs "*geo") &&
      wsRefVal (getF fs "*industry") &&
      wsOptElems (lookupF fs "*elements") &&
      wsUnionVal (getF fs "memberRelationshipUnion") &&
      wsUnionVal (getF fs "memberRelationshipData") &&
      wsDRVal (getF fs "dateRange")
  | _ => false

/-- Well-shaped payload: a record whose `included` region (when present)
is a list of well-shaped entities and whose `data` region (when present)
is a record with an absent or list-shaped `*elements`. -/
def WSPayload : Val → Bool
  | .obj fs =>
      (match lookupF fs "included" with
        | none => true
        | some (.list es) => es.all WSEntity
        | some _ => false) &&
      (match lookupF fs "data" with
        | none => true
        | some (.obj dfs) =>
            (match lookupF dfs "*elements" with
              | none => true
              | some (.list xs) => xs.all hashable
              | some _ => false)
        | some _ => false)
  | _ => false

/-- Degree table as the claim words it: `DISTANCE_1`→1, `DISTANCE_2`→2,
`DISTANCE_3`→3, `OUT_OF_NETWORK` and any unknown token → absent. -/
def specDegree (d : String) : Val :=
  if d = "DISTANCE_1" then .num 1
  else if d = "DISTANCE_2" then .num 2
  else if d = "DISTANCE_3" then .num 3
  else .null

/-- Union-container probe as the claim words it: the value under
`memberRelationshipUnion` when truthy, else the one under
`memberRelationshipData`. -/
def unionProbe (rfs : List (String × Val)) : Val :=
  if truthy (getF rfs "memberRelationshipUnion") then getF rfs "memberRelationshipUnion"
  else getF rfs "memberRelationshipData"

/-- Reference-list resolution as the claim words it: the ordered list of
identifiers matched to truthy entities, unmatched identifiers silently
dropped. -/
def resolvedList (m : List (Val × Val)) (xs : List Val) : List Val :=
  xs.filterMap fun urn =>
    match rawMapLookup m urn with
    | some v => if truthy v then some v else none
    | none => none

/-! ## Bridge lemmas between the Python primitives and the pure lookups -/

theorem pyGet_obj (fs : List (String × Val)) (k : String) :
    pyGet (.obj fs) k = .ok (getF fs k) := by
  cases h : fs.find? (fun p => p.1 == k) <;> simp [pyGet, getF, lookupF, h]

theorem pyGetD_obj (fs : List (String × Val)) (k : String) (d : Val) :
    pyGetD (.obj fs) k d = .ok ((lookupF fs k).getD d) := by
  cases h : fs.find? (fun p => p.1 == k) <;> simp [pyGetD, lookupF, h]

theorem pySubscript_obj_some (fs : List (String × Val)) (k : String) (v : Val)
    (h : lookupF fs k = some v) : pySubscript (.obj fs) k = .ok v := by
  cases hf : fs.find? (fun p => p.1 == k) with
  | none => rw [lookupF, hf] at h; simp at h
  | some p => rw [lookupF, hf] at h; simp at h; simp [pySubscript, hf, h]

theorem pySubscript_obj_none (fs : List (String × Val)) (k : String)
    (h : lookupF fs k = none) :
    pySubscript (.obj fs) k = .error (.keyError (.str k)) := by
  cases hf : fs.find? (fun p => p.1 == k) with
  | none => simp [pySubscript, hf]
  | some p => rw [lookupF, hf] at h; simp at h

theorem lookupF_getD_of_some (fs : List (String × Val)) (k : String) (v : Val)
    (h : lookupF fs k = some v) (d : Val) : (lookupF fs k).getD d = v := by
  simp [h]

theorem getF_of_some (fs : List (String × Val)) (k : String) (v : Val)
    (h : lookupF fs k = some v) : getF fs k = v := by
  simp [getF, h]

theorem getF_of_none (fs : List (String × Val)) (k : String)
    (h : lookupF fs k = none) : getF fs k = .null := by
  simp [getF, h]

theorem any_key_eq_lookupF_isSome (fs : List (String × Val)) (k : String) :
    (fs.any fun p => p.1 == k) = (lookupF fs k).isSome := by
  induction fs with
  | nil => simp [lookupF]
  | cons p rest ih =>
      by_cases h : p.1 = k
      · simp [lookupF, List.find?, h]
      · have hb : (p.1 == k) = false := beq_false_of_ne h
        simp [lookupF, List.find?, hb] at ih ⊢
        simpa [lookupF] using ih

/-- A well-shaped date value converts without error. -/
theorem date_from_raw_total (v : Val) (h : wsDateVal v = true) :
    ∃ d, _date_from_raw v = .ok d := by
  cases v with
  | obj fs =>
      by_cases hf : falsy (Val.obj fs) = true
      · exact ⟨none, by simp [_date_from_raw, hf]⟩
      · exact ⟨some ⟨getF fs "year", getF fs "month"⟩, by
          simp [_date_from_raw, hf, pyGet_obj, Bind.bind, Except.bind]⟩
  | null => exact ⟨none, by simp [_date_from_raw, falsy]⟩
  | str s =>
      have hf : falsy (Val.str s) = true := by revert h; simp [wsDateVal, isObj]
      exact ⟨none, by simp [_date_from_raw, hf]⟩
  | num n =>
      have hf : falsy (Val.num n) = true := by revert h; simp [wsDateVal, isObj]
      exact ⟨none, by simp [_date_from_raw, hf]⟩
  | bool b =>
      have hf : falsy (Val.bool b) = true := by revert h; simp [wsDateVal, isObj]
      exact ⟨none, by simp [_date_from_raw, hf]⟩
  | list xs =>
      have hf : falsy (Val.list xs) = true := by revert h; simp [wsDateVal, isObj]
      exact ⟨none, by simp [_date_from_raw, hf]⟩

/-- A well-shaped date-range value converts without error. -/
theorem date_range_from_raw_total (v : Val) (h : wsDRVal v = true) :
    ∃ r, _date_range_from_raw v = .ok r := by
  cases v with
  | obj fs =>
      by_cases hf : falsy (Val.obj fs) = true
      · exact ⟨none, by simp [_date_range_from_raw, hf]⟩
      · simp only [wsDRVal, Bool.and_eq_true] at h
        obtain ⟨sd, hsd⟩ := date_from_raw_total _ h.1
        obtain ⟨ed, hed⟩ := date_from_raw_total _ h.2
        exact ⟨some ⟨sd, ed⟩, by
          simp [_date_range_from_raw, hf, pyGet_obj, hsd, hed, Bind.bind, Except.bind]⟩
  | null => exact ⟨none, by simp [_date_range_from_raw, falsy]⟩
  | str s =>
      have hf : falsy (Val.str s) = true := by revert h; simp [wsDRVal]
      exact ⟨none, by simp [_date_range_from_raw, hf]⟩
  | num n =>
      have hf : falsy (Val.num n) = true := by revert h; simp [wsDRVal]
      exact ⟨none, by simp [_date_range_from_raw, hf]⟩
  | bool b =>
      have hf : falsy (Val.bool b) = true := by revert h; simp [wsDRVal]
      exact ⟨none, by simp [_date_range_from_raw, hf]⟩
  | list xs =>
      have hf : falsy (Val.list xs) = true := by revert h; simp [wsDRVal]
      exact ⟨none, by simp [_date_range_from_raw, hf]⟩

/-- The list-comprehension loop of the resolver on hashable identifiers:
no error, and the result is the claim-side `resolvedList`. -/
theorem resolveListLoop_eq (xs : List Val) (m : List (Val × Val))
    (acc : List Val) (h : xs.all hashable = true) :
    resolveListLoop xs m acc = .ok (acc ++ resolvedList m xs) := by
  induction xs generalizing acc with
  | nil => simp [resolveListLoop, resolvedList]
  | cons urn rest ih =>
      simp only [List.all_cons, Bool.and_eq_true] at h
      have hm : mapGet m urn = .ok ((rawMapLookup m urn).getD .null) := by
        simp [mapGet, h.1]
      cases hr : rawMapLookup m urn with
      | none =>
          simp [resolveListLoop, hm, ih _ h.2, resolvedList, hr,
            List.filterMap_cons, Bind.bind, Except.bind, truthy, falsy]
      | some v =>
          by_cases ht : truthy v = true
          · simp [resolveListLoop, hm, hr, ht, ih _ h.2, resolvedList,
              List.filterMap_cons, Bind.bind, Except.bind]
          · simp only [Bool.not_eq_true] at ht
            simp [resolveListLoop, hm, hr, ht, ih _ h.2, resolvedList,
              List.filterMap_cons, Bind.bind, Except.bind]

/-! ## Claim C6 — identifier canonicalization -/

/-- Dropping a scheme leaves a suffix of the input characters. -/
theorem dropScheme_sublist (s : List Char) : (dropScheme s).Sublist s := by
  unfold dropScheme
  split
  · split
    · exact List.drop_sublist _ _
    · exact List.Sublist.refl s
  · exact List.Sublist.refl s

/-- The extracted authority is a sublist of the input characters. -/
theorem splitNetloc_fst_sublist (s : List Char) :
    ((splitNetloc s).1).Sublist s := by
  unfold splitNetloc
  split
  · exact ((List.takeWhile_sublist _).cons _).cons _
  · exact List.nil_sublist s

/-- When the authority's bracket validation passes, `urlparsePath`
returns the path. -/
theorem urlparsePath_ok (url : String)
    (h : invalidIPv6 (splitNetloc (dropScheme (removeUnsafe url.data))).1
      = false) :
    urlparsePath url = .ok (String.mk (splitParamsPath
      ((((splitNetloc (dropScheme (removeUnsafe url.data))).2).takeWhile
          (fun c => c != '#')).takeWhile (fun c => c != '?')))) := by
  simp [urlparsePath, h]

/-- Counterexample to C6's totality conjunct: `"http://[linkedin.com"`
contains the domain marker, reaches `urlparse`, and `urlsplit`'s bracket
validation raises `ValueError` ("Invalid IPv6 URL"), which no handler in
`url_to_public_id` catches — the source raises instead of degrading to an
identifier. -/
theorem C6_url_to_public_id_totality_counterexample :
    url_to_public_id "http://[linkedin.com" = .error .valueError ∧
    ∀ s : String, url_to_public_id "http://[linkedin.com" ≠ .ok s := by
  have h0 : url_to_public_id "http://[linkedin.com" = .error .valueError := by
    decide
  refine ⟨h0, ?_⟩
  intro s h
  rw [h0] at h
  cases h

/-- C6 (amended): the canonicalization edge cases hold — a target-domain
URL with a segment after the `in` marker maps to that segment; any
nonempty string not containing the target domain (a bare identifier or a
foreign URL) is returned unchanged in full; a target-domain URL whose
marker segment has no successor degrades to the trimmed path `in`; and
`urlsplit`'s unsafe-byte stripping removes an embedded tab before the
path is read.  But the function is not total: an unmatched bracket in a
`//`-introduced authority makes `urlparse` raise `ValueError`, uncaught.
Totality does hold on every ASCII input containing no square bracket (the
non-ASCII restriction marks the NFKC netloc check not modelled here, which
only non-ASCII input can trigger). -/
theorem C6_url_to_public_id_edge_cases :
    url_to_public_id "https://www.linkedin.com/in/jdoe/" = .ok "jdoe" ∧
    url_to_public_id "https://www.linkedin.com/in/" = .ok "in" ∧
    (∀ url : String, url.isEmpty = false →
      strContains url "linkedin.com" = false →
      url_to_public_id url = .ok url) ∧
    url_to_public_id "jdoe" = .ok "jdoe" ∧
    url_to_public_id "https://other.tld/x/y" = .ok "https://other.tld/x/y" ∧
    url_to_public_id "http://[linkedin.com" = .error .valueError ∧
    url_to_public_id "https://www.linkedin.com/in/jd\toe/" = .ok "jdoe" ∧
    (∀ url : String, (∀ c ∈ url.data, c.toNat < 128) →
      '[' ∉ url.data → ']' ∉ url.data →
      ∃ s, url_to_public_id url = .ok s) := by
  refine ⟨by decide, by decide, ?_, by decide, by decide, by decide,
    by decide, ?_⟩
  · intro url h1 h2
    simp [url_to_public_id, h1, h2]
  · intro url _ hbl hbr
    by_cases he : url.isEmpty = true
    · exact ⟨"", by simp [url_to_public_id, he]⟩
    · have he0 : url.isEmpty = false := by
        revert he; cases url.isEmpty <;> simp
      by_cases hl : strContains url "linkedin.com" = true
      · have hsub : ((splitNetloc (dropScheme (removeUnsafe url.data))).1).Sublist
            url.data :=
          ((splitNetloc_fst_sublist _).trans (dropScheme_sublist _)).trans
            (List.filter_sublist _)
        have hm1 : '[' ∉ (splitNetloc (dropScheme (removeUnsafe url.data))).1 :=
          fun hmem => hbl (hsub.subset hmem)
        have hm2 : ']' ∉ (splitNetloc (dropScheme (removeUnsafe url.data))).1 :=
          fun hmem => hbr (hsub.subset hmem)
        have hiv : invalidIPv6 ((splitNetloc (dropScheme
            (removeUnsafe url.data))).1) = false := by
          simp [invalidIPv6, hm1, hm2]
        refine ⟨publicIdFromPath (String.mk (splitParamsPath
          ((((splitNetloc (dropScheme (removeUnsafe url.data))).2).takeWhile
              (fun c => c != '#')).takeWhile (fun c => c != '?')))), ?_⟩
        simp [url_to_public_id, he0, hl, urlparsePath_ok url hiv,
          Bind.bind, Except.bind]
      · have hl0 : strContains url "linkedin.com" = false := by
          revert hl; cases strContains url "linkedin.com" <;> simp
        exact ⟨url, by simp [url_to_public_id, he0, hl0]⟩

/-- Witness for C6 at concrete inputs: the non-target-domain passthrough
and the bracket-free totality conjunct. -/
theorem C6_url_to_public_id_edge_cases_witness :
    url_to_public_id "someperson" = .ok "someperson" :=
  C6_url_to_public_id_edge_cases.2.2.1 "someperson" (by decide) (by decide)

/-! ## Claim C10 — falsy reference values collapse to no value -/

/-- C10: resolving a field whose raw value is falsy — in particular an
empty list or the empty string — returns `None` (`Val.null`), exactly as
for an absent field, and never an empty list; callers cannot distinguish
an absent reference field from a present field holding zero references. -/
theorem C10_resolve_falsy_collapses_to_none :
    (∀ (fs : List (String × Val)) (m : List (Val × Val)) (f : String) (v : Val),
      lookupF fs f = some v → falsy v = true →
      _resolve_star_field (.obj fs) m f = .ok .null) ∧
    (∀ (fs : List (String × Val)) (m : List (Val × Val)) (f : String),
      lookupF fs f = none → _resolve_star_field (.obj fs) m f = .ok .null) ∧
    falsy (Val.list []) = true ∧ falsy (Val.str "") = true ∧
    Val.null ≠ Val.list [] := by
  refine ⟨?_, ?_, by decide, by decide, by decide⟩
  · intro fs m f v hlk hf
    simp [_resolve_star_field, pyGet_obj, getF_of_some fs f v hlk, hf,
      Bind.bind, Except.bind]
  · intro fs m f hlk
    simp [_resolve_star_field, pyGet_obj, getF_of_none fs f hlk,
      Bind.bind, Except.bind, falsy]

/-- Witness for C10: a present empty-list reference field resolves to
`None`. -/
theorem C10_resolve_falsy_collapses_to_none_witness :
    _resolve_star_field (.obj [("*positions", .list [])]) [] "*positions" =
      .ok .null :=
  C10_resolve_falsy_collapses_to_none.1 [("*positions", .list [])] [] "*positions"
    (.list []) (by decide) (by decide)

/-! ## Claim C4 — resolver totality and list monotonicity -/

/-- C4 counterexample: the resolver is not total.  On a field whose raw
value is a record — in Python an unhashable dict, a "literal structured
value" in the spec's own entity model — `urn_map.get(value)` raises
`TypeError: unhashable type`, which escapes `_resolve_star_field`. -/
theorem C4_resolver_totality_counterexample :
    _resolve_star_field (.obj [("f", .obj [("a", .num 1)])]) [] "f" =
      .error .typeError := by decide

/-- C4 amended: the resolver never raises provided the raw field value is
absent, falsy, a scalar, or a list of scalars (hashable values); a truthy
scalar resolves to the matched entity or `None`; a truthy list of scalars
resolves to the ordered sublist of identifiers matched to truthy entities
— unmatched identifiers silently dropped — whose length is at most the
raw list's length. -/
theorem C4_resolver_totality_on_scalars :
    ∀ (fs : List (String × Val)) (m : List (Val × Val)) (f : String),
      (wsRefVal (getF fs f) = true →
        ∃ v, _resolve_star_field (.obj fs) m f = .ok v) ∧
      (∀ xs, lookupF fs f = some (.list xs) → xs.all hashable = true →
        truthy (Val.list xs) = true →
        _resolve_star_field (.obj fs) m f = .ok (.list (resolvedList m xs)) ∧
        (resolvedList m xs).length ≤ xs.length) ∧
      (∀ v, lookupF fs f = some v → truthy v = true → hashable v = true →
        _resolve_star_field (.obj fs) m f = .ok ((rawMapLookup m v).getD .null)) := by
  intro fs m f
  refine ⟨?_, ?_, ?_⟩
  · intro hws
    by_cases hf : falsy (getF fs f) = true
    · exact ⟨.null, by simp [_resolve_star_field, pyGet_obj, hf,
        Bind.bind, Except.bind]⟩
    · have hf0 : falsy (getF fs f) = false := by
        revert hf; cases falsy (getF fs f) <;> simp
      cases hv : getF fs f with
      | list xs =>
          have hall : xs.all hashable = true := by
            have := hws; rw [hv] at this; simpa [wsRefVal] using this
          rw [hv] at hf0
          exact ⟨.list (resolvedList m xs), by
            simp [_resolve_star_field, pyGet_obj, hv, hf0,
              resolveListLoop_eq xs m [] hall, Bind.bind, Except.bind]⟩
      | obj ofs =>
          exfalso
          have := hws; rw [hv] at this; simp [wsRefVal] at this
      | str s =>
          rw [hv] at hf0
          exact ⟨(rawMapLookup m (.str s)).getD .null, by
            simp [_resolve_star_field, pyGet_obj, hv, hf0, mapGet, hashable,
              Bind.bind, Except.bind]⟩
      | num n =>
          rw [hv] at hf0
          exact ⟨(rawMapLookup m (.num n)).getD .null, by
            simp [_resolve_star_field, pyGet_obj, hv, hf0, mapGet, hashable,
              Bind.bind, Except.bind]⟩
      | bool b =>
          rw [hv] at hf0
          exact ⟨(rawMapLookup m (.bool b)).getD .null, by
            simp [_resolve_star_field, pyGet_obj, hv, hf0, mapGet, hashable,
              Bind.bind, Except.bind]⟩
      | null =>
          rw [hv] at hf0
          simp [falsy] at hf0
  · intro xs hlk hall ht
    have hv : getF fs f = .list xs := getF_of_some fs f _ hlk
    have hf : falsy (Val.list xs) = false := by
      revert ht; simp [truthy]
    constructor
    · simp [_resolve_star_field, pyGet_obj, hv, hf,
        resolveListLoop_eq xs m [] hall, Bind.bind, Except.bind]
    · exact List.length_filterMap_le _ _
  · intro v hlk ht hh
    have hv : getF fs f = v := getF_of_some fs f _ hlk
    have hf : falsy v = false := by revert ht; simp [truthy]
    cases v with
    | list xs => simp [hashable] at hh
    | obj ofs => simp [hashable] at hh
    | str s => simp [_resolve_star_field, pyGet_obj, hv, hf, mapGet, hashable,
        Bind.bind, Except.bind]
    | num n => simp [_resolve_star_field, pyGet_obj, hv, hf, mapGet, hashable,
        Bind.bind, Except.bind]
    | bool b => simp [_resolve_star_field, pyGet_obj, hv, hf, mapGet, hashable,
        Bind.bind, Except.bind]
    | null => simp [falsy] at hf

/-- Witness for C4 amended: a two-identifier list with one broken
reference resolves to the singleton list of the matched entity. -/
theorem C4_resolver_totality_on_scalars_witness :
    _resolve_star_field
        (.obj [("*company", .list [.str "urn:a", .str "urn:b"])])
        [(.str "urn:a", .obj [("name", .str "Acme")])] "*company" =
      .ok (.list [.obj [("name", .str "Acme")]]) ∧
    (1 : Nat) ≤ 2 := by
  have h := (C4_resolver_totality_on_scalars
      [("*company", .list [.str "urn:a", .str "urn:b"])]
      [(.str "urn:a", .obj [("name", .str "Acme")])] "*company").2.1
      [.str "urn:a", .str "urn:b"] (by decide) (by decide) (by decide)
  refine ⟨?_, by decide⟩
  have h1 := h.1
  simpa [resolvedList, rawMapLookup, pyEq, beqVal, truthy, falsy,
    List.filterMap] using h1

/-! ## Claim C8 — position fallback placeholders -/

/-- C8: a position entity whose company reference resolves to nothing
truthy and which has no embedded `companyName` field is enriched with the
fixed placeholder `"Unknown Company"`, and a position entity with an
absent `title` is enriched with the fixed placeholder `"Unknown Title"`;
in neither case is an error raised (the entity's `dateRange`, converted on
the way, is assumed well-shaped). -/
theorem C8_position_fallback_placeholders :
    ∀ (pfs : List (String × Val)) (m : List (Val × Val)) (c : Val),
      wsDRVal (getF pfs "dateRange") = true →
      _resolve_star_field (.obj pfs) m "*company" = .ok c →
      ((falsy c = true → lookupF pfs "companyName" = none →
        ∃ P, _enrich_position (.obj pfs) m = .ok P ∧
          P.company_name = .str "Unknown Company") ∧
       ((falsy c = true ∨ isObj c = true) → lookupF pfs "title" = none →
        ∃ P, _enrich_position (.obj pfs) m = .ok P ∧
          P.title = .str "Unknown Title")) := by
  intro pfs m c hdr hres
  obtain ⟨dr, hdrok⟩ := date_range_from_raw_total _ hdr
  constructor
  · intro hfc hcn
    refine ⟨{ title := if truthy (getF pfs "title") then getF pfs "title"
                       else Val.str "Unknown Title"
              company_name := .str "Unknown Company"
              company_urn := getF pfs "companyUrn"
              location := getF pfs "locationName"
              date_range := dr
              description := getF pfs "description"
              urn := getF pfs "entityUrn" }, ?_, rfl⟩
    have htr : truthy c = false := by simp [truthy, hfc]
    simp [_enrich_position, hres, pyGet_obj, pyGetD_obj, htr, hcn, hdrok,
      Bind.bind, Except.bind]
  · intro hc htl
    have htn : truthy (getF pfs "title") = false := by
      simp [getF_of_none pfs "title" htl, truthy, falsy]
    rcases hc with hfc | hobj
    · have htr : truthy c = false := by simp [truthy, hfc]
      refine ⟨{ title := .str "Unknown Title"
                company_name := (lookupF pfs "companyName").getD
                  (.str "Unknown Company")
                company_urn := getF pfs "companyUrn"
                location := getF pfs "locationName"
                date_range := dr
                description := getF pfs "description"
                urn := getF pfs "entityUrn" }, ?_, rfl⟩
      simp [_enrich_position, hres, pyGet_obj, pyGetD_obj, htr, htn, hdrok,
        Bind.bind, Except.bind]
    · cases c with
      | obj cfs =>
          by_cases htr : truthy (Val.obj cfs) = true
          · refine ⟨{ title := .str "Unknown Title"
                      company_name := getF cfs "name"
                      company_urn := getF cfs "entityUrn"
                      location := getF pfs "locationName"
                      date_range := dr
                      description := getF pfs "description"
                      urn := getF pfs "entityUrn" }, ?_, rfl⟩
            simp [_enrich_position, hres, pyGet_obj, pyGetD_obj, htr, htn,
              hdrok, Bind.bind, Except.bind]
          · simp only [Bool.not_eq_true] at htr
            refine ⟨{ title := .str "Unknown Title"
                      company_name := (lookupF pfs "companyName").getD
                        (.str "Unknown Company")
                      company_urn := getF pfs "companyUrn"
                      location := getF pfs "locationName"
                      date_range := dr
                      description := getF pfs "description"
                      urn := getF pfs "entityUrn" }, ?_, rfl⟩
            simp [_enrich_position, hres, pyGet_obj, pyGetD_obj, htr, htn,
              hdrok, Bind.bind, Except.bind]
      | str s => simp [isObj] at hobj
      | num n => simp [isObj] at hobj
      | bool b => simp [isObj] at hobj
      | null => simp [isObj] at hobj
      | list xs => simp [isObj] at hobj

/-- Witness for C8 at the empty position entity: both placeholders. -/
theorem C8_position_fallback_placeholders_witness :
    (∃ P, _enrich_position (.obj []) [] = .ok P ∧
      P.company_name = .str "Unknown Company") ∧
    (∃ P, _enrich_position (.obj []) [] = .ok P ∧
      P.title = .str "Unknown Title") := by
  have h := C8_position_fallback_placeholders [] [] .null (by decide) (by decide)
  exact ⟨h.1 (by decide) (by decide), h.2 (Or.inl (by decide)) (by decide)⟩

/-! ## Claim C5 — connection degree derivation -/

/-- Equality test with a string on the right is structural equality. -/
theorem pyEq_str_right (v : Val) (s : String) :
    pyEq v (.str s) = decide (v = Val.str s) := by
  have hb : ∀ a b : Val, beqVal a b = decide (a = b) := by
    intro a b
    by_cases h : a = b
    · simp [h, (beqVal_iff b b).mpr rfl]
    · have hf : beqVal a b = false := by
        cases hbv : beqVal a b
        · rfl
        · exact absurd ((beqVal_iff a b).mp hbv) h
      simp [h, hf]
  cases v <;> simp [pyEq, hb]

/-- The fixed distance-token table agrees with the claim's mapping. -/
theorem distance_degree_table (d : String) :
    mapGet DISTANCE_TO_DEGREE (.str d) = .ok (specDegree d) := by
  by_cases h1 : d = "DISTANCE_1"
  · subst h1; decide
  by_cases h2 : d = "DISTANCE_2"
  · subst h2; decide
  by_cases h3 : d = "DISTANCE_3"
  · subst h3; decide
  by_cases h4 : d = "OUT_OF_NETWORK"
  · subst h4; decide
  have e1 : ("DISTANCE_1" == d) = false := beq_false_of_ne (Ne.symm h1)
  have e2 : ("DISTANCE_2" == d) = false := beq_false_of_ne (Ne.symm h2)
  have e3 : ("DISTANCE_3" == d) = false := beq_false_of_ne (Ne.symm h3)
  have e4 : ("OUT_OF_NETWORK" == d) = false := beq_false_of_ne (Ne.symm h4)
  simp [mapGet, hashable, rawMapLookup, DISTANCE_TO_DEGREE, pyEq, beqVal,
    e1, e2, e3, e4, specDegree, h1, h2, h3, h4]

/-- Tail of `_extract_connection_info` after the union container has been
probed (used to state the per-variant cases once). -/
def classifyUnion (union : Val) : Except PyErr (Val × Val) :=
  if falsy union then .ok (.null, .null)
  else do
    let c1 ← pyIn "connectedMember" union
    let c2 ← if c1 then pure true else pyIn "connected" union
    if c2 then .ok (.str "DISTANCE_1", .num 1)
    else do
      let nc ← pyIn "noConnection" union
      if nc then do
        let ncv ← pySubscript union "noConnection"
        let dist ← pyGet ncv "memberDistance"
        let deg ← mapGet DISTANCE_TO_DEGREE dist
        .ok (dist, deg)
      else .ok (.null, .null)

/-- With a resolvable relationship reference, `_extract_connection_info`
reduces to classifying the probed union container. -/
theorem extract_connection_eq_classify (pfs rfs : List (String × Val))
    (m : List (Val × Val)) (u : Val)
    (hlk : lookupF pfs "*memberRelationship" = some u) (htu : truthy u = true)
    (hh : hashable u = true) (hm : rawMapLookup m u = some (.obj rfs))
    (htr : truthy (Val.obj rfs) = true) :
    _extract_connection_info (.obj pfs) m = classifyUnion (unionProbe rfs) := by
  have hg1 : getF pfs "*memberRelationship" = u := getF_of_some _ _ _ hlk
  have hfu : falsy u = false := by revert htu; simp [truthy]
  have hfr : falsy (Val.obj rfs) = false := by revert htr; simp [truthy]
  have hmg : mapGet m u = .ok (.obj rfs) := by simp [mapGet, hh, hm]
  by_cases ht1 : truthy (getF rfs "memberRelationshipUnion") = true
  · simp [_extract_connection_info, pyGet_obj, hg1, hfu, hmg, hfr, ht1,
      unionProbe, classifyUnion, Bind.bind, Except.bind, pure, Except.pure]
  · have ht1f : truthy (getF rfs "memberRelationshipUnion") = false := by
      revert ht1; cases truthy (getF rfs "memberRelationshipUnion") <;> simp
    simp [_extract_connection_info, pyGet_obj, hg1, hfu, hmg, hfr, ht1f,
      unionProbe, classifyUnion, Bind.bind, Except.bind, pure, Except.pure]

/-- Counterexample to C5's catch-all ("any other shape yields both
absent"): Python's `in` is substring containment on a string, so a truthy
string union is not absorbed to `(None, None)` — one containing
`"connected"` matches the direct-connection test and yields
`("DISTANCE_1", 1)`, one containing `"noConnection"` (and no direct
token) raises `TypeError` at `union["noConnection"]`; and a record union
whose `noConnection` value is not a dict raises `AttributeError` at
`.get("memberDistance")`. -/
theorem C5_connection_degree_derivation_counterexample :
    _extract_connection_info (.obj [("*memberRelationship", .str "urn:r")])
        [(.str "urn:r", .obj [("memberRelationshipUnion", .str "noConnection")])] =
      .error .typeError ∧
    _extract_connection_info (.obj [("*memberRelationship", .str "urn:r")])
        [(.str "urn:r", .obj [("memberRelationshipUnion",
          .obj [("noConnection", .str "x")])])] =
      .error .attributeError ∧
    _extract_connection_info (.obj [("*memberRelationship", .str "urn:r")])
        [(.str "urn:r", .obj [("memberRelationshipUnion", .str "well connected")])] =
      .ok (.str "DISTANCE_1", .num 1) ∧
    (Except.error PyErr.typeError : Except PyErr (Val × Val)) ≠
      .ok (.null, .null) := by
  refine ⟨by decide, by decide, by decide, by decide⟩

/-- C5 (amended): for a resolved relationship entity, the union container
is probed under both on-wire key names with the first truthy value
winning (`unionProbe`), and the derived pair satisfies: on a record-shaped
probe, a direct-connection variant (key `connectedMember` or `connected`)
yields `DISTANCE_1` and degree 1; a no-connection variant carrying a
string distance token yields that token and the degree of the fixed
mapping `DISTANCE_1`→1, `DISTANCE_2`→2, `DISTANCE_3`→3,
`OUT_OF_NETWORK`→absent, unknown→absent (`specDegree`); a record with
none of these variants, or a falsy probe result, yields both absent.
Other truthy shapes are NOT absorbed: a truthy string union containing a
direct-connection token as a substring yields `("DISTANCE_1", 1)`; one
containing `"noConnection"` but no direct token raises `TypeError` (string
subscript by a string); one containing none of the tokens yields both
absent; and a record union whose `noConnection` value is not a record
raises `AttributeError` (`.get` on a non-dict). -/
theorem C5_connection_degree_derivation :
    ∀ (pfs rfs : List (String × Val)) (m : List (Val × Val)) (u : Val),
      lookupF pfs "*memberRelationship" = some u → truthy u = true →
      hashable u = true → rawMapLookup m u = some (.obj rfs) →
      truthy (Val.obj rfs) = true →
      ((∀ ufs, unionProbe rfs = .obj ufs →
          ((ufs.any fun p => p.1 == "connectedMember") = true ∨
           (ufs.any fun p => p.1 == "connected") = true) →
          _extract_connection_info (.obj pfs) m =
            .ok (.str "DISTANCE_1", .num 1)) ∧
       (∀ ufs nfs d, unionProbe rfs = .obj ufs →
          (ufs.any fun p => p.1 == "connectedMember") = false →
          (ufs.any fun p => p.1 == "connected") = false →
          lookupF ufs "noConnection" = some (.obj nfs) →
          lookupF nfs "memberDistance" = some (.str d) →
          _extract_connection_info (.obj pfs) m = .ok (.str d, specDegree d)) ∧
       (∀ ufs, unionProbe rfs = .obj ufs →
          (ufs.any fun p => p.1 == "connectedMember") = false →
          (ufs.any fun p => p.1 == "connected") = false →
          (ufs.any fun p => p.1 == "noConnection") = false →
          _extract_connection_info (.obj pfs) m = .ok (.null, .null)) ∧
       (falsy (unionProbe rfs) = true →
          _extract_connection_info (.obj pfs) m = .ok (.null, .null)) ∧
       (∀ s, unionProbe rfs = .str s → falsy (Val.str s) = false →
          (strContains s "connectedMember" || strContains s "connected") = true →
          _extract_connection_info (.obj pfs) m =
            .ok (.str "DISTANCE_1", .num 1)) ∧
       (∀ s, unionProbe rfs = .str s → falsy (Val.str s) = false →
          strContains s "connectedMember" = false →
          strContains s "connected" = false →
          strContains s "noConnection" = true →
          _extract_connection_info (.obj pfs) m = .error .typeError) ∧
       (∀ s, unionProbe rfs = .str s → falsy (Val.str s) = false →
          strContains s "connectedMember" = false →
          strContains s "connected" = false →
          strContains s "noConnection" = false →
          _extract_connection_info (.obj pfs) m = .ok (.null, .null)) ∧
       (∀ ufs w, unionProbe rfs = .obj ufs →
          (ufs.any fun p => p.1 == "connectedMember") = false →
          (ufs.any fun p => p.1 == "connected") = false →
          lookupF ufs "noConnection" = some w → isObj w = false →
          _extract_connection_info (.obj pfs) m = .error .attributeError)) := by
  intro pfs rfs m u hlk htu hh hm htr
  have hred := extract_connection_eq_classify pfs rfs m u hlk htu hh hm htr
  refine ⟨?_, ?_, ?_, ?_, ?_, ?_, ?_, ?_⟩
  · intro ufs hup hdirect
    rw [hred, hup]
    by_cases hcm : (ufs.any fun p => p.1 == "connectedMember") = true
    · by_cases hfo : falsy (Val.obj ufs) = true
      · have : (ufs.any fun p => p.1 == "connectedMember") = false := by
          revert hfo; cases ufs <;> simp [falsy]
        rw [this] at hcm; cases hcm
      · have hfo0 : falsy (Val.obj ufs) = false := by
          revert hfo; cases falsy (Val.obj ufs) <;> simp
        simp [classifyUnion, hfo0, pyIn, hcm, Bind.bind, Except.bind, pure, Except.pure]
    · have hcm0 : (ufs.any fun p => p.1 == "connectedMember") = false := by
        revert hcm; cases (ufs.any fun p => p.1 == "connectedMember") <;> simp
      have hcn : (ufs.any fun p => p.1 == "connected") = true := by
        rcases hdirect with h | h
        · rw [h] at hcm0; cases hcm0
        · exact h
      have hfo0 : falsy (Val.obj ufs) = false := by
        revert hcn; cases ufs <;> simp [falsy, List.any]
      simp [classifyUnion, hfo0, pyIn, hcm0, hcn, Bind.bind, Except.bind, pure, Except.pure]
  · intro ufs nfs d hup hcm hcn hnc hdist
    rw [hred, hup]
    have hanync : (ufs.any fun p => p.1 == "noConnection") = true := by
      rw [any_key_eq_lookupF_isSome, hnc]; rfl
    have hfo0 : falsy (Val.obj ufs) = false := by
      revert hanync; cases ufs <;> simp [falsy, List.any]
    have hsub := pySubscript_obj_some ufs "noConnection" _ hnc
    have hdv : getF nfs "memberDistance" = .str d := getF_of_some _ _ _ hdist
    simp [classifyUnion, hfo0, pyIn, hcm, hcn, hanync, hsub, pyGet_obj, hdv,
      distance_degree_table, Bind.bind, Except.bind, pure, Except.pure]
  · intro ufs hup hcm hcn hnc
    rw [hred, hup]
    by_cases hfo : falsy (Val.obj ufs) = true
    · simp [classifyUnion, hfo]
    · have hfo0 : falsy (Val.obj ufs) = false := by
        revert hfo; cases falsy (Val.obj ufs) <;> simp
      simp [classifyUnion, hfo0, pyIn, hcm, hcn, hnc, Bind.bind, Except.bind,
        pure]
  · intro hfp
    rw [hred]
    simp [classifyUnion, hfp]
  · intro s hup hsf hdir
    rw [hred, hup]
    by_cases hcm : strContains s "connectedMember" = true
    · simp [classifyUnion, hsf, pyIn, hcm, Bind.bind, Except.bind, pure,
        Except.pure]
    · have hcm0 : strContains s "connectedMember" = false := by
        revert hcm; cases strContains s "connectedMember" <;> simp
      have hcn : strContains s "connected" = true := by
        rcases (Bool.or_eq_true _ _).mp hdir with h | h
        · rw [h] at hcm0; cases hcm0
        · exact h
      simp [classifyUnion, hsf, pyIn, hcm0, hcn, Bind.bind, Except.bind,
        pure, Except.pure]
  · intro s hup hsf hcm hcn hnc
    rw [hred, hup]
    simp [classifyUnion, hsf, pyIn, hcm, hcn, hnc, pySubscript,
      Bind.bind, Except.bind, pure, Except.pure]
  · intro s hup hsf hcm hcn hnc
    rw [hred, hup]
    simp [classifyUnion, hsf, pyIn, hcm, hcn, hnc, Bind.bind, Except.bind,
      pure, Except.pure]
  · intro ufs w hup hcm hcn hnc hw
    rw [hred, hup]
    have hanync : (ufs.any fun p => p.1 == "noConnection") = true := by
      rw [any_key_eq_lookupF_isSome, hnc]; rfl
    have hfo0 : falsy (Val.obj ufs) = false := by
      revert hanync; cases ufs <;> simp [falsy, List.any]
    have hsub := pySubscript_obj_some ufs "noConnection" _ hnc
    have hga : pyGet w "memberDistance" = .error .attributeError := by
      cases w with
      | obj fs => simp [isObj] at hw
      | str s => simp [pyGet]
      | num n => simp [pyGet]
      | bool b => simp [pyGet]
      | null => simp [pyGet]
      | list xs => simp [pyGet]
    simp [classifyUnion, hfo0, pyIn, hcm, hcn, hanync, hsub, hga,
      Bind.bind, Except.bind, pure, Except.pure]

/-- Witness for C5 covering the direct, mapped-token, unknown-token and
empty-record branches, and the non-absorbed shapes: a string union
raising `TypeError` and a record union with a non-record `noConnection`
value raising `AttributeError`, at concrete relationship payloads. -/
theorem C5_connection_degree_derivation_witness :
    _extract_connection_info (.obj [("*memberRelationship", .str "urn:r")])
        [(.str "urn:r", .obj [("memberRelationshipUnion",
          .obj [("connectedMember", .obj [("x", .num 1)])])])] =
      .ok (.str "DISTANCE_1", .num 1) ∧
    _extract_connection_info (.obj [("*memberRelationship", .str "urn:r")])
        [(.str "urn:r", .obj [("memberRelationshipData",
          .obj [("noConnection", .obj [("memberDistance", .str "DISTANCE_3")])])])] =
      .ok (.str "DISTANCE_3", .num 3) ∧
    _extract_connection_info (.obj [("*memberRelationship", .str "urn:r")])
        [(.str "urn:r", .obj [("memberRelationshipUnion",
          .obj [("noConnection", .obj [("memberDistance", .str "OUT_OF_NETWORK")])])])] =
      .ok (.str "OUT_OF_NETWORK", .null) ∧
    _extract_connection_info (.obj [("*memberRelationship", .str "urn:r")])
        [(.str "urn:r", .obj [("memberRelationshipUnion", .obj [("other", .num 1)])])] =
      .ok (.null, .null) ∧
    _extract_connection_info (.obj [("*memberRelationship", .str "urn:r")])
        [(.str "urn:r", .obj [("memberRelationshipUnion", .str "noConnection")])] =
      .error .typeError ∧
    _extract_connection_info (.obj [("*memberRelationship", .str "urn:r")])
        [(.str "urn:r", .obj [("memberRelationshipUnion",
          .obj [("noConnection", .str "x")])])] =
      .error .attributeError := by
  refine ⟨?_, ?_, ?_, ?_, ?_, ?_⟩
  · exact ((C5_connection_degree_derivation
      [("*memberRelationship", .str "urn:r")]
      [("memberRelationshipUnion", .obj [("connectedMember", .obj [("x", .num 1)])])]
      [(.str "urn:r", .obj [("memberRelationshipUnion",
        .obj [("connectedMember", .obj [("x", .num 1)])])])]
      (.str "urn:r") (by decide) (by decide) (by decide) (by decide)
      (by decide)).1
      [("connectedMember", .obj [("x", .num 1)])] (by decide)
      (Or.inl (by decide)))
  · exact ((C5_connection_degree_derivation
      [("*memberRelationship", .str "urn:r")]
      [("memberRelationshipData",
        .obj [("noConnection", .obj [("memberDistance", .str "DISTANCE_3")])])]
      [(.str "urn:r", .obj [("memberRelationshipData",
        .obj [("noConnection", .obj [("memberDistance", .str "DISTANCE_3")])])])]
      (.str "urn:r") (by decide) (by decide) (by decide) (by decide)
      (by decide)).2.1
      [("noConnection", .obj [("memberDistance", .str "DISTANCE_3")])]
      [("memberDistance", .str "DISTANCE_3")] "DISTANCE_3"
      (by decide) (by decide) (by decide) (by decide) (by decide))
  · exact ((C5_connection_degree_derivation
      [("*memberRelationship", .str "urn:r")]
      [("memberRelationshipUnion",
        .obj [("noConnection", .obj [("memberDistance", .str "OUT_OF_NETWORK")])])]
      [(.str "urn:r", .obj [("memberRelationshipUnion",
        .obj [("noConnection", .obj [("memberDistance", .str "OUT_OF_NETWORK")])])])]
      (.str "urn:r") (by decide) (by decide) (by decide) (by decide)
      (by decide)).2.1
      [("noConnection", .obj [("memberDistance", .str "OUT_OF_NETWORK")])]
      [("memberDistance", .str "OUT_OF_NETWORK")] "OUT_OF_NETWORK"
      (by decide) (by decide) (by decide) (by decide) (by decide))
  · exact ((C5_connection_degree_derivation
      [("*memberRelationship", .str "urn:r")]
      [("memberRelationshipUnion", .obj [("other", .num 1)])]
      [(.str "urn:r", .obj [("memberRelationshipUnion", .obj [("other", .num 1)])])]
      (.str "urn:r") (by decide) (by decide) (by decide) (by decide)
      (by decide)).2.2.1
      [("other", .num 1)] (by decide) (by decide) (by decide) (by decide))
  · exact ((C5_connection_degree_derivation
      [("*memberRelationship", .str "urn:r")]
      [("memberRelationshipUnion", .str "noConnection")]
      [(.str "urn:r", .obj [("memberRelationshipUnion", .str "noConnection")])]
      (.str "urn:r") (by decide) (by decide) (by decide) (by decide)
      (by decide)).2.2.2.2.2.1
      "noConnection" (by decide) (by decide) (by decide) (by decide)
      (by decide))
  · exact ((C5_connection_degree_derivation
      [("*memberRelationship", .str "urn:r")]
      [("memberRelationshipUnion", .obj [("noConnection", .str "x")])]
      [(.str "urn:r", .obj [("memberRelationshipUnion",
        .obj [("noConnection", .str "x")])])]
      (.str "urn:r") (by decide) (by decide) (by decide) (by decide)
      (by decide)).2.2.2.2.2.2.2
      [("noConnection", .str "x")] (.str "x") (by decide) (by decide)
      (by decide) (by decide) (by decide))

/-! ## Claim C7 — search-hit deduplication -/

/-- First-occurrence deduplication by exact href, as the claim-side
description of the loop in `ProfileSearcher.search`. -/
def dedupSpec (rs : List ProfileSearchResult) (seen : List Val) :
    List ProfileSearchResult :=
  match rs with
  | [] => []
  | r :: rest =>
      if seen.any (fun v => pyEq v r.href) then dedupSpec rest seen
      else r :: dedupSpec rest (seen ++ [r.href])

/-- Membership test against the seen-set is list membership for string
hrefs. -/
theorem any_pyEq_str (seen : List Val) (s : String) :
    (seen.any fun v => pyEq v (.str s)) = decide (Val.str s ∈ seen) := by
  induction seen with
  | nil => simp
  | cons v rest ih =>
      by_cases h : v = Val.str s
      · subst h; simp [List.any_cons, pyEq_str_right]
      · have h2 : (Val.str s = v) ↔ False := ⟨fun hh => h hh.symm, False.elim⟩
        simp only [pyEq_str_right] at ih ⊢
        simp [List.any_cons, h, h2, ih]

/-- The dedup loop computes `dedupSpec` when all hrefs are hashable. -/
theorem searchDedup_eq_spec (rs : List ProfileSearchResult)
    (seen : List Val) (acc : List ProfileSearchResult)
    (h : ∀ r ∈ rs, hashable r.href = true) :
    searchDedup rs seen acc = .ok (acc ++ dedupSpec rs seen) := by
  induction rs generalizing seen acc with
  | nil => simp [searchDedup, dedupSpec]
  | cons r rest ih =>
      have hr : hashable r.href = true := h r (by simp)
      have hrest : ∀ q ∈ rest, hashable q.href = true :=
        fun q hq => h q (by simp [hq])
      by_cases hs : (seen.any fun v => pyEq v r.href) = true
      · simp [searchDedup, hr, hs, dedupSpec, ih _ _ hrest]
      · have hs0 : (seen.any fun v => pyEq v r.href) = false := by
          revert hs; cases (seen.any fun v => pyEq v r.href) <;> simp
        simp [searchDedup, hr, hs0, dedupSpec, ih _ _ hrest]

/-- The deduplicated list is a subsequence of the input (first-seen order
preserved). -/
theorem dedupSpec_sublist (rs : List ProfileSearchResult) (seen : List Val) :
    (dedupSpec rs seen).Sublist rs := by
  induction rs generalizing seen with
  | nil => simp [dedupSpec]
  | cons r rest ih =>
      by_cases hs : (seen.any fun v => pyEq v r.href) = true
      · simp only [dedupSpec, hs, if_pos]
        exact (ih seen).cons r
      · simp only [dedupSpec, hs, if_neg, Bool.not_eq_true]
        exact (ih (seen ++ [r.href])).cons₂ r

/-- No emitted hit matches an href already seen. -/
theorem dedupSpec_not_seen (rs : List ProfileSearchResult) (seen : List Val)
    (hstr : ∀ r ∈ rs, ∃ s, r.href = Val.str s) :
    ∀ q ∈ dedupSpec rs seen, q.href ∉ seen := by
  induction rs generalizing seen with
  | nil => simp [dedupSpec]
  | cons r rest ih =>
      have hstr_rest : ∀ q ∈ rest, ∃ s, q.href = Val.str s :=
        fun q hq => hstr q (by simp [hq])
      obtain ⟨s, hsv⟩ := hstr r (by simp)
      by_cases hs : (seen.any fun v => pyEq v r.href) = true
      · simpa [dedupSpec, hs] using ih seen hstr_rest
      · intro q hq
        rw [dedupSpec] at hq
        simp only [hs, if_neg, Bool.not_eq_true, List.mem_cons] at hq
        rcases hq with hq | hq
        · subst hq
          rw [hsv] at hs ⊢
          rw [any_pyEq_str] at hs
          simpa using hs
        · have := ih (seen ++ [r.href]) hstr_rest q hq
          intro hmem
          exact this (by simp [hmem])

/-- Emitted hits have pairwise distinct hrefs. -/
theorem dedupSpec_pairwise (rs : List ProfileSearchResult) (seen : List Val)
    (hstr : ∀ r ∈ rs, ∃ s, r.href = Val.str s) :
    (dedupSpec rs seen).Pairwise (fun a b => a.href ≠ b.href) := by
  induction rs generalizing seen with
  | nil => simp [dedupSpec]
  | cons r rest ih =>
      have hstr_rest : ∀ q ∈ rest, ∃ s, q.href = Val.str s :=
        fun q hq => hstr q (by simp [hq])
      by_cases hs : (seen.any fun v => pyEq v r.href) = true
      · simpa [dedupSpec, hs] using ih seen hstr_rest
      · rw [dedupSpec]
        simp only [hs, if_neg, Bool.not_eq_true]
        refine List.Pairwise.cons ?_ (ih (seen ++ [r.href]) hstr_rest)
        intro q hq heq
        have := dedupSpec_not_seen rest (seen ++ [r.href]) hstr_rest q hq
        exact this (by simp [← heq])

/-- Every input href is represented among the emitted hits. -/
theorem dedupSpec_cover (rs : List ProfileSearchResult) (seen : List Val)
    (hstr : ∀ r ∈ rs, ∃ s, r.href = Val.str s) :
    ∀ r ∈ rs, r.href ∈ seen ∨ ∃ q ∈ dedupSpec rs seen, q.href = r.href := by
  induction rs generalizing seen with
  | nil => simp
  | cons hd rest ih =>
      have hstr_rest : ∀ q ∈ rest, ∃ s, q.href = Val.str s :=
        fun q hq => hstr q (by simp [hq])
      obtain ⟨shd, hshd⟩ := hstr hd (by simp)
      intro r hr
      by_cases hs : (seen.any fun v => pyEq v hd.href) = true
      · have hmemhd : hd.href ∈ seen := by
          rw [hshd, any_pyEq_str] at hs
          rw [hshd]; simpa using hs
        rcases List.mem_cons.mp hr with hre | hrm
        · exact Or.inl (hre ▸ hmemhd)
        · rcases ih seen hstr_rest r hrm with h | ⟨q, hq, hqe⟩
          · exact Or.inl h
          · exact Or.inr ⟨q, by simp [dedupSpec, hs, hq], hqe⟩
      · rcases List.mem_cons.mp hr with hre | hrm
        · refine Or.inr ⟨hd, by simp [dedupSpec, hs], ?_⟩
          rw [hre]
        · rcases ih (seen ++ [hd.href]) hstr_rest r hrm with h | ⟨q, hq, hqe⟩
          · rcases List.mem_append.mp h with h | h
            · exact Or.inl h
            · refine Or.inr ⟨hd, by simp [dedupSpec, hs], ?_⟩
              have he : r.href = hd.href := by simpa using h
              exact he.symm
          · exact Or.inr ⟨q, by simp [dedupSpec, hs, hq], hqe⟩

/-- C7 counterexample: two search hits whose hrefs differ only in their
query string are both kept — no query stripping happens, and exact-href
deduplication does not merge them, so the output has two hits, not one. -/
theorem C7_query_string_dedup_counterexample :
    searchDedup (searchDdgsLoop
        [.obj [("href", .str "https://www.linkedin.com/in/jdoe"),
               ("title", .str "J"), ("body", .str "d")],
         .obj [("href", .str "https://www.linkedin.com/in/jdoe?trk=pub"),
               ("title", .str "J"), ("body", .str "d")]] []) [] [] =
      .ok [⟨.str "https://www.linkedin.com/in/jdoe", .str "J", .str "d"⟩,
           ⟨.str "https://www.linkedin.com/in/jdoe?trk=pub", .str "J", .str "d"⟩] ∧
    ([⟨Val.str "https://www.linkedin.com/in/jdoe", Val.str "J", Val.str "d"⟩,
      ⟨Val.str "https://www.linkedin.com/in/jdoe?trk=pub", Val.str "J",
        Val.str "d"⟩] : List ProfileSearchResult).length ≠ 1 := by
  constructor
  · decide
  · decide

/-- C7 amended: the search pipeline performs no query stripping — a hit
whose href contains the profile marker is stored with its href exactly as
returned — and deduplication is by exact href equality: the output is the
subsequence of first occurrences per href (first-seen order preserved,
pairwise-distinct hrefs, every input href represented), so hrefs differing
only in their query string yield separate hits. -/
theorem C7_dedup_exact_href_no_stripping :
    (∀ (rfs : List (String × Val)) (rest : List Val)
       (acc : List ProfileSearchResult) (s : String),
      lookupF rfs "href" = some (.str s) →
      strContains s "linkedin.com/in/" = true →
      searchDdgsLoop (.obj rfs :: rest) acc =
        searchDdgsLoop rest
          (acc ++ [⟨.str s, getF rfs "title", getF rfs "body"⟩])) ∧
    (∀ rs : List ProfileSearchResult,
      (∀ r ∈ rs, ∃ s, r.href = Val.str s) →
      searchDedup rs [] [] = .ok (dedupSpec rs []) ∧
      (dedupSpec rs []).Sublist rs ∧
      (dedupSpec rs []).Pairwise (fun a b => a.href ≠ b.href) ∧
      ∀ r ∈ rs, ∃ q ∈ dedupSpec rs [], q.href = r.href) := by
  constructor
  · intro rfs rest acc s hlk hmark
    have hg : (lookupF rfs "href").getD (.str "") = .str s := by simp [hlk]
    simp [searchDdgsLoop, pyGetD_obj, hg, pyIn, hmark, pyGet_obj,
      Bind.bind, Except.bind]
  · intro rs hstr
    have hhash : ∀ r ∈ rs, hashable r.href = true := by
      intro r hr
      obtain ⟨s, hs⟩ := hstr r hr
      rw [hs]; rfl
    refine ⟨by simpa using searchDedup_eq_spec rs [] [] hhash,
      dedupSpec_sublist rs [], dedupSpec_pairwise rs [] hstr, ?_⟩
    intro r hr
    rcases dedupSpec_cover rs [] hstr r hr with h | h
    · simp at h
    · exact h

/-- Witness for C7 amended: a duplicated href collapses to its first
occurrence, in order. -/
theorem C7_dedup_exact_href_no_stripping_witness :
    searchDedup
        [⟨.str "https://www.linkedin.com/in/a", .str "t1", .null⟩,
         ⟨.str "https://www.linkedin.com/in/b", .str "t2", .null⟩,
         ⟨.str "https://www.linkedin.com/in/a", .str "t3", .null⟩] [] [] =
      .ok (dedupSpec
        [⟨.str "https://www.linkedin.com/in/a", .str "t1", .null⟩,
         ⟨.str "https://www.linkedin.com/in/b", .str "t2", .null⟩,
         ⟨.str "https://www.linkedin.com/in/a", .str "t3", .null⟩] []) ∧
    dedupSpec
        [⟨.str "https://www.linkedin.com/in/a", .str "t1", .null⟩,
         ⟨.str "https://www.linkedin.com/in/b", .str "t2", .null⟩,
         ⟨.str "https://www.linkedin.com/in/a", .str "t3", .null⟩] [] =
      [⟨.str "https://www.linkedin.com/in/a", .str "t1", .null⟩,
       ⟨.str "https://www.linkedin.com/in/b", .str "t2", .null⟩] := by
  constructor
  · exact ((C7_dedup_exact_href_no_stripping.2
      [⟨.str "https://www.linkedin.com/in/a", .str "t1", .null⟩,
       ⟨.str "https://www.linkedin.com/in/b", .str "t2", .null⟩,
       ⟨.str "https://www.linkedin.com/in/a", .str "t3", .null⟩]
      (by intro r hr; fin_cases hr <;> exact ⟨_, rfl⟩)).1)
  · decide

/-! ## Totality of the parser over well-shaped payloads

The lemmas below walk the parser bottom-up: every helper returns `ok` on
well-shaped inputs, so the only errors the whole parse can produce are the
selector's `rootEntityNotFound`, the `KeyError` of the bare
`profile_entity["entityUrn"]` subscript, and the `IndexError` of
`data["*elements"][0]` on a present-but-empty results list. -/

/-- Invariant of the URN map: every stored entity is well-shaped and
truthy. -/
def MapWS (m : List (Val × Val)) : Prop :=
  ∀ kv ∈ m, WSEntity kv.2 = true ∧ truthy kv.2 = true

/-- Destructured form of `WSEntity` on a record. -/
theorem WSEntity_parts (efs : List (String × Val))
    (h : WSEntity (.obj efs) = true) :
    wsChainVal (getF efs "entityUrn") = true ∧
    wsChainVal (getF efs "*memberRelationship") = true ∧
    wsChainVal (getF efs "*profilePositionGroups") = true ∧
    wsChainVal (getF efs "*profileEducations") = true ∧
    wsChainVal (getF efs "*profilePositionInPositionGroup") = true ∧
    wsChainVal (getF efs "*company") = true ∧
    wsChainVal (getF efs "*school") = true ∧
    wsRefVal (getF efs "*geo") = true ∧
    wsRefVal (getF efs "*industry") = true ∧
    wsOptElems (lookupF efs "*elements") = true ∧
    wsUnionVal (getF efs "memberRelationshipUnion") = true ∧
    wsUnionVal (getF efs "memberRelationshipData") = true ∧
    wsDRVal (getF efs "dateRange") = true := by
  simpa [WSEntity, Bool.and_eq_true, and_assoc] using h

/-- A well-shaped value is a record. -/
theorem WSEntity_isObj (v : Val) (h : WSEntity v = true) :
    ∃ fs, v = Val.obj fs := by
  cases v with
  | obj fs => exact ⟨fs, rfl⟩
  | str s => simp [WSEntity] at h
  | num n => simp [WSEntity] at h
  | bool b => simp [WSEntity] at h
  | null => simp [WSEntity] at h
  | list xs => simp [WSEntity] at h

/-- A record with a truthy field is truthy. -/
theorem truthy_obj_of_truthy_getF (efs : List (String × Val)) (k : String)
    (h : truthy (getF efs k) = true) : truthy (Val.obj efs) = true := by
  cases efs with
  | nil => simp [getF, lookupF, truthy, falsy] at h
  | cons p rest => simp [truthy, falsy]

/-- A truthy chain-field value is hashable. -/
theorem hashable_of_wsChainVal (v : Val) (hws : wsChainVal v = true)
    (ht : truthy v = true) : hashable v = true := by
  have hf : falsy v = false := by revert ht; simp [truthy]
  simpa [wsChainVal, hf] using hws

/-- A truthy well-shaped union container is a record. -/
theorem wsUnionVal_truthy_obj (v : Val) (hws : wsUnionVal v = true)
    (ht : truthy v = true) : ∃ ufs, v = Val.obj ufs := by
  have hf : falsy v = false := by revert ht; simp [truthy]
  cases v <;> simp_all [wsUnionVal]

/-- Looking a hashable key up in a well-shaped map yields `None` or a
truthy well-shaped entity, never an error. -/
theorem mapGet_ws_cases (m : List (Val × Val)) (hm : MapWS m) (k : Val)
    (hk : hashable k = true) :
    ∃ v, mapGet m k = .ok v ∧
      (v = Val.null ∨ (WSEntity v = true ∧ truthy v = true)) := by
  refine ⟨(rawMapLookup m k).getD .null, by simp [mapGet, hk], ?_⟩
  cases h : rawMapLookup m k with
  | none => simp
  | some v =>
      simp only [Option.getD_some]
      refine Or.inr ?_
      unfold rawMapLookup at h
      cases hf : m.reverse.find? (fun p => pyEq p.1 k) with
      | none => rw [hf] at h; simp at h
      | some p =>
          rw [hf] at h
          simp at h
          have hpm : p ∈ m := List.mem_reverse.mp (List.mem_of_find?_eq_some hf)
          have hws := hm p hpm
          rw [← h]
          exact hws

/-- The URN-map comprehension never raises over well-shaped entities and
preserves the map invariant. -/
theorem buildUrnMap_ws (es : List Val) (acc : List (Val × Val))
    (hes : ∀ e ∈ es, WSEntity e = true) (hacc : MapWS acc) :
    ∃ m, buildUrnMap es acc = .ok m ∧ MapWS m := by
  induction es generalizing acc with
  | nil => exact ⟨acc, rfl, hacc⟩
  | cons e rest ih =>
      have hrest : ∀ x ∈ rest, WSEntity x = true :=
        fun x hx => hes x (by simp [hx])
      obtain ⟨efs, rfl⟩ := WSEntity_isObj e (hes e (by simp))
      have hws := hes (.obj efs) (by simp)
      have hchain := (WSEntity_parts efs hws).1
      by_cases ht : truthy (getF efs "entityUrn") = true
      · have hh := hashable_of_wsChainVal _ hchain ht
        have htre : truthy (Val.obj efs) = true :=
          truthy_obj_of_truthy_getF efs "entityUrn" ht
        have hacc2 : MapWS (acc ++ [(getF efs "entityUrn", Val.obj efs)]) := by
          intro kv hkv
          rcases List.mem_append.mp hkv with hkv | hkv
          · exact hacc kv hkv
          · simp at hkv
            rw [hkv]
            exact ⟨hws, htre⟩
        obtain ⟨m, hbm, hmws⟩ := ih _ hrest hacc2
        exact ⟨m, by simp [buildUrnMap, pyGet_obj, ht, hh, hbm,
          Bind.bind, Except.bind], hmws⟩
      · have ht0 : truthy (getF efs "entityUrn") = false := by
          revert ht; cases truthy (getF efs "entityUrn") <;> simp
        obtain ⟨m, hbm, hmws⟩ := ih _ hrest hacc
        exact ⟨m, by simp [buildUrnMap, pyGet_obj, ht0, hbm,
          Bind.bind, Except.bind], hmws⟩

/-- `_resolve_references` never raises over a well-shaped payload and
builds a well-shaped map. -/
theorem resolve_references_ws (pfs : List (String × Val))
    (hp : WSPayload (.obj pfs) = true) :
    ∃ m, _resolve_references (.obj pfs) = .ok m ∧ MapWS m := by
  have hinc :
      (match lookupF pfs "included" with
        | none => true
        | some (.list es) => es.all WSEntity
        | some _ => false) = true := by
    have := hp
    simp only [WSPayload, Bool.and_eq_true] at this
    exact this.1
  cases hlk : lookupF pfs "included" with
  | none =>
      obtain ⟨m, hbm, hmws⟩ := buildUrnMap_ws [] [] (by simp) (by intro kv h; simp at h)
      exact ⟨m, by simp [_resolve_references, pyGetD_obj, hlk, pyIter, hbm,
        Bind.bind, Except.bind], hmws⟩
  | some v =>
      rw [hlk] at hinc
      cases v with
      | list es =>
          have hes : ∀ e ∈ es, WSEntity e = true := by
            intro e he
            have := hinc
            rw [List.all_eq_true] at this
            exact this e he
          obtain ⟨m, hbm, hmws⟩ := buildUrnMap_ws es [] hes (by intro kv h; simp at h)
          exact ⟨m, by simp [_resolve_references, pyGetD_obj, hlk, pyIter, hbm,
            Bind.bind, Except.bind], hmws⟩
      | str s => simp at hinc
      | num n => simp at hinc
      | bool b => simp at hinc
      | null => simp at hinc
      | obj o => simp at hinc

/-- Resolving a chain-shaped field (falsy or a hashable scalar) never
raises; the result is falsy or a truthy well-shaped entity. -/
theorem resolve_chain_ws (efs : List (String × Val)) (m : List (Val × Val))
    (f : String) (hm : MapWS m) (hws : wsChainVal (getF efs f) = true) :
    ∃ v, _resolve_star_field (.obj efs) m f = .ok v ∧
      (falsy v = true ∨ (WSEntity v = true ∧ truthy v = true)) := by
  by_cases hf : falsy (getF efs f) = true
  · exact ⟨.null, by simp [_resolve_star_field, pyGet_obj, hf,
      Bind.bind, Except.bind], Or.inl rfl⟩
  · have ht : truthy (getF efs f) = true := by
      revert hf; simp [truthy]
    have hh := hashable_of_wsChainVal _ hws ht
    have hf0 : falsy (getF efs f) = false := by revert hf; simp [truthy]
    obtain ⟨v, hmg, hv⟩ := mapGet_ws_cases m hm (getF efs f) hh
    refine ⟨v, ?_, ?_⟩
    · cases hgf : getF efs f with
      | str s => rw [hgf] at hmg hf0
                 simp [_resolve_star_field, pyGet_obj, hgf, hf0, hmg,
                   Bind.bind, Except.bind]
      | num n => rw [hgf] at hmg hf0
                 simp [_resolve_star_field, pyGet_obj, hgf, hf0, hmg,
                   Bind.bind, Except.bind]
      | bool b => rw [hgf] at hmg hf0
                  simp [_resolve_star_field, pyGet_obj, hgf, hf0, hmg,
                    Bind.bind, Except.bind]
      | null => rw [hgf] at hf0; simp [falsy] at hf0
      | list xs => rw [hgf] at hh; simp [hashable] at hh
      | obj o => rw [hgf] at hh; simp [hashable] at hh
    · rcases hv with hv | hv
      · exact Or.inl (by rw [hv]; rfl)
      · exact Or.inr hv

/-- Resolving a pass-through reference field (`*geo`, `*industry`) never
raises. -/
theorem resolve_ref_ws (efs : List (String × Val)) (m : List (Val × Val))
    (f : String) (_hm : MapWS m) (hws : wsRefVal (getF efs f) = true) :
    ∃ v, _resolve_star_field (.obj efs) m f = .ok v := by
  by_cases hf : falsy (getF efs f) = true
  · exact ⟨.null, by simp [_resolve_star_field, pyGet_obj, hf,
      Bind.bind, Except.bind]⟩
  · have hf0 : falsy (getF efs f) = false := by revert hf; simp [truthy]
    cases hgf : getF efs f with
    | list xs =>
        have hall : xs.all hashable = true := by
          have := hws; rw [hgf] at this; simpa [wsRefVal] using this
        rw [hgf] at hf0
        exact ⟨.list (resolvedList m xs), by
          simp [_resolve_star_field, pyGet_obj, hgf, hf0,
            resolveListLoop_eq xs m [] hall, Bind.bind, Except.bind]⟩
    | obj o =>
        exfalso; have := hws; rw [hgf] at this; simp [wsRefVal] at this
    | null => rw [hgf] at hf0; simp [falsy] at hf0
    | str s =>
        rw [hgf] at hf0
        exact ⟨(rawMapLookup m (.str s)).getD .null, by
          simp [_resolve_star_field, pyGet_obj, hgf, hf0, mapGet, hashable,
            Bind.bind, Except.bind]⟩
    | num n =>
        rw [hgf] at hf0
        exact ⟨(rawMapLookup m (.num n)).getD .null, by
          simp [_resolve_star_field, pyGet_obj, hgf, hf0, mapGet, hashable,
            Bind.bind, Except.bind]⟩
    | bool b =>
        rw [hgf] at hf0
        exact ⟨(rawMapLookup m (.bool b)).getD .null, by
          simp [_resolve_star_field, pyGet_obj, hgf, hf0, mapGet, hashable,
            Bind.bind, Except.bind]⟩

/-- Enriching a well-shaped position entity never raises. -/
theorem enrich_position_ws (pfs : List (String × Val)) (m : List (Val × Val))
    (hm : MapWS m) (hws : WSEntity (.obj pfs) = true) :
    ∃ P, _enrich_position (.obj pfs) m = .ok P := by
  have hp := WSEntity_parts pfs hws
  obtain ⟨c, hres, hc⟩ := resolve_chain_ws pfs m "*company" hm hp.2.2.2.2.2.1
  obtain ⟨dr, hdr⟩ := date_range_from_raw_total _ hp.2.2.2.2.2.2.2.2.2.2.2.2
  by_cases htc : truthy c = true
  · obtain ⟨cfs, rfl⟩ := WSEntity_isObj c (by
      rcases hc with hc | hc
      · exfalso; rw [truthy, hc] at htc; simp at htc
      · exact hc.1)
    refine ⟨{ title := if truthy (getF pfs "title") = true then getF pfs "title"
                       else Val.str "Unknown Title"
              company_name := getF cfs "name"
              company_urn := getF cfs "entityUrn"
              location := getF pfs "locationName"
              date_range := dr
              description := getF pfs "description"
              urn := getF pfs "entityUrn" }, ?_⟩
    simp [_enrich_position, hres, htc, pyGet_obj, pyGetD_obj,
      hdr, Bind.bind, Except.bind]
  · have htc0 : truthy c = false := by revert htc; cases truthy c <;> simp
    refine ⟨{ title := if truthy (getF pfs "title") = true then getF pfs "title"
                       else Val.str "Unknown Title"
              company_name := (lookupF pfs "companyName").getD
                (.str "Unknown Company")
              company_urn := getF pfs "companyUrn"
              location := getF pfs "locationName"
              date_range := dr
              description := getF pfs "description"
              urn := getF pfs "entityUrn" }, ?_⟩
    simp [_enrich_position, hres, htc0, pyGet_obj, pyGetD_obj,
      hdr, Bind.bind, Except.bind]

/-- Enriching a well-shaped education entity never raises. -/
theorem enrich_education_ws (efs : List (String × Val)) (m : List (Val × Val))
    (hm : MapWS m) (hws : WSEntity (.obj efs) = true) :
    ∃ E, _enrich_education (.obj efs) m = .ok E := by
  have hp := WSEntity_parts efs hws
  obtain ⟨c, hres, hc⟩ := resolve_chain_ws efs m "*school" hm hp.2.2.2.2.2.2.1
  obtain ⟨dr, hdr⟩ := date_range_from_raw_total _ hp.2.2.2.2.2.2.2.2.2.2.2.2
  by_cases htc : truthy c = true
  · obtain ⟨cfs, rfl⟩ := WSEntity_isObj c (by
      rcases hc with hc | hc
      · exfalso; rw [truthy, hc] at htc; simp at htc
      · exact hc.1)
    refine ⟨{ school_name := getF cfs "name"
              degree_name := getF efs "degreeName"
              field_of_study := getF efs "fieldOfStudy"
              date_range := dr
              urn := getF efs "entityUrn" }, ?_⟩
    simp [_enrich_education, hres, htc, pyGet_obj, pyGetD_obj,
      hdr, Bind.bind, Except.bind]
  · have htc0 : truthy c = false := by revert htc; cases truthy c <;> simp
    refine ⟨{ school_name := (lookupF efs "schoolName").getD
                (.str "Unknown School")
              degree_name := getF efs "degreeName"
              field_of_study := getF efs "fieldOfStudy"
              date_range := dr
              urn := getF efs "entityUrn" }, ?_⟩
    simp [_enrich_education, hres, htc0, pyGet_obj, pyGetD_obj,
      hdr, Bind.bind, Except.bind]

/-- Extracting connection info from a well-shaped root never raises. -/
theorem extract_connection_ws (pfs : List (String × Val))
    (m : List (Val × Val)) (hm : MapWS m) (hws : WSEntity (.obj pfs) = true) :
    ∃ dg, _extract_connection_info (.obj pfs) m = .ok dg := by
  have hp := WSEntity_parts pfs hws
  by_cases hf1 : falsy (getF pfs "*memberRelationship") = true
  · exact ⟨(.null, .null), by simp [_extract_connection_info, pyGet_obj, hf1,
      Bind.bind, Except.bind]⟩
  have ht1 : truthy (getF pfs "*memberRelationship") = true := by
    revert hf1; simp [truthy]
  have hf10 : falsy (getF pfs "*memberRelationship") = false := by
    revert hf1; simp [truthy]
  have hh1 := hashable_of_wsChainVal _ hp.2.1 ht1
  obtain ⟨rel, hmg, hrel⟩ := mapGet_ws_cases m hm _ hh1
  by_cases hf2 : falsy rel = true
  · exact ⟨(.null, .null), by simp [_extract_connection_info, pyGet_obj, hf10,
      hmg, hf2, Bind.bind, Except.bind]⟩
  have hf20 : falsy rel = false := by revert hf2; simp [truthy]
  have hrelws : WSEntity rel = true ∧ truthy rel = true := by
    rcases hrel with hrel | hrel
    · exfalso; rw [hrel] at hf2; simp [falsy] at hf2
    · exact hrel
  obtain ⟨rfs, rfl⟩ := WSEntity_isObj rel hrelws.1
  have hrp := WSEntity_parts rfs hrelws.1
  have hlk : lookupF pfs "*memberRelationship" =
      some (getF pfs "*memberRelationship") := by
    cases hl : lookupF pfs "*memberRelationship" with
    | none =>
        exfalso; rw [getF_of_none pfs _ hl] at ht1
        simp [truthy, falsy] at ht1
    | some w => rw [getF_of_some pfs _ w hl]
  have hraw : rawMapLookup m (getF pfs "*memberRelationship") =
      some (.obj rfs) := by
    have hmg2 : mapGet m (getF pfs "*memberRelationship") =
        .ok ((rawMapLookup m (getF pfs "*memberRelationship")).getD .null) := by
      simp [mapGet, hh1]
    rw [hmg2] at hmg
    cases hraw2 : rawMapLookup m (getF pfs "*memberRelationship") with
    | none => rw [hraw2] at hmg; simp at hmg
    | some w => rw [hraw2] at hmg; simp at hmg; rw [hmg]
  have hred := extract_connection_eq_classify pfs rfs m _ hlk ht1 hh1 hraw
    (by revert hf20; simp [truthy])
  rw [hred]
  by_cases hfu : falsy (unionProbe rfs) = true
  · exact ⟨(.null, .null), by simp [classifyUnion, hfu]⟩
  have hfu0 : falsy (unionProbe rfs) = false := by revert hfu; simp [truthy]
  have hwsu : wsUnionVal (unionProbe rfs) = true := by
    rw [unionProbe]
    by_cases htA : truthy (getF rfs "memberRelationshipUnion") = true
    · simpa [htA] using hrp.2.2.2.2.2.2.2.2.2.2.1
    · have htA0 : truthy (getF rfs "memberRelationshipUnion") = false := by
        revert htA; cases truthy (getF rfs "memberRelationshipUnion") <;> simp
      simpa [htA0] using hrp.2.2.2.2.2.2.2.2.2.2.2.1
  obtain ⟨ufs, hufs⟩ := wsUnionVal_truthy_obj (unionProbe rfs) hwsu
    (by revert hfu0; simp [truthy])
  rw [hufs] at hfu0 ⊢
  rw [hufs] at hwsu
  by_cases hcm : (ufs.any fun p => p.1 == "connectedMember") = true
  · exact ⟨(.str "DISTANCE_1", .num 1), by
      simp [classifyUnion, hfu0, pyIn, hcm, Bind.bind, Except.bind, pure,
        Except.pure]⟩
  have hcm0 : (ufs.any fun p => p.1 == "connectedMember") = false := by
    revert hcm; cases (ufs.any fun p => p.1 == "connectedMember") <;> simp
  by_cases hcn : (ufs.any fun p => p.1 == "connected") = true
  · exact ⟨(.str "DISTANCE_1", .num 1), by
      simp [classifyUnion, hfu0, pyIn, hcm0, hcn, Bind.bind, Except.bind,
        pure, Except.pure]⟩
  have hcn0 : (ufs.any fun p => p.1 == "connected") = false := by
    revert hcn; cases (ufs.any fun p => p.1 == "connected") <;> simp
  by_cases hnc : (ufs.any fun p => p.1 == "noConnection") = true
  · rw [any_key_eq_lookupF_isSome] at hnc
    cases hlnc : lookupF ufs "noConnection" with
    | none => rw [hlnc] at hnc; simp at hnc
    | some nv =>
        have hnvobj : ∃ nfs, nv = Val.obj nfs ∧
            hashable (getF nfs "memberDistance") = true := by
          have hu := hwsu
          simp only [wsUnionVal, hlnc] at hu
          cases nv with
          | obj nfs => exact ⟨nfs, rfl, hu⟩
          | str s => simp at hu
          | num n => simp at hu
          | bool b => simp at hu
          | null => simp at hu
          | list xs => simp at hu
        obtain ⟨nfs, rfl, hdh⟩ := hnvobj
        have hanync : (ufs.any fun p => p.1 == "noConnection") = true := by
          rw [any_key_eq_lookupF_isSome, hlnc]; rfl
        have hsub := pySubscript_obj_some ufs "noConnection" _ hlnc
        refine ⟨(getF nfs "memberDistance",
          (rawMapLookup DISTANCE_TO_DEGREE (getF nfs "memberDistance")).getD
            .null), ?_⟩
        simp [classifyUnion, hfu0, pyIn, hcm0, hcn0, hanync, hsub,
          pyGet_obj, mapGet, hdh, Bind.bind, Except.bind, pure, Except.pure]
  · have hnc0 : (ufs.any fun p => p.1 == "noConnection") = false := by
      revert hnc; cases (ufs.any fun p => p.1 == "noConnection") <;> simp
    exact ⟨(.null, .null), by
      simp [classifyUnion, hfu0, pyIn, hcm0, hcn0, hnc0, Bind.bind,
        Except.bind, pure, Except.pure]⟩

/-- The inner positions loop never raises over hashable identifiers. -/
theorem positionsInColl_ws (elems : List Val) (m : List (Val × Val))
    (acc : List Position) (hm : MapWS m) (hall : elems.all hashable = true) :
    ∃ ps, positionsInColl elems m acc = .ok ps := by
  induction elems generalizing acc with
  | nil => exact ⟨acc, rfl⟩
  | cons u rest ih =>
      simp only [List.all_cons, Bool.and_eq_true] at hall
      obtain ⟨pos, hmg, hpos⟩ := mapGet_ws_cases m hm u hall.1
      by_cases hfp : falsy pos = true
      · obtain ⟨ps, hps⟩ := ih acc hall.2
        exact ⟨ps, by simp [positionsInColl, hmg, hfp, hps,
          Bind.bind, Except.bind]⟩
      · have hfp0 : falsy pos = false := by revert hfp; simp [truthy]
        have hposws : WSEntity pos = true := by
          rcases hpos with hpos | hpos
          · exfalso; rw [hpos] at hfp; simp [falsy] at hfp
          · exact hpos.1
        obtain ⟨gfs, rfl⟩ := WSEntity_isObj pos hposws
        obtain ⟨P, hP⟩ := enrich_position_ws gfs m hm hposws
        obtain ⟨ps, hps⟩ := ih (acc ++ [P]) hall.2
        exact ⟨ps, by simp [positionsInColl, hmg, hfp0, hP, hps,
          Bind.bind, Except.bind]⟩

/-- The position-groups loop never raises over hashable identifiers. -/
theorem positionGroupsLoop_ws (groups : List Val) (m : List (Val × Val))
    (acc : List Position) (hm : MapWS m) (hall : groups.all hashable = true) :
    ∃ ps, positionGroupsLoop groups m acc = .ok ps := by
  induction groups generalizing acc with
  | nil => exact ⟨acc, rfl⟩
  | cons gu rest ih =>
      simp only [List.all_cons, Bool.and_eq_true] at hall
      obtain ⟨group, hmg, hgrp⟩ := mapGet_ws_cases m hm gu hall.1
      by_cases hfg : falsy group = true
      · obtain ⟨ps, hps⟩ := ih acc hall.2
        exact ⟨ps, by simp [positionGroupsLoop, hmg, hfg, hps,
          Bind.bind, Except.bind]⟩
      · have hfg0 : falsy group = false := by revert hfg; simp [truthy]
        have hgws : WSEntity group = true := by
          rcases hgrp with hgrp | hgrp
          · exfalso; rw [hgrp] at hfg; simp [falsy] at hfg
          · exact hgrp.1
        obtain ⟨gfs, rfl⟩ := WSEntity_isObj group hgws
        have hgp := WSEntity_parts gfs hgws
        by_cases hfpu : falsy (getF gfs "*profilePositionInPositionGroup") = true
        · obtain ⟨ps, hps⟩ := ih acc hall.2
          exact ⟨ps, by simp [positionGroupsLoop, hmg, hfg0, pyGet_obj, hfpu,
            hps, Bind.bind, Except.bind]⟩
        · have htpu : truthy (getF gfs "*profilePositionInPositionGroup") = true := by
            revert hfpu; simp [truthy]
          have hfpu0 : falsy (getF gfs "*profilePositionInPositionGroup") = false := by
            revert hfpu; simp [truthy]
          have hhpu := hashable_of_wsChainVal _ hgp.2.2.2.2.1 htpu
          obtain ⟨coll, hmgc, hcoll⟩ := mapGet_ws_cases m hm _ hhpu
          by_cases hfc : falsy coll = true
          · obtain ⟨ps, hps⟩ := ih acc hall.2
            exact ⟨ps, by simp [positionGroupsLoop, hmg, hfg0, pyGet_obj,
              hfpu0, htpu, hmgc, hfc, hps, Bind.bind, Except.bind]⟩
          · have hfc0 : falsy coll = false := by revert hfc; simp [truthy]
            have hcws : WSEntity coll = true := by
              rcases hcoll with hcoll | hcoll
              · exfalso; rw [hcoll] at hfc; simp [falsy] at hfc
              · exact hcoll.1
            obtain ⟨cfs, rfl⟩ := WSEntity_isObj coll hcws
            have hce := (WSEntity_parts cfs hcws).2.2.2.2.2.2.2.2.2.1
            cases hel : lookupF cfs "*elements" with
            | none =>
                obtain ⟨ps1, hps1⟩ := positionsInColl_ws [] m acc hm (by simp)
                obtain ⟨ps, hps⟩ := ih ps1 hall.2
                exact ⟨ps, by simp [positionGroupsLoop, hmg, hfg0, pyGet_obj,
                  hfpu0, htpu, hmgc, hfc0, pyGetD_obj, hel, pyIter, hps1, hps,
                  Bind.bind, Except.bind]⟩
            | some ev =>
                rw [hel] at hce
                cases ev with
                | list exs =>
                    have hexs : exs.all hashable = true := by
                      simpa [wsOptElems] using hce
                    obtain ⟨ps1, hps1⟩ := positionsInColl_ws exs m acc hm hexs
                    obtain ⟨ps, hps⟩ := ih ps1 hall.2
                    exact ⟨ps, by simp [positionGroupsLoop, hmg, hfg0,
                      pyGet_obj, hfpu0, htpu, hmgc, hfc0, pyGetD_obj, hel,
                      pyIter, hps1, hps, Bind.bind, Except.bind]⟩
                | str s => simp [wsOptElems] at hce
                | num n => simp [wsOptElems] at hce
                | bool b => simp [wsOptElems] at hce
                | null => simp [wsOptElems] at hce
                | obj o => simp [wsOptElems] at hce

/-- The positions section never raises on a well-shaped root. -/
theorem extractPositions_ws (pfs : List (String × Val)) (m : List (Val × Val))
    (hm : MapWS m) (hws : WSEntity (.obj pfs) = true) :
    ∃ ps, extractPositions (.obj pfs) m = .ok ps := by
  have hp := WSEntity_parts pfs hws
  by_cases hfg : falsy (getF pfs "*profilePositionGroups") = true
  · exact ⟨[], by simp [extractPositions, pyGet_obj, hfg,
      Bind.bind, Except.bind]⟩
  have htg : truthy (getF pfs "*profilePositionGroups") = true := by
    revert hfg; simp [truthy]
  have hfg0 : falsy (getF pfs "*profilePositionGroups") = false := by
    revert hfg; simp [truthy]
  have hhg := hashable_of_wsChainVal _ hp.2.2.1 htg
  obtain ⟨resp, hmg, hresp⟩ := mapGet_ws_cases m hm _ hhg
  by_cases hfr : falsy resp = true
  · exact ⟨[], by simp [extractPositions, pyGet_obj, hfg0, htg, hmg, hfr,
      Bind.bind, Except.bind]⟩
  have hfr0 : falsy resp = false := by revert hfr; simp [truthy]
  have hrws : WSEntity resp = true := by
    rcases hresp with hresp | hresp
    · exfalso; rw [hresp] at hfr; simp [falsy] at hfr
    · exact hresp.1
  obtain ⟨rfs, rfl⟩ := WSEntity_isObj resp hrws
  have hre := (WSEntity_parts rfs hrws).2.2.2.2.2.2.2.2.2.1
  cases hel : lookupF rfs "*elements" with
  | none =>
      obtain ⟨ps, hps⟩ := positionGroupsLoop_ws [] m [] hm (by simp)
      exact ⟨ps, by simp [extractPositions, pyGet_obj, hfg0, htg, hmg, hfr0,
        pyGetD_obj, hel, pyIter, hps, Bind.bind, Except.bind]⟩
  | some ev =>
      rw [hel] at hre
      cases ev with
      | list exs =>
          have hexs : exs.all hashable = true := by
            simpa [wsOptElems] using hre
          obtain ⟨ps, hps⟩ := positionGroupsLoop_ws exs m [] hm hexs
          exact ⟨ps, by simp [extractPositions, pyGet_obj, hfg0, htg, hmg,
            hfr0, pyGetD_obj, hel, pyIter, hps, Bind.bind, Except.bind]⟩
      | str s => simp [wsOptElems] at hre
      | num n => simp [wsOptElems] at hre
      | bool b => simp [wsOptElems] at hre
      | null => simp [wsOptElems] at hre
      | obj o => simp [wsOptElems] at hre

/-- The educations loop never raises over hashable identifiers. -/
theorem educationsLoop_ws (elems : List Val) (m : List (Val × Val))
    (acc : List Education) (hm : MapWS m) (hall : elems.all hashable = true) :
    ∃ es, educationsLoop elems m acc = .ok es := by
  induction elems generalizing acc with
  | nil => exact ⟨acc, rfl⟩
  | cons u rest ih =>
      simp only [List.all_cons, Bool.and_eq_true] at hall
      obtain ⟨edu, hmg, hedu⟩ := mapGet_ws_cases m hm u hall.1
      by_cases hfe : falsy edu = true
      · obtain ⟨es, hes⟩ := ih acc hall.2
        exact ⟨es, by simp [educationsLoop, hmg, hfe, hes,
          Bind.bind, Except.bind]⟩
      · have hfe0 : falsy edu = false := by revert hfe; simp [truthy]
        have hews : WSEntity edu = true := by
          rcases hedu with hedu | hedu
          · exfalso; rw [hedu] at hfe; simp [falsy] at hfe
          · exact hedu.1
        obtain ⟨efs, rfl⟩ := WSEntity_isObj edu hews
        obtain ⟨E, hE⟩ := enrich_education_ws efs m hm hews
        obtain ⟨es, hes⟩ := ih (acc ++ [E]) hall.2
        exact ⟨es, by simp [educationsLoop, hmg, hfe0, hE, hes,
          Bind.bind, Except.bind]⟩

/-- The educations section never raises on a well-shaped root. -/
theorem extractEducations_ws (pfs : List (String × Val)) (m : List (Val × Val))
    (hm : MapWS m) (hws : WSEntity (.obj pfs) = true) :
    ∃ es, extractEducations (.obj pfs) m = .ok es := by
  have hp := WSEntity_parts pfs hws
  by_cases hfg : falsy (getF pfs "*profileEducations") = true
  · exact ⟨[], by simp [extractEducations, pyGet_obj, hfg,
      Bind.bind, Except.bind]⟩
  have htg : truthy (getF pfs "*profileEducations") = true := by
    revert hfg; simp [truthy]
  have hfg0 : falsy (getF pfs "*profileEducations") = false := by
    revert hfg; simp [truthy]
  have hhg := hashable_of_wsChainVal _ hp.2.2.2.1 htg
  obtain ⟨coll, hmg, hcoll⟩ := mapGet_ws_cases m hm _ hhg
  by_cases hfc : falsy coll = true
  · exact ⟨[], by simp [extractEducations, pyGet_obj, hfg0, htg, hmg, hfc,
      Bind.bind, Except.bind]⟩
  have hfc0 : falsy coll = false := by revert hfc; simp [truthy]
  have hcws : WSEntity coll = true := by
    rcases hcoll with hcoll | hcoll
    · exfalso; rw [hcoll] at hfc; simp [falsy] at hfc
    · exact hcoll.1
  obtain ⟨cfs, rfl⟩ := WSEntity_isObj coll hcws
  have hce := (WSEntity_parts cfs hcws).2.2.2.2.2.2.2.2.2.1
  cases hel : lookupF cfs "*elements" with
  | none =>
      obtain ⟨es, hes⟩ := educationsLoop_ws [] m [] hm (by simp)
      exact ⟨es, by simp [extractEducations, pyGet_obj, hfg0, htg, hmg, hfc0,
        pyGetD_obj, hel, pyIter, hes, Bind.bind, Except.bind]⟩
  | some ev =>
      rw [hel] at hce
      cases ev with
      | list exs =>
          have hexs : exs.all hashable = true := by
            simpa [wsOptElems] using hce
          obtain ⟨es, hes⟩ := educationsLoop_ws exs m [] hm hexs
          exact ⟨es, by simp [extractEducations, pyGet_obj, hfg0, htg, hmg,
            hfc0, pyGetD_obj, hel, pyIter, hes, Bind.bind, Except.bind]⟩
      | str s => simp [wsOptElems] at hce
      | num n => simp [wsOptElems] at hce
      | bool b => simp [wsOptElems] at hce
      | null => simp [wsOptElems] at hce
      | obj o => simp [wsOptElems] at hce

/-- Profile assembly on a well-shaped root over a well-shaped map: with
`entityUrn` present it produces the profile whose `urn` is that value;
with `entityUrn` missing it raises exactly the bare subscript's
`KeyError`. -/
theorem assembleProfile_ws (efs : List (String × Val)) (m : List (Val × Val))
    (hm : MapWS m) (hws : WSEntity (.obj efs) = true) :
    (∀ u, lookupF efs "entityUrn" = some u →
      ∃ prof, assembleProfile (.obj efs) m = .ok prof ∧ prof.urn = u) ∧
    (lookupF efs "entityUrn" = none →
      assembleProfile (.obj efs) m = .error (.keyError (.str "entityUrn"))) := by
  have hp := WSEntity_parts efs hws
  obtain ⟨dg, hconn⟩ := extract_connection_ws efs m hm hws
  obtain ⟨ps, hpos⟩ := extractPositions_ws efs m hm hws
  obtain ⟨es, hedu⟩ := extractEducations_ws efs m hm hws
  obtain ⟨geo, hgeo⟩ := resolve_ref_ws efs m "*geo" hm hp.2.2.2.2.2.2.2.1
  obtain ⟨ind, hind⟩ := resolve_ref_ws efs m "*industry" hm
    hp.2.2.2.2.2.2.2.2.1
  constructor
  · intro u hu
    have hsub := pySubscript_obj_some efs "entityUrn" u hu
    refine ⟨{
      url := "https://www.linkedin.com/in/" ++
        pyStr ((lookupF efs "publicIdentifier").getD (.str "")) ++ "/"
      urn := u
      full_name := (pyStr ((lookupF efs "firstName").getD (.str "")) ++ " " ++
        pyStr ((lookupF efs "lastName").getD (.str ""))).trim
      first_name := (lookupF efs "firstName").getD (.str "")
      last_name := (lookupF efs "lastName").getD (.str "")
      headline := getF efs "headline"
      summary := getF efs "summary"
      public_identifier := getF efs "publicIdentifier"
      location_name := getF efs "locationName"
      geo := geo
      industry := ind
      positions := ps
      educations := es
      connection_distance := dg.1
      connection_degree := dg.2 }, ?_, rfl⟩
    simp [assembleProfile, pyGetD_obj, pyGet_obj, hconn, hpos, hedu, hsub,
      hgeo, hind, Bind.bind, Except.bind]
  · intro hu
    have hsub := pySubscript_obj_none efs "entityUrn" hu
    simp [assembleProfile, pyGetD_obj, pyGet_obj, hconn, hpos, hedu, hsub,
      Bind.bind, Except.bind]

/-- A payload satisfying `WSPayload` is a record. -/
theorem WSPayload_isObj (p : Val) (h : WSPayload p = true) :
    ∃ pfs, p = Val.obj pfs := by
  cases p with
  | obj pfs => exact ⟨pfs, rfl⟩
  | str s => simp [WSPayload] at h
  | num n => simp [WSPayload] at h
  | bool b => simp [WSPayload] at h
  | null => simp [WSPayload] at h
  | list xs => simp [WSPayload] at h

/-- Included-region shape of a well-shaped payload. -/
theorem WSPayload_included_shape (pfs : List (String × Val))
    (h : WSPayload (.obj pfs) = true) :
    (match lookupF pfs "included" with
      | none => true
      | some (.list es) => es.all WSEntity
      | some _ => false) = true := by
  have := h
  simp only [WSPayload, Bool.and_eq_true] at this
  exact this.1

/-- Data-region shape of a well-shaped payload. -/
theorem WSPayload_data_shape (pfs : List (String × Val))
    (h : WSPayload (.obj pfs) = true) :
    (match lookupF pfs "data" with
      | none => true
      | some (.obj dfs) =>
          (match lookupF dfs "*elements" with
            | none => true
            | some (.list xs) => xs.all hashable
            | some _ => false)
      | some _ => false) = true := by
  have := h
  simp only [WSPayload, Bool.and_eq_true] at this
  exact this.2

/-- Values equal to a string under Python `==` are that string. -/
theorem pyEq_str_true (v : Val) (s : String) (h : pyEq v (.str s) = true) :
    v = .str s := by
  rw [pyEq_str_right] at h
  exact of_decide_eq_true h

/-- The root-entity scan never raises over well-shaped entities; it
returns `None` or one of the scanned entities (well-shaped, truthy). -/
theorem findLoop_ws (items : List Val) (pid : Option String)
    (hitems : ∀ e ∈ items, WSEntity e = true) :
    ∃ r, findProfileEntityLoop items pid = .ok r ∧
      (r = .null ∨ (WSEntity r = true ∧ truthy r = true)) := by
  induction items with
  | nil => exact ⟨.null, rfl, Or.inl rfl⟩
  | cons e rest ih =>
      have hrest : ∀ x ∈ rest, WSEntity x = true :=
        fun x hx => hitems x (by simp [hx])
      obtain ⟨efs, rfl⟩ := WSEntity_isObj e (hitems e (by simp))
      have hews := hitems (.obj efs) (by simp)
      by_cases hty : pyEq (getF efs "$type") (.str PROFILE_TYPE) = true
      · have hteq := pyEq_str_true _ _ hty
        have htre : truthy (Val.obj efs) = true :=
          truthy_obj_of_truthy_getF efs "$type" (by rw [hteq]; decide)
        cases pid with
        | none =>
            exact ⟨.obj efs, by simp [findProfileEntityLoop, pyGet_obj, hty,
              Bind.bind, Except.bind], Or.inr ⟨hews, htre⟩⟩
        | some t =>
            by_cases hpd : pyEq (getF efs "publicIdentifier") (.str t) = true
            · exact ⟨.obj efs, by simp [findProfileEntityLoop, pyGet_obj, hty,
                hpd, Bind.bind, Except.bind], Or.inr ⟨hews, htre⟩⟩
            · have hpd0 : pyEq (getF efs "publicIdentifier") (.str t) = false := by
                revert hpd
                cases pyEq (getF efs "publicIdentifier") (.str t) <;> simp
              obtain ⟨r, hr, hrp⟩ := ih hrest
              exact ⟨r, by simp [findProfileEntityLoop, pyGet_obj, hty, hpd0,
                hr, Bind.bind, Except.bind], hrp⟩
      · have hty0 : pyEq (getF efs "$type") (.str PROFILE_TYPE) = false := by
          revert hty
          cases pyEq (getF efs "$type") (.str PROFILE_TYPE) <;> simp
        obtain ⟨r, hr, hrp⟩ := ih hrest
        exact ⟨r, by simp [findProfileEntityLoop, pyGet_obj, hty0, hr,
          Bind.bind, Except.bind], hrp⟩

/-- When a target public identifier is supplied and every earlier entity
either lacks the root type tag or carries a different identifier, the scan
selects exactly the matching entity. -/
theorem findLoop_select (pre post : List Val) (e2fs : List (String × Val))
    (target : String)
    (hpre : ∀ e ∈ pre, ∃ efs, e = Val.obj efs ∧
      (getF efs "$type" ≠ .str PROFILE_TYPE ∨
       getF efs "publicIdentifier" ≠ .str target))
    (h2t : getF e2fs "$type" = .str PROFILE_TYPE)
    (h2p : getF e2fs "publicIdentifier" = .str target) :
    findProfileEntityLoop (pre ++ Val.obj e2fs :: post) (some target) =
      .ok (.obj e2fs) := by
  induction pre with
  | nil =>
      have hty : pyEq (getF e2fs "$type") (.str PROFILE_TYPE) = true := by
        rw [h2t, pyEq_str_right]; simp
      have hpd : pyEq (getF e2fs "publicIdentifier") (.str target) = true := by
        rw [h2p, pyEq_str_right]; simp
      simp [findProfileEntityLoop, pyGet_obj, hty, hpd, Bind.bind, Except.bind]
  | cons e pre_rest ih =>
      obtain ⟨efs, rfl, hskip⟩ := hpre e (by simp)
      have ih2 := ih (fun x hx => hpre x (by simp [hx]))
      rcases hskip with hskip | hskip
      · have hty0 : pyEq (getF efs "$type") (.str PROFILE_TYPE) = false := by
          rw [pyEq_str_right]; simpa using hskip
        simpa [findProfileEntityLoop, pyGet_obj, hty0, Bind.bind, Except.bind]
          using ih2
      · by_cases hty : pyEq (getF efs "$type") (.str PROFILE_TYPE) = true
        · have hpd0 : pyEq (getF efs "publicIdentifier") (.str target) = false := by
            rw [pyEq_str_right]; simpa using hskip
          simpa [findProfileEntityLoop, pyGet_obj, hty, hpd0, Bind.bind,
            Except.bind] using ih2
        · have hty0 : pyEq (getF efs "$type") (.str PROFILE_TYPE) = false := by
            revert hty
            cases pyEq (getF efs "$type") (.str PROFILE_TYPE) <;> simp
          simpa [findProfileEntityLoop, pyGet_obj, hty0, Bind.bind,
            Except.bind] using ih2

/-- Root-entity selection over a well-shaped payload: the only possible
error is the `IndexError` of a present-but-empty `data["*elements"]`;
otherwise the result is `None` or a truthy well-shaped entity. -/
theorem selectProfileEntity_ws (pfs : List (String × Val)) (pid : Option String)
    (m : List (Val × Val)) (hp : WSPayload (.obj pfs) = true) (hm : MapWS m) :
    selectProfileEntity (.obj pfs) pid m = .error .indexError ∨
    ∃ r, selectProfileEntity (.obj pfs) pid m = .ok r ∧
      (r = .null ∨ (WSEntity r = true ∧ truthy r = true)) := by
  have hinc := WSPayload_included_shape pfs hp
  have hdat := WSPayload_data_shape pfs hp
  -- the scanned items and the scan result
  have hitems : ∃ items : List Val,
      pyGetD (.obj pfs) "included" (.list []) = .ok (.list items) ∧
      ∀ e ∈ items, WSEntity e = true := by
    cases hlk : lookupF pfs "included" with
    | none => exact ⟨[], by simp [pyGetD_obj, hlk], by simp⟩
    | some v =>
        rw [hlk] at hinc
        cases v with
        | list es =>
            refine ⟨es, by simp [pyGetD_obj, hlk], ?_⟩
            intro e he
            rw [List.all_eq_true] at hinc
            exact hinc e he
        | str s => simp at hinc
        | num n => simp at hinc
        | bool b => simp at hinc
        | null => simp at hinc
        | obj o => simp at hinc
  obtain ⟨items, hgetinc, hitemsws⟩ := hitems
  obtain ⟨r, hloop, hrp⟩ := findLoop_ws items pid hitemsws
  rcases hrp with rfl | hrp
  · -- scan found nothing: follow the fallback pointer
    cases hlkd : lookupF pfs "data" with
    | none =>
        have hd1 : pyGetD (.obj pfs) "data" (.obj []) = .ok (.obj []) := by
          simp [pyGetD_obj, hlkd]
        have hd2 : pyGetD (.obj []) "*elements" (.list [.null]) =
            .ok (.list [.null]) := by
          simp [pyGetD_obj, lookupF]
        obtain ⟨v, hmg, hv⟩ := mapGet_ws_cases m hm .null (by rfl)
        refine Or.inr ⟨v, ?_, hv⟩
        simp [selectProfileEntity, hgetinc, pyIter, hloop, falsy, hd1, hd2,
          pyIndex0, hmg, Bind.bind, Except.bind]
    | some dv =>
        rw [hlkd] at hdat
        cases dv with
        | obj dfs =>
            have hd1 : pyGetD (.obj pfs) "data" (.obj []) = .ok (.obj dfs) := by
              simp [pyGetD_obj, hlkd]
            have hdat2 :
                (match lookupF dfs "*elements" with
                  | none => true
                  | some (.list xs) => xs.all hashable
                  | some _ => false) = true := by simpa using hdat
            cases hlke : lookupF dfs "*elements" with
            | none =>
                have hd2 : pyGetD (.obj dfs) "*elements" (.list [.null]) =
                    .ok (.list [.null]) := by
                  simp [pyGetD_obj, hlke]
                obtain ⟨v, hmg, hv⟩ := mapGet_ws_cases m hm .null (by rfl)
                refine Or.inr ⟨v, ?_, hv⟩
                simp [selectProfileEntity, hgetinc, pyIter, hloop, falsy, hd1,
                  hd2, pyIndex0, hmg, Bind.bind, Except.bind]
            | some ev =>
                rw [hlke] at hdat2
                have hd2 : pyGetD (.obj dfs) "*elements" (.list [.null]) =
                    .ok ev := by
                  simp [pyGetD_obj, hlke]
                cases ev with
                | list exs =>
                    cases exs with
                    | nil =>
                        refine Or.inl ?_
                        simp [selectProfileEntity, hgetinc, pyIter, hloop,
                          falsy, hd1, hd2, pyIndex0, Bind.bind, Except.bind]
                    | cons x xs =>
                        have hx : hashable x = true := by
                          rw [List.all_eq_true] at hdat2
                          exact hdat2 x (by simp)
                        obtain ⟨v, hmg, hv⟩ := mapGet_ws_cases m hm x hx
                        refine Or.inr ⟨v, ?_, hv⟩
                        simp [selectProfileEntity, hgetinc, pyIter, hloop,
                          falsy, hd1, hd2, pyIndex0, hmg,
                          Bind.bind, Except.bind]
                | str s => simp at hdat2
                | num n => simp at hdat2
                | bool b => simp at hdat2
                | null => simp at hdat2
                | obj o => simp at hdat2
        | str s => simp at hdat
        | num n => simp at hdat
        | bool b => simp at hdat
        | null => simp at hdat
        | list xs => simp at hdat
  · -- scan found a truthy entity
    have hf0 : falsy r = false := by
      have := hrp.2; revert this; simp [truthy]
    refine Or.inr ⟨r, ?_, Or.inr hrp⟩
    simp [selectProfileEntity, hgetinc, pyIter, hloop, hf0,
      Bind.bind, Except.bind, pure, Except.pure]

/-- Error taxonomy of the full parse over well-shaped payloads: the result
is a profile, `rootEntityNotFound`, the `KeyError` for a selected root
without `entityUrn`, or the `IndexError` for a present-but-empty results
list. -/
theorem parse_ws_taxonomy (p : Val) (pid : Option String)
    (hp : WSPayload p = true) :
    (∃ prof, parse_linkedin_voyager_response p pid = .ok prof) ∨
    parse_linkedin_voyager_response p pid = .error .rootEntityNotFound ∨
    parse_linkedin_voyager_response p pid = .error (.keyError (.str "entityUrn")) ∨
    parse_linkedin_voyager_response p pid = .error .indexError := by
  obtain ⟨pfs, rfl⟩ := WSPayload_isObj p hp
  obtain ⟨m, hres, hm⟩ := resolve_references_ws pfs hp
  rcases selectProfileEntity_ws pfs pid m hp hm with hsel | ⟨r, hsel, hr⟩
  · right; right; right
    simp [parse_linkedin_voyager_response, hres, hsel, Bind.bind, Except.bind]
  · rcases hr with rfl | ⟨hws, htr⟩
    · right; left
      simp [parse_linkedin_voyager_response, hres, hsel, falsy,
        Bind.bind, Except.bind]
    · have hf0 : falsy r = false := by revert htr; simp [truthy]
      obtain ⟨efs, rfl⟩ := WSEntity_isObj r hws
      cases hu : lookupF efs "entityUrn" with
      | some u =>
          obtain ⟨prof, hasm, _⟩ := (assembleProfile_ws efs m hm hws).1 u hu
          exact Or.inl ⟨prof, by simp [parse_linkedin_voyager_response, hres,
            hsel, hf0, hasm, Bind.bind, Except.bind]⟩
      | none =>
          right; right; left
          have hasm := (assembleProfile_ws efs m hm hws).2 hu
          simp [parse_linkedin_voyager_response, hres, hsel, hf0, hasm,
            Bind.bind, Except.bind]

/-! ## Claim C2 — error propagation exclusivity -/

/-- C2 counterexample: error exclusivity fails.  On a payload whose only
anomaly is a root profile entity without an `entityUrn` field — a missing
field, exactly the kind of anomaly the claim says is absorbed — the parse
raises `KeyError` (from the bare subscript `profile_entity["entityUrn"]`),
not the `RootEntityNotFound` error. -/
theorem C2_error_exclusivity_counterexample :
    parse_linkedin_voyager_response
        (.obj [("included", .list [.obj [("$type", .str PROFILE_TYPE)]])])
        none =
      .error (.keyError (.str "entityUrn")) ∧
    PyErr.keyError (.str "entityUrn") ≠ PyErr.rootEntityNotFound :=
  ⟨by decide, by decide⟩

/-- C2 amended: over payloads whose values match the shapes the parser
expects (each included entity a record, reference fields scalar-valued or
lists of scalars, date and union sub-structures records when present), the
only outcomes of the materializer are a profile, the `RootEntityNotFound`
error, a `KeyError` when the selected root entity lacks `entityUrn`, and
an `IndexError` when the payload's results list is present and empty;
every other anomaly (missing fields, unresolved references) is absorbed by
defaulting. -/
theorem C2_error_taxonomy (p : Val) (pid : Option String)
    (hp : WSPayload p = true) :
    (∃ prof, parse_linkedin_voyager_response p pid = .ok prof) ∨
    parse_linkedin_voyager_response p pid = .error .rootEntityNotFound ∨
    parse_linkedin_voyager_response p pid =
      .error (.keyError (.str "entityUrn")) ∨
    parse_linkedin_voyager_response p pid = .error .indexError :=
  parse_ws_taxonomy p pid hp

/-- Witness for C2 amended at a concrete well-shaped payload. -/
theorem C2_error_taxonomy_witness :
    (∃ prof, parse_linkedin_voyager_response
      (.obj [("included", .list [.obj [("$type", .str PROFILE_TYPE),
        ("entityUrn", .str "urn:w")]])]) none = .ok prof) ∨
    parse_linkedin_voyager_response
      (.obj [("included", .list [.obj [("$type", .str PROFILE_TYPE),
        ("entityUrn", .str "urn:w")]])]) none = .error .rootEntityNotFound ∨
    parse_linkedin_voyager_response
      (.obj [("included", .list [.obj [("$type", .str PROFILE_TYPE),
        ("entityUrn", .str "urn:w")]])]) none =
      .error (.keyError (.str "entityUrn")) ∨
    parse_linkedin_voyager_response
      (.obj [("included", .list [.obj [("$type", .str PROFILE_TYPE),
        ("entityUrn", .str "urn:w")]])]) none = .error .indexError :=
  C2_error_taxonomy _ none (by decide)

/-! ## Claim C1 — selector determinism under a supplied target identifier -/

/-- C1: in a well-shaped payload whose included list contains two
root-tagged entities with differing public identifiers — the first
carrying `pid1`, the second carrying the caller-supplied target — and no
earlier entity both root-tagged and matching the target, the parse selects
exactly the second entity: it succeeds and the returned profile's `urn` is
that entity's `entityUrn`. -/
theorem C1_selector_determinism :
    ∀ (pfs : List (String × Val)) (pre post : List Val)
      (e1fs e2fs : List (String × Val)) (pid1 target : String) (u : Val),
      WSPayload (.obj pfs) = true →
      lookupF pfs "included" = some (.list (pre ++ Val.obj e2fs :: post)) →
      Val.obj e1fs ∈ pre →
      getF e1fs "$type" = .str PROFILE_TYPE →
      getF e1fs "publicIdentifier" = .str pid1 →
      pid1 ≠ target →
      (∀ e ∈ pre, ∃ efs, e = Val.obj efs ∧
        (getF efs "$type" ≠ .str PROFILE_TYPE ∨
         getF efs "publicIdentifier" ≠ .str target)) →
      getF e2fs "$type" = .str PROFILE_TYPE →
      getF e2fs "publicIdentifier" = .str target →
      lookupF e2fs "entityUrn" = some u →
      ∃ prof,
        parse_linkedin_voyager_response (.obj pfs) (some target) = .ok prof ∧
        prof.urn = u := by
  intro pfs pre post e1fs e2fs pid1 target u hws hinc _he1 _h1t _h1p _hne hpre
    h2t h2p hu
  obtain ⟨m, hres, hm⟩ := resolve_references_ws pfs hws
  have hents : ∀ e ∈ pre ++ Val.obj e2fs :: post, WSEntity e = true := by
    have hish := WSPayload_included_shape pfs hws
    rw [hinc] at hish
    have hish2 : (pre ++ Val.obj e2fs :: post).all WSEntity = true := by
      simpa using hish
    rw [List.all_eq_true] at hish2
    exact hish2
  have hloop := findLoop_select pre post e2fs target hpre h2t h2p
  have htr2 : truthy (Val.obj e2fs) = true :=
    truthy_obj_of_truthy_getF e2fs "$type" (by rw [h2t]; decide)
  have hws2 : WSEntity (.obj e2fs) = true := hents _ (by simp)
  obtain ⟨prof, hasm, hurn⟩ := (assembleProfile_ws e2fs m hm hws2).1 u hu
  refine ⟨prof, ?_, hurn⟩
  have hf0 : falsy (Val.obj e2fs) = false := by revert htr2; simp [truthy]
  have hgetinc : pyGetD (.obj pfs) "included" (.list []) =
      .ok (.list (pre ++ Val.obj e2fs :: post)) := by simp [pyGetD_obj, hinc]
  simp [parse_linkedin_voyager_response, hres, selectProfileEntity, hgetinc,
    pyIter, hloop, hf0, hasm, Bind.bind, Except.bind, pure, Except.pure]

/-- Witness for C1: two root-tagged entities (`alice`, then `bob`) and
target `bob` — the parse returns the second entity's urn. -/
theorem C1_selector_determinism_witness :
    ∃ prof,
      parse_linkedin_voyager_response
        (.obj [("included", .list
          [.obj [("$type", .str PROFILE_TYPE),
                 ("publicIdentifier", .str "alice"),
                 ("entityUrn", .str "urn:1")],
           .obj [("$type", .str PROFILE_TYPE),
                 ("publicIdentifier", .str "bob"),
                 ("entityUrn", .str "urn:2")]])])
        (some "bob") = .ok prof ∧
      prof.urn = .str "urn:2" :=
  C1_selector_determinism
    [("included", .list
      [.obj [("$type", .str PROFILE_TYPE), ("publicIdentifier", .str "alice"),
             ("entityUrn", .str "urn:1")],
       .obj [("$type", .str PROFILE_TYPE), ("publicIdentifier", .str "bob"),
             ("entityUrn", .str "urn:2")]])]
    [.obj [("$type", .str PROFILE_TYPE), ("publicIdentifier", .str "alice"),
           ("entityUrn", .str "urn:1")]] []
    [("$type", .str PROFILE_TYPE), ("publicIdentifier", .str "alice"),
     ("entityUrn", .str "urn:1")]
    [("$type", .str PROFILE_TYPE), ("publicIdentifier", .str "bob"),
     ("entityUrn", .str "urn:2")]
    "alice" "bob" (.str "urn:2")
    (by decide) (by decide) (by decide) (by decide) (by decide) (by decide)
    (by
      intro e he
      simp only [List.mem_singleton] at he
      exact ⟨[("$type", .str PROFILE_TYPE), ("publicIdentifier", .str "alice"),
              ("entityUrn", .str "urn:1")], he, Or.inr (by decide)⟩)
    (by decide) (by decide) (by decide)

/-! ## Claim C3 — empty-graph failure -/

/-- C3: with an empty included collection the parse fails and produces no
partial profile: it raises `RootEntityNotFound` — except on the edge input
whose results list is present and empty, where the source's
`data.get("*elements", [None])[0]` raises `IndexError` instead (the
`[None]` default guards only the missing-key case), contradicting the
claim; the first conjunct evaluates the parser at that failing input. -/
theorem C3_empty_graph :
    parse_linkedin_voyager_response
        (.obj [("included", .list []),
               ("data", .obj [("*elements", .list [])])]) none =
      .error .indexError ∧
    (∀ (pfs : List (String × Val)) (pid : Option String),
      WSPayload (.obj pfs) = true →
      lookupF pfs "included" = some (.list []) →
      parse_linkedin_voyager_response (.obj pfs) pid =
          .error .rootEntityNotFound ∨
      parse_linkedin_voyager_response (.obj pfs) pid = .error .indexError) := by
  constructor
  · decide
  · intro pfs pid hws hinc
    have hres : _resolve_references (.obj pfs) = .ok [] := by
      simp [_resolve_references, pyGetD_obj, hinc, pyIter, buildUrnMap,
        Bind.bind, Except.bind]
    have hgetinc : pyGetD (.obj pfs) "included" (.list []) =
        .ok (.list []) := by simp [pyGetD_obj, hinc]
    have hdat := WSPayload_data_shape pfs hws
    have hmg0 : ∀ k : Val, hashable k = true → mapGet [] k = .ok .null := by
      intro k hk
      simp [mapGet, rawMapLookup, hk]
    cases hlkd : lookupF pfs "data" with
    | none =>
        refine Or.inl ?_
        have hd1 : pyGetD (.obj pfs) "data" (.obj []) = .ok (.obj []) := by
          simp [pyGetD_obj, hlkd]
        have hd2 : pyGetD (.obj []) "*elements" (.list [.null]) =
            .ok (.list [.null]) := by
          simp [pyGetD_obj, lookupF]
        simp [parse_linkedin_voyager_response, hres, selectProfileEntity,
          hgetinc, pyIter, findProfileEntityLoop, hd1, hd2, pyIndex0,
          hmg0 .null (by rfl), falsy, Bind.bind, Except.bind]
    | some dv =>
        rw [hlkd] at hdat
        cases dv with
        | obj dfs =>
            have hd1 : pyGetD (.obj pfs) "data" (.obj []) = .ok (.obj dfs) := by
              simp [pyGetD_obj, hlkd]
            have hdat2 :
                (match lookupF dfs "*elements" with
                  | none => true
                  | some (.list xs) => xs.all hashable
                  | some _ => false) = true := by simpa using hdat
            cases hlke : lookupF dfs "*elements" with
            | none =>
                refine Or.inl ?_
                have hd2 : pyGetD (.obj dfs) "*elements" (.list [.null]) =
                    .ok (.list [.null]) := by
                  simp [pyGetD_obj, hlke]
                simp [parse_linkedin_voyager_response, hres,
                  selectProfileEntity, hgetinc, pyIter, findProfileEntityLoop,
                  hd1, hd2, pyIndex0, hmg0 .null (by rfl), falsy,
                  Bind.bind, Except.bind]
            | some ev =>
                rw [hlke] at hdat2
                have hd2 : pyGetD (.obj dfs) "*elements" (.list [.null]) =
                    .ok ev := by
                  simp [pyGetD_obj, hlke]
                cases ev with
                | list exs =>
                    cases exs with
                    | nil =>
                        refine Or.inr ?_
                        simp [parse_linkedin_voyager_response, hres,
                          selectProfileEntity, hgetinc, pyIter,
                          findProfileEntityLoop, hd1, hd2, pyIndex0, falsy,
                          Bind.bind, Except.bind]
                    | cons x xs =>
                        refine Or.inl ?_
                        have hx : hashable x = true := by
                          rw [List.all_eq_true] at hdat2
                          exact hdat2 x (by simp)
                        simp [parse_linkedin_voyager_response, hres,
                          selectProfileEntity, hgetinc, pyIter,
                          findProfileEntityLoop, hd1, hd2, pyIndex0,
                          hmg0 x hx, falsy, Bind.bind, Except.bind]
                | str s => simp at hdat2
                | num n => simp at hdat2
                | bool b => simp at hdat2
                | null => simp at hdat2
                | obj o => simp at hdat2
        | str s => simp at hdat
        | num n => simp at hdat
        | bool b => simp at hdat
        | null => simp at hdat
        | list xs => simp at hdat

/-- Witness for C3's universal part at the minimal empty-graph payload. -/
theorem C3_empty_graph_witness :
    parse_linkedin_voyager_response (.obj [("included", .list [])]) none =
        .error .rootEntityNotFound ∨
    parse_linkedin_voyager_response (.obj [("included", .list [])]) none =
        .error .indexError :=
  C3_empty_graph.2 [("included", .list [])] none (by decide) (by decide)

/-! ## Claim C9 — heap model of the payload and frame property

The pure embedding above passes payload values immutably, so it cannot
even express in-place mutation.  To settle the immutability claim, the
payload is re-embedded as an explicit object heap: every dict and list of
the input payload is a `Cell` at an address, field values are scalars or
references (`HVal`), and every Python operation the parser performs is a
state-passing function over the heap (`PyM`).  Each primitive models the
corresponding CPython operation, returning the heap it was given exactly
when that operation does not write; the frame theorem then states that the
whole parse returns the heap unchanged.  Local intermediate structures the
source allocates (the `positions`/`educations` accumulators, resolved-list
comprehensions, the dataclasses, default values of `get`) are modelled
functionally outside the heap — they are fresh objects in Python and are
not part of the input payload the claim is about. -/

/-- Address of a payload object in the heap. -/
abbrev Addr := Nat

/-- A payload field value in the heap model: a scalar or a reference to a
heap cell. -/
inductive HVal where
  | str (s : String)
  | num (n : Int)
  | bool (b : Bool)
  | null
  | ref (a : Addr)
deriving DecidableEq

/-- A heap cell: one payload dict (string-keyed) or one payload list. -/
inductive Cell where
  | dict (fs : List (String × HVal))
  | arr (xs : List HVal)
deriving DecidableEq

/-- The object heap holding the input payload graph. -/
abbrev Heap := List (Addr × Cell)

/-- Cell lookup by address. -/
def heapFind (h : Heap) (a : Addr) : Option Cell :=
  (h.find? (fun p => p.1 == a)).map (·.2)

/-- State-passing computations over the payload heap. -/
abbrev PyM (α : Type) := StateT Heap (Except PyErr) α

/-- Hashability in the heap model: references denote dicts or lists, which
are unhashable; scalars are hashable. -/
def hHashable : HVal → Bool
  | .ref _ => false
  | _ => true

/-- Python `==` on the values compared by the parser: scalar comparisons
(with the boolean/integer coercion), and `False` between a reference and a
scalar.  Two references compare by address; Python's structural container
equality is not modelled, as the parser only ever compares against string
constants and hashable map keys, where no two references meet. -/
def hPyEq (a b : HVal) : Bool :=
  match a, b with
  | .bool x, .num n => (if x then (1 : Int) else 0) == n
  | .num n, .bool x => n == (if x then (1 : Int) else 0)
  | x, y => x == y

/-- Python truthiness in the heap model: emptiness of the referenced cell
for references, the scalar rule otherwise. -/
def hFalsy (v : HVal) : PyM Bool := fun h =>
  match v with
  | .str s => .ok (s.isEmpty, h)
  | .num n => .ok (n == 0, h)
  | .bool b => .ok (!b, h)
  | .null => .ok (true, h)
  | .ref a =>
      match heapFind h a with
      | some (.dict fs) => .ok (fs.isEmpty, h)
      | some (.arr xs) => .ok (xs.isEmpty, h)
      | none => .error .attributeError

/-- Python `v.get(k)`: `v` must reference a dict. -/
def hPyGet (v : HVal) (k : String) : PyM HVal := fun h =>
  match v with
  | .ref a =>
      match heapFind h a with
      | some (.dict fs) =>
          .ok (((fs.find? (fun p => p.1 == k)).map (·.2)).getD .null, h)
      | some (.arr _) => .error .attributeError
      | none => .error .attributeError
  | _ => .error .attributeError

/-- Python `v.get(k, d)` for a scalar default `d` (no allocation). -/
def hPyGetD (v : HVal) (k : String) (d : HVal) : PyM HVal := fun h =>
  match v with
  | .ref a =>
      match heapFind h a with
      | some (.dict fs) =>
          .ok (((fs.find? (fun p => p.1 == k)).map (·.2)).getD d, h)
      | some (.arr _) => .error .attributeError
      | none => .error .attributeError
  | _ => .error .attributeError

/-- Python `v.get(k, default)` where the caller immediately consumes the
default: returns the present value, or `none` for the caller to use its
default — so the temporary default list (`[]`, `[None]`) needs no heap
allocation. -/
def hPyGetOpt (v : HVal) (k : String) : PyM (Option HVal) := fun h =>
  match v with
  | .ref a =>
      match heapFind h a with
      | some (.dict fs) => .ok ((fs.find? (fun p => p.1 == k)).map (·.2), h)
      | some (.arr _) => .error .attributeError
      | none => .error .attributeError
  | _ => .error .attributeError

/-- Python `v[k]` for a string key. -/
def hPySubscript (v : HVal) (k : String) : PyM HVal := fun h =>
  match v with
  | .ref a =>
      match heapFind h a with
      | some (.dict fs) =>
          match fs.find? (fun p => p.1 == k) with
          | some p => .ok (p.2, h)
          | none => .error (.keyError (.str k))
      | some (.arr _) => .error .typeError
      | none => .error .typeError
  | _ => .error .typeError

/-- Python `v[0]`. -/
def hPyIndex0 (v : HVal) : PyM HVal := fun h =>
  match v with
  | .ref a =>
      match heapFind h a with
      | some (.arr []) => .error .indexError
      | some (.arr (x :: _)) => .ok (x, h)
      | some (.dict _) => .error (.keyError (.num 0))
      | none => .error .typeError
  | .str s =>
      match s.data with
      | [] => .error .indexError
      | c :: _ => .ok (.str (String.mk [c]), h)
  | _ => .error .typeError

/-- Python iteration `for x in v`. -/
def hPyIter (v : HVal) : PyM (List HVal) := fun h =>
  match v with
  | .ref a =>
      match heapFind h a with
      | some (.arr xs) => .ok (xs, h)
      | some (.dict fs) => .ok (fs.map fun p => .str p.1, h)
      | none => .error .typeError
  | .str s => .ok (s.data.map fun c => .str (String.mk [c]), h)
  | _ => .error .typeError

/-- Python `k in v` for a string `k`. -/
def hPyIn (k : String) (v : HVal) : PyM Bool := fun h =>
  match v with
  | .ref a =>
      match heapFind h a with
      | some (.dict fs) => .ok (fs.any fun p => p.1 == k, h)
      | some (.arr xs) => .ok (xs.any fun x => hPyEq x (.str k), h)
      | none => .error .typeError
  | .str s => .ok (strContains s k, h)
  | _ => .error .typeError

/-- Lookup in the URN map (a local Python dict of hashable keys). -/
def hRawMapLookup (m : List (HVal × HVal)) (k : HVal) : Option HVal :=
  (m.reverse.find? (fun p => hPyEq p.1 k)).map (·.2)

/-- Python `m.get(k)` on the URN map. -/
def hMapGet (m : List (HVal × HVal)) (k : HVal) : PyM HVal := fun h =>
  if hHashable k then .ok ((hRawMapLookup m k).getD .null, h)
  else .error .typeError

/-- Fuel-indexed `repr(v)` against a heap snapshot (payload graphs are
acyclic trees, so any fuel at least the tree depth suffices; the strings
only feed the profile's display fields). -/
def hPyReprFuel (hp : Heap) : Nat → HVal → String
  | 0, _ => ""
  | _ + 1, .str s => "'" ++ s ++ "'"
  | _ + 1, .num n => toString n
  | _ + 1, .bool b => if b then "True" else "False"
  | _ + 1, .null => "None"
  | fuel + 1, .ref a =>
      match heapFind hp a with
      | some (.dict fs) =>
          "\x7b" ++ String.intercalate ", "
            (fs.map fun p => "'" ++ p.1 ++ "': " ++ hPyReprFuel hp fuel p.2) ++
          "\x7d"
      | some (.arr xs) =>
          "[" ++ String.intercalate ", "
            (xs.map fun x => hPyReprFuel hp fuel x) ++ "]"
      | none => ""

/-- `str(v)` against a heap snapshot. -/
def hPyStrFuel (hp : Heap) (fuel : Nat) : HVal → String
  | .str s => s
  | v => hPyReprFuel hp fuel v

/-- `str(v)` as an f-string interpolation reads it: a read of the heap. -/
def hPyStr (v : HVal) : PyM String := fun h =>
  .ok (hPyStrFuel h (h.length + 1) v, h)

/-- `str.strip()` with no argument: drop leading and trailing whitespace
(structural on the character list). -/
def hStrStrip (s : String) : String :=
  String.mk
    (((s.data.dropWhile Char.isWhitespace).reverse.dropWhile
        Char.isWhitespace).reverse)

/-- `DISTANCE_TO_DEGREE` in the heap model (scalar-valued). -/
def hDISTANCE_TO_DEGREE : List (HVal × HVal) :=
  [(.str "DISTANCE_1", .num 1), (.str "DISTANCE_2", .num 2),
   (.str "DISTANCE_3", .num 3), (.str "OUT_OF_NETWORK", .null)]

/-- Dataclass `Date` in the heap model. -/
structure HDate where
  year : HVal
  month : HVal
deriving DecidableEq

/-- Dataclass `DateRange` in the heap model. -/
structure HDateRange where
  start : Option HDate
  end_ : Option HDate
deriving DecidableEq

/-- Dataclass `Position` in the heap model. -/
structure HPosition where
  title : HVal
  company_name : HVal
  company_urn : HVal
  location : HVal
  date_range : Option HDateRange
  description : HVal
  urn : HVal
deriving DecidableEq

/-- Dataclass `Education` in the heap model. -/
structure HEducation where
  school_name : HVal
  degree_name : HVal
  field_of_study : HVal
  date_range : Option HDateRange
  urn : HVal
deriving DecidableEq

/-- Dataclass `LinkedInProfile` in the heap model. -/
structure HLinkedInProfile where
  url : String
  urn : HVal
  full_name : String
  first_name : HVal
  last_name : HVal
  headline : HVal
  summary : HVal
  public_identifier : HVal
  location_name : HVal
  geo : HVal
  industry : HVal
  positions : List HPosition
  educations : List HEducation
  connection_distance : HVal
  connection_degree : HVal
deriving DecidableEq

/-- Heap-model mirror of `buildUrnMap`. -/
def hBuildUrnMap (entities : List HVal) (acc : List (HVal × HVal)) :
    PyM (List (HVal × HVal)) :=
  match entities with
  | [] => pure acc
  | entity :: rest => do
      let urn ← hPyGet entity "entityUrn"
      let t ← hFalsy urn
      if t then hBuildUrnMap rest acc
      else
        if hHashable urn then hBuildUrnMap rest (acc ++ [(urn, entity)])
        else fun _ => .error .typeError

/-- Heap-model mirror of `_resolve_references`. -/
def h_resolve_references (data : HVal) : PyM (List (HVal × HVal)) := do
  let included ← hPyGetOpt data "included"
  let entities ←
    match included with
    | some v => hPyIter v
    | none => pure []
  hBuildUrnMap entities []

/-- Heap-model mirror of `resolveListLoop`. -/
def hResolveListLoop (xs : List HVal) (urn_map : List (HVal × HVal))
    (acc : List HVal) : PyM (List HVal) :=
  match xs with
  | [] => pure acc
  | urn :: rest => do
      let r ← hMapGet urn_map urn
      let t ← hFalsy r
      if t then hResolveListLoop rest urn_map acc
      else hResolveListLoop rest urn_map (acc ++ [r])

/-- Result of the resolver in the heap model: `None` or a single payload
entity (a value), or a freshly allocated list of matched entities (the
list comprehension's new list, which is not part of the payload heap). -/
inductive HResolved where
  | val (v : HVal)
  | newList (xs : List HVal)
deriving DecidableEq

/-- Truthiness of a resolver result (`if company:`). -/
def hResolvedFalsy : HResolved → PyM Bool
  | .val v => hFalsy v
  | .newList xs => pure xs.isEmpty

/-- `.get` on a resolver result (`company.get("name")`): a fresh list has
no `get` attribute. -/
def hResolvedGet : HResolved → String → PyM HVal
  | .val v, k => hPyGet v k
  | .newList _, _ => fun _ => .error .attributeError

/-- `isinstance(value, list)` together with reading the list's elements. -/
def hIsList (v : HVal) : PyM (Option (List HVal)) := fun h =>
  match v with
  | .ref a =>
      match heapFind h a with
      | some (.arr xs) => .ok (some xs, h)
      | _ => .ok (none, h)
  | _ => .ok (none, h)

/-- Heap-model mirror of `_resolve_star_field`. -/
def h_resolve_star_field (entity : HVal) (urn_map : List (HVal × HVal))
    (field_name : String) : PyM HResolved := do
  let value ← hPyGet entity field_name
  let fv ← hFalsy value
  if fv then pure (.val .null)
  else do
    let isL ← hIsList value
    match isL with
    | some xs => do
        let rs ← hResolveListLoop xs urn_map []
        pure (.newList rs)
    | none => do
        let r ← hMapGet urn_map value
        pure (.val r)

/-- Heap-model mirror of `_date_from_raw`. -/
def h_date_from_raw (raw : HVal) : PyM (Option HDate) := do
  let f ← hFalsy raw
  if f then pure none
  else do
    let y ← hPyGet raw "year"
    let m ← hPyGet raw "month"
    pure (some { year := y, month := m })

/-- Heap-model mirror of `_date_range_from_raw`. -/
def h_date_range_from_raw (raw : HVal) : PyM (Option HDateRange) := do
  let f ← hFalsy raw
  if f then pure none
  else do
    let s ← hPyGet raw "start"
    let sd ← h_date_from_raw s
    let e ← hPyGet raw "end"
    let ed ← h_date_from_raw e
    pure (some { start := sd, end_ := ed })

/-- Heap-model mirror of `_enrich_position`. -/
def h_enrich_position (pos : HVal) (urn_map : List (HVal × HVal)) :
    PyM HPosition := do
  let company ← h_resolve_star_field pos urn_map "*company"
  let cf ← hResolvedFalsy company
  let t ← hPyGet pos "title"
  let tf ← hFalsy t
  let title := if !tf then t else HVal.str "Unknown Title"
  let company_name ←
    if !cf then hResolvedGet company "name"
    else hPyGetD pos "companyName" (.str "Unknown Company")
  let company_urn ←
    if !cf then hResolvedGet company "entityUrn"
    else hPyGet pos "companyUrn"
  let location ← hPyGet pos "locationName"
  let dr ← hPyGet pos "dateRange"
  let date_range ← h_date_range_from_raw dr
  let description ← hPyGet pos "description"
  let urn ← hPyGet pos "entityUrn"
  pure { title := title, company_name := company_name,
         company_urn := company_urn, location := location,
         date_range := date_range, description := description, urn := urn }

/-- Heap-model mirror of `_enrich_education`. -/
def h_enrich_education (edu : HVal) (urn_map : List (HVal × HVal)) :
    PyM HEducation := do
  let school ← h_resolve_star_field edu urn_map "*school"
  let sf ← hResolvedFalsy school
  let school_name ←
    if !sf then hResolvedGet school "name"
    else hPyGetD edu "schoolName" (.str "Unknown School")
  let degree_name ← hPyGet edu "degreeName"
  let field_of_study ← hPyGet edu "fieldOfStudy"
  let dr ← hPyGet edu "dateRange"
  let date_range ← h_date_range_from_raw dr
  let urn ← hPyGet edu "entityUrn"
  pure { school_name := school_name, degree_name := degree_name,
         field_of_study := field_of_study, date_range := date_range,
         urn := urn }

/-- Heap-model mirror of `_extract_connection_info`. -/
def h_extract_connection_info (profile_entity : HVal)
    (urn_map : List (HVal × HVal)) : PyM (HVal × HVal) := do
  let member_rel_urn ← hPyGet profile_entity "*memberRelationship"
  let f1 ← hFalsy member_rel_urn
  if f1 then pure (.null, .null)
  else do
    let rel ← hMapGet urn_map member_rel_urn
    let f2 ← hFalsy rel
    if f2 then pure (.null, .null)
    else do
      let u1 ← hPyGet rel "memberRelationshipUnion"
      let t1 ← hFalsy u1
      let union ← if !t1 then pure u1 else hPyGet rel "memberRelationshipData"
      let fu ← hFalsy union
      if fu then pure (.null, .null)
      else do
        let c1 ← hPyIn "connectedMember" union
        let c2 ← if c1 then pure true else hPyIn "connected" union
        if c2 then pure (.str "DISTANCE_1", .num 1)
        else do
          let nc ← hPyIn "noConnection" union
          if nc then do
            let ncv ← hPySubscript union "noConnection"
            let dist ← hPyGet ncv "memberDistance"
            let deg ← hMapGet hDISTANCE_TO_DEGREE dist
            pure (dist, deg)
          else pure (.null, .null)

/-- Heap-model mirror of the root-entity scan loop. -/
def hFindProfileEntityLoop (items : List HVal)
    (public_identifier : Option String) : PyM HVal :=
  match items with
  | [] => pure .null
  | entity :: rest => do
      let t ← hPyGet entity "$type"
      if hPyEq t (.str PROFILE_TYPE) then
        match public_identifier with
        | none => pure entity
        | some pid => do
            let v ← hPyGet entity "publicIdentifier"
            if hPyEq v (.str pid) then pure entity
            else hFindProfileEntityLoop rest public_identifier
      else hFindProfileEntityLoop rest public_identifier

/-- Heap-model mirror of `positionsInColl`. -/
def hPositionsInColl (elems : List HVal) (urn_map : List (HVal × HVal))
    (acc : List HPosition) : PyM (List HPosition) :=
  match elems with
  | [] => pure acc
  | pos_urn :: rest => do
      let pos ← hMapGet urn_map pos_urn
      let f ← hFalsy pos
      if f then hPositionsInColl rest urn_map acc
      else do
        let p ← h_enrich_position pos urn_map
        hPositionsInColl rest urn_map (acc ++ [p])

/-- Heap-model mirror of `positionGroupsLoop`. -/
def hPositionGroupsLoop (groups : List HVal) (urn_map : List (HVal × HVal))
    (acc : List HPosition) : PyM (List HPosition) :=
  match groups with
  | [] => pure acc
  | group_urn :: rest => do
      let group ← hMapGet urn_map group_urn
      let fg ← hFalsy group
      if fg then hPositionGroupsLoop rest urn_map acc
      else do
        let positions_urn ← hPyGet group "*profilePositionInPositionGroup"
        let fp ← hFalsy positions_urn
        if fp then hPositionGroupsLoop rest urn_map acc
        else do
          let pos_coll ← hMapGet urn_map positions_urn
          let fc ← hFalsy pos_coll
          if fc then hPositionGroupsLoop rest urn_map acc
          else do
            let pelems ← hPyGetOpt pos_coll "*elements"
            let plist ←
              match pelems with
              | some ev => hPyIter ev
              | none => pure []
            let acc2 ← hPositionsInColl plist urn_map acc
            hPositionGroupsLoop rest urn_map acc2

/-- Heap-model mirror of `extractPositions`. -/
def hExtractPositions (profile_entity : HVal) (urn_map : List (HVal × HVal)) :
    PyM (List HPosition) := do
  let pos_groups_urn ← hPyGet profile_entity "*profilePositionGroups"
  let fg ← hFalsy pos_groups_urn
  if fg then pure []
  else do
    let group_resp ← hMapGet urn_map pos_groups_urn
    let fr ← hFalsy group_resp
    if fr then pure []
    else do
      let elems ← hPyGetOpt group_resp "*elements"
      let groups ←
        match elems with
        | some ev => hPyIter ev
        | none => pure []
      hPositionGroupsLoop groups urn_map []

/-- Heap-model mirror of `educationsLoop`. -/
def hEducationsLoop (elems : List HVal) (urn_map : List (HVal × HVal))
    (acc : List HEducation) : PyM (List HEducation) :=
  match elems with
  | [] => pure acc
  | e_urn :: rest => do
      let edu ← hMapGet urn_map e_urn
      let f ← hFalsy edu
      if f then hEducationsLoop rest urn_map acc
      else do
        let e ← h_enrich_education edu urn_map
        hEducationsLoop rest urn_map (acc ++ [e])

/-- Heap-model mirror of `extractEducations`. -/
def hExtractEducations (profile_entity : HVal) (urn_map : List (HVal × HVal)) :
    PyM (List HEducation) := do
  let edu_urn ← hPyGet profile_entity "*profileEducations"
  let fg ← hFalsy edu_urn
  if fg then pure []
  else do
    let edu_coll ← hMapGet urn_map edu_urn
    let fc ← hFalsy edu_coll
    if fc then pure []
    else do
      let elems ← hPyGetOpt edu_coll "*elements"
      let items ←
        match elems with
        | some ev => hPyIter ev
        | none => pure []
      hEducationsLoop items urn_map []

/-- Heap-model mirror of `selectProfileEntity`.  The source's default
`[None]` for the primary-result pointer is consumed immediately by `[0]`,
modelled as `None` without allocating. -/
def hSelectProfileEntity (json_response : HVal)
    (public_identifier : Option String) (urn_map : List (HVal × HVal)) :
    PyM HVal := do
  let included ← hPyGetOpt json_response "included"
  let items ←
    match included with
    | some v => hPyIter v
    | none => pure []
  let found ← hFindProfileEntityLoop items public_identifier
  let ff ← hFalsy found
  if ff then do
    let dataOpt ← hPyGetOpt json_response "data"
    match dataOpt with
    | some data => do
        let elemsOpt ← hPyGetOpt data "*elements"
        let main_urn ←
          match elemsOpt with
          | some ev => hPyIndex0 ev
          | none => pure .null
        hMapGet urn_map main_urn
    | none =>
        -- data missing: the default `{}` has no "*elements",
        -- so `[None][0]` is None
        hMapGet urn_map .null
  else pure found

/-- Heap-model mirror of `assembleProfile`. -/
def hAssembleProfile (profile_entity : HVal) (urn_map : List (HVal × HVal)) :
    PyM HLinkedInProfile := do
  let first_name ← hPyGetD profile_entity "firstName" (.str "")
  let last_name ← hPyGetD profile_entity "lastName" (.str "")
  let conn ← h_extract_connection_info profile_entity urn_map
  let positions ← hExtractPositions profile_entity urn_map
  let educations ← hExtractEducations profile_entity urn_map
  let urn ← hPySubscript profile_entity "entityUrn"
  let headline ← hPyGet profile_entity "headline"
  let summary ← hPyGet profile_entity "summary"
  let public_id ← hPyGet profile_entity "publicIdentifier"
  let location_name ← hPyGet profile_entity "locationName"
  let geo ← h_resolve_star_field profile_entity urn_map "*geo"
  let industry ← h_resolve_star_field profile_entity urn_map "*industry"
  let url_pid ← hPyGetD profile_entity "publicIdentifier" (.str "")
  let url_pid_s ← hPyStr url_pid
  let fn_s ← hPyStr first_name
  let ln_s ← hPyStr last_name
  let geoV :=
    match geo with
    | .val v => v
    | .newList _ => HVal.null
  let indV :=
    match industry with
    | .val v => v
    | .newList _ => HVal.null
  pure { url := "https://www.linkedin.com/in/" ++ url_pid_s ++ "/"
         urn := urn
         full_name := hStrStrip (fn_s ++ " " ++ ln_s)
         first_name := first_name
         last_name := last_name
         headline := headline
         summary := summary
         public_identifier := public_id
         location_name := location_name
         geo := geoV
         industry := indV
         positions := positions
         educations := educations
         connection_distance := conn.1
         connection_degree := conn.2 }

/-- Heap-model mirror of `parse_linkedin_voyager_response`. -/
def h_parse_linkedin_voyager_response (json_response : HVal)
    (public_identifier : Option String) : PyM HLinkedInProfile := do
  let urn_map ← h_resolve_references json_response
  let profile_entity ← hSelectProfileEntity json_response public_identifier
    urn_map
  let fp ← hFalsy profile_entity
  if fp then fun _ => .error .rootEntityNotFound
  else hAssembleProfile profile_entity urn_map

/-- A heap computation is heap-preserving when every successful run
returns exactly the heap it was given. -/
def Preserves {α : Type} (f : PyM α) : Prop :=
  ∀ h r h', f h = .ok (r, h') → h' = h

theorem Preserves.pure {α : Type} (a : α) : Preserves (pure a : PyM α) := by
  intro h r h' heq
  simp [Pure.pure, StateT.pure, Except.pure] at heq
  exact heq.2.symm

theorem Preserves.fail {α : Type} (e : PyErr) :
    Preserves (fun _ => .error e : PyM α) := by
  intro h r h' heq
  simp at heq

theorem Preserves.bind {α β : Type} {f : PyM α} {g : α → PyM β}
    (hf : Preserves f) (hg : ∀ a, Preserves (g a)) : Preserves (f >>= g) := by
  intro h r h' heq
  simp only [Bind.bind, StateT.bind] at heq
  cases hfh : f h with
  | error e => rw [hfh] at heq; simp [Bind.bind, Except.bind] at heq
  | ok p =>
      rw [hfh] at heq
      simp only [Bind.bind, Except.bind] at heq
      have h1 : p.2 = h := hf h p.1 p.2 (by rw [hfh])
      have h2 : h' = p.2 := hg p.1 p.2 r h' heq
      rw [h2, h1]

theorem Preserves.ite {α : Type} (c : Prop) [Decidable c] {f g : PyM α}
    (hf : Preserves f) (hg : Preserves g) :
    Preserves (if c then f else g) := by
  by_cases hc : c
  · simpa [hc] using hf
  · simpa [hc] using hg

theorem hFalsy_preserves (v : HVal) : Preserves (hFalsy v) := by
  intro h r h' heq
  cases v with
  | str s => simp [hFalsy] at heq; exact heq.2.symm
  | num n => simp [hFalsy] at heq; exact heq.2.symm
  | bool b => simp [hFalsy] at heq; exact heq.2.symm
  | null => simp [hFalsy] at heq; exact heq.2.symm
  | ref a =>
      simp only [hFalsy] at heq
      cases hc : heapFind h a with
      | none => rw [hc] at heq; simp at heq
      | some c =>
          cases c with
          | dict fs => rw [hc] at heq; simp at heq; exact heq.2.symm
          | arr xs => rw [hc] at heq; simp at heq; exact heq.2.symm

theorem hPyGet_preserves (v : HVal) (k : String) : Preserves (hPyGet v k) := by
  intro h r h' heq
  cases v with
  | str s => simp [hPyGet] at heq
  | num n => simp [hPyGet] at heq
  | bool b => simp [hPyGet] at heq
  | null => simp [hPyGet] at heq
  | ref a =>
      simp only [hPyGet] at heq
      cases hc : heapFind h a with
      | none => rw [hc] at heq; simp at heq
      | some c =>
          cases c with
          | dict fs => rw [hc] at heq; simp at heq; exact heq.2.symm
          | arr xs => rw [hc] at heq; simp at heq

theorem hPyGetD_preserves (v : HVal) (k : String) (d : HVal) :
    Preserves (hPyGetD v k d) := by
  intro h r h' heq
  cases v with
  | str s => simp [hPyGetD] at heq
  | num n => simp [hPyGetD] at heq
  | bool b => simp [hPyGetD] at heq
  | null => simp [hPyGetD] at heq
  | ref a =>
      simp only [hPyGetD] at heq
      cases hc : heapFind h a with
      | none => rw [hc] at heq; simp at heq
      | some c =>
          cases c with
          | dict fs => rw [hc] at heq; simp at heq; exact heq.2.symm
          | arr xs => rw [hc] at heq; simp at heq

theorem hPyGetOpt_preserves (v : HVal) (k : String) :
    Preserves (hPyGetOpt v k) := by
  intro h r h' heq
  cases v with
  | str s => simp [hPyGetOpt] at heq
  | num n => simp [hPyGetOpt] at heq
  | bool b => simp [hPyGetOpt] at heq
  | null => simp [hPyGetOpt] at heq
  | ref a =>
      simp only [hPyGetOpt] at heq
      cases hc : heapFind h a with
      | none => rw [hc] at heq; simp at heq
      | some c =>
          cases c with
          | dict fs => rw [hc] at heq; simp at heq; exact heq.2.symm
          | arr xs => rw [hc] at heq; simp at heq

theorem hPySubscript_preserves (v : HVal) (k : String) :
    Preserves (hPySubscript v k) := by
  intro h r h' heq
  cases v with
  | str s => simp [hPySubscript] at heq
  | num n => simp [hPySubscript] at heq
  | bool b => simp [hPySubscript] at heq
  | null => simp [hPySubscript] at heq
  | ref a =>
      simp only [hPySubscript] at heq
      cases hc : heapFind h a with
      | none => rw [hc] at heq; simp at heq
      | some c =>
          cases c with
          | dict fs =>
              rw [hc] at heq
              cases hf : fs.find? (fun p => p.1 == k) with
              | none => simp [hf] at heq
              | some p => simp [hf] at heq; exact heq.2.symm
          | arr xs => rw [hc] at heq; simp at heq

theorem hPyIndex0_preserves (v : HVal) : Preserves (hPyIndex0 v) := by
  intro h r h' heq
  cases v with
  | str s =>
      simp only [hPyIndex0] at heq
      cases hsd : s.data with
      | nil => simp [hsd] at heq
      | cons c cs => simp [hsd] at heq; exact heq.2.symm
  | num n => simp [hPyIndex0] at heq
  | bool b => simp [hPyIndex0] at heq
  | null => simp [hPyIndex0] at heq
  | ref a =>
      simp only [hPyIndex0] at heq
      cases hc : heapFind h a with
      | none => rw [hc] at heq; simp at heq
      | some c =>
          cases c with
          | dict fs => rw [hc] at heq; simp at heq
          | arr xs =>
              cases xs with
              | nil => rw [hc] at heq; simp at heq
              | cons x xt => rw [hc] at heq; simp at heq; exact heq.2.symm

theorem hPyIter_preserves (v : HVal) : Preserves (hPyIter v) := by
  intro h r h' heq
  cases v with
  | str s => simp [hPyIter] at heq; exact heq.2.symm
  | num n => simp [hPyIter] at heq
  | bool b => simp [hPyIter] at heq
  | null => simp [hPyIter] at heq
  | ref a =>
      simp only [hPyIter] at heq
      cases hc : heapFind h a with
      | none => rw [hc] at heq; simp at heq
      | some c =>
          cases c with
          | dict fs => rw [hc] at heq; simp at heq; exact heq.2.symm
          | arr xs => rw [hc] at heq; simp at heq; exact heq.2.symm

theorem hPyIn_preserves (k : String) (v : HVal) : Preserves (hPyIn k v) := by
  intro h r h' heq
  cases v with
  | str s => simp [hPyIn] at heq; exact heq.2.symm
  | num n => simp [hPyIn] at heq
  | bool b => simp [hPyIn] at heq
  | null => simp [hPyIn] at heq
  | ref a =>
      simp only [hPyIn] at heq
      cases hc : heapFind h a with
      | none => rw [hc] at heq; simp at heq
      | some c =>
          cases c with
          | dict fs => rw [hc] at heq; simp at heq; exact heq.2.symm
          | arr xs => rw [hc] at heq; simp at heq; exact heq.2.symm

theorem hMapGet_preserves (m : List (HVal × HVal)) (k : HVal) :
    Preserves (hMapGet m k) := by
  intro h r h' heq
  simp only [hMapGet] at heq
  by_cases hh : hHashable k = true
  · rw [if_pos hh] at heq; simp at heq; exact heq.2.symm
  · rw [if_neg hh] at heq; simp at heq

theorem hPyStr_preserves (v : HVal) : Preserves (hPyStr v) := by
  intro h r h' heq
  simp [hPyStr] at heq
  exact heq.2.symm

theorem hResolvedFalsy_preserves (c : HResolved) :
    Preserves (hResolvedFalsy c) := by
  cases c with
  | val v => exact hFalsy_preserves v
  | newList xs => exact Preserves.pure xs.isEmpty

theorem hResolvedGet_preserves (c : HResolved) (k : String) :
    Preserves (hResolvedGet c k) := by
  cases c with
  | val v => exact hPyGet_preserves v k
  | newList xs => exact Preserves.fail .attributeError

theorem hIsList_preserves (v : HVal) : Preserves (hIsList v) := by
  intro h r h' heq
  cases v with
  | str s => simp [hIsList] at heq; exact heq.2.symm
  | num n => simp [hIsList] at heq; exact heq.2.symm
  | bool b => simp [hIsList] at heq; exact heq.2.symm
  | null => simp [hIsList] at heq; exact heq.2.symm
  | ref a =>
      simp only [hIsList] at heq
      cases hc : heapFind h a with
      | none => rw [hc] at heq; simp at heq; exact heq.2.symm
      | some c =>
          cases c with
          | dict fs => rw [hc] at heq; simp at heq; exact heq.2.symm
          | arr xs => rw [hc] at heq; simp at heq; exact heq.2.symm

theorem hBuildUrnMap_preserves (es : List HVal) (acc : List (HVal × HVal)) :
    Preserves (hBuildUrnMap es acc) := by
  induction es generalizing acc with
  | nil => exact Preserves.pure acc
  | cons e rest ih =>
      unfold hBuildUrnMap
      refine Preserves.bind (hPyGet_preserves e "entityUrn") ?_
      intro urn
      refine Preserves.bind (hFalsy_preserves urn) ?_
      intro t
      refine Preserves.ite _ (ih acc) ?_
      refine Preserves.ite _ (ih _) (Preserves.fail _)

theorem h_resolve_references_preserves (data : HVal) :
    Preserves (h_resolve_references data) := by
  unfold h_resolve_references
  refine Preserves.bind (hPyGetOpt_preserves data "included") ?_
  intro o
  cases o with
  | some v =>
      refine Preserves.bind (hPyIter_preserves v) ?_
      intro entities
      exact hBuildUrnMap_preserves entities []
  | none =>
      refine Preserves.bind (Preserves.pure []) ?_
      intro entities
      exact hBuildUrnMap_preserves entities []

theorem hResolveListLoop_preserves (xs : List HVal)
    (urn_map : List (HVal × HVal)) (acc : List HVal) :
    Preserves (hResolveListLoop xs urn_map acc) := by
  induction xs generalizing acc with
  | nil => exact Preserves.pure acc
  | cons urn rest ih =>
      unfold hResolveListLoop
      refine Preserves.bind (hMapGet_preserves urn_map urn) ?_
      intro r
      refine Preserves.bind (hFalsy_preserves r) ?_
      intro t
      exact Preserves.ite _ (ih acc) (ih _)

theorem h_resolve_star_field_preserves (entity : HVal)
    (urn_map : List (HVal × HVal)) (field_name : String) :
    Preserves (h_resolve_star_field entity urn_map field_name) := by
  unfold h_resolve_star_field
  refine Preserves.bind (hPyGet_preserves entity field_name) ?_
  intro value
  refine Preserves.bind (hFalsy_preserves value) ?_
  intro fv
  refine Preserves.ite _ (Preserves.pure _) ?_
  refine Preserves.bind (hIsList_preserves value) ?_
  intro isL
  cases isL with
  | some xs =>
      refine Preserves.bind (hResolveListLoop_preserves xs urn_map []) ?_
      intro rs
      exact Preserves.pure _
  | none =>
      refine Preserves.bind (hMapGet_preserves urn_map value) ?_
      intro r
      exact Preserves.pure _

theorem h_date_from_raw_preserves (raw : HVal) :
    Preserves (h_date_from_raw raw) := by
  unfold h_date_from_raw
  refine Preserves.bind (hFalsy_preserves raw) ?_
  intro f
  refine Preserves.ite _ (Preserves.pure _) ?_
  refine Preserves.bind (hPyGet_preserves raw "year") ?_
  intro y
  refine Preserves.bind (hPyGet_preserves raw "month") ?_
  intro m
  exact Preserves.pure _

theorem h_date_range_from_raw_preserves (raw : HVal) :
    Preserves (h_date_range_from_raw raw) := by
  unfold h_date_range_from_raw
  refine Preserves.bind (hFalsy_preserves raw) ?_
  intro f
  refine Preserves.ite _ (Preserves.pure _) ?_
  refine Preserves.bind (hPyGet_preserves raw "start") ?_
  intro s
  refine Preserves.bind (h_date_from_raw_preserves s) ?_
  intro sd
  refine Preserves.bind (hPyGet_preserves raw "end") ?_
  intro e
  refine Preserves.bind (h_date_from_raw_preserves e) ?_
  intro ed
  exact Preserves.pure _

theorem h_enrich_position_preserves (pos : HVal)
    (urn_map : List (HVal × HVal)) :
    Preserves (h_enrich_position pos urn_map) := by
  unfold h_enrich_position
  refine Preserves.bind (h_resolve_star_field_preserves pos urn_map "*company") ?_
  intro company
  refine Preserves.bind (hResolvedFalsy_preserves company) ?_
  intro cf
  refine Preserves.bind (hPyGet_preserves pos "title") ?_
  intro t
  refine Preserves.bind (hFalsy_preserves t) ?_
  intro tf
  by_cases hcf : (!cf) = true
  · simp only [if_pos hcf]
    refine Preserves.bind (hResolvedGet_preserves company "name") ?_
    intro company_name
    refine Preserves.bind (hResolvedGet_preserves company "entityUrn") ?_
    intro company_urn
    refine Preserves.bind (hPyGet_preserves pos "locationName") ?_
    intro location
    refine Preserves.bind (hPyGet_preserves pos "dateRange") ?_
    intro dr
    refine Preserves.bind (h_date_range_from_raw_preserves dr) ?_
    intro date_range
    refine Preserves.bind (hPyGet_preserves pos "description") ?_
    intro description
    refine Preserves.bind (hPyGet_preserves pos "entityUrn") ?_
    intro urn
    exact Preserves.pure _
  · simp only [if_neg hcf]
    refine Preserves.bind
      (hPyGetD_preserves pos "companyName" (.str "Unknown Company")) ?_
    intro company_name
    refine Preserves.bind (hPyGet_preserves pos "companyUrn") ?_
    intro company_urn
    refine Preserves.bind (hPyGet_preserves pos "locationName") ?_
    intro location
    refine Preserves.bind (hPyGet_preserves pos "dateRange") ?_
    intro dr
    refine Preserves.bind (h_date_range_from_raw_preserves dr) ?_
    intro date_range
    refine Preserves.bind (hPyGet_preserves pos "description") ?_
    intro description
    refine Preserves.bind (hPyGet_preserves pos "entityUrn") ?_
    intro urn
    exact Preserves.pure _

theorem h_enrich_education_preserves (edu : HVal)
    (urn_map : List (HVal × HVal)) :
    Preserves (h_enrich_education edu urn_map) := by
  unfold h_enrich_education
  refine Preserves.bind (h_resolve_star_field_preserves edu urn_map "*school") ?_
  intro school
  refine Preserves.bind (hResolvedFalsy_preserves school) ?_
  intro sf
  by_cases hsf : (!sf) = true
  · simp only [if_pos hsf]
    refine Preserves.bind (hResolvedGet_preserves school "name") ?_
    intro school_name
    refine Preserves.bind (hPyGet_preserves edu "degreeName") ?_
    intro degree_name
    refine Preserves.bind (hPyGet_preserves edu "fieldOfStudy") ?_
    intro field_of_study
    refine Preserves.bind (hPyGet_preserves edu "dateRange") ?_
    intro dr
    refine Preserves.bind (h_date_range_from_raw_preserves dr) ?_
    intro date_range
    refine Preserves.bind (hPyGet_preserves edu "entityUrn") ?_
    intro urn
    exact Preserves.pure _
  · simp only [if_neg hsf]
    refine Preserves.bind
      (hPyGetD_preserves edu "schoolName" (.str "Unknown School")) ?_
    intro school_name
    refine Preserves.bind (hPyGet_preserves edu "degreeName") ?_
    intro degree_name
    refine Preserves.bind (hPyGet_preserves edu "fieldOfStudy") ?_
    intro field_of_study
    refine Preserves.bind (hPyGet_preserves edu "dateRange") ?_
    intro dr
    refine Preserves.bind (h_date_range_from_raw_preserves dr) ?_
    intro date_range
    refine Preserves.bind (hPyGet_preserves edu "entityUrn") ?_
    intro urn
    exact Preserves.pure _

theorem h_extract_connection_info_preserves (profile_entity : HVal)
    (urn_map : List (HVal × HVal)) :
    Preserves (h_extract_connection_info profile_entity urn_map) := by
  unfold h_extract_connection_info
  refine Preserves.bind (hPyGet_preserves profile_entity "*memberRelationship") ?_
  intro member_rel_urn
  refine Preserves.bind (hFalsy_preserves member_rel_urn) ?_
  intro f1
  refine Preserves.ite _ (Preserves.pure _) ?_
  refine Preserves.bind (hMapGet_preserves urn_map member_rel_urn) ?_
  intro rel
  refine Preserves.bind (hFalsy_preserves rel) ?_
  intro f2
  refine Preserves.ite _ (Preserves.pure _) ?_
  refine Preserves.bind (hPyGet_preserves rel "memberRelationshipUnion") ?_
  intro u1
  refine Preserves.bind (hFalsy_preserves u1) ?_
  intro t1
  by_cases ht1 : (!t1) = true
  · simp only [if_pos ht1]
    refine Preserves.bind (Preserves.pure u1) ?_
    intro union
    refine Preserves.bind (hFalsy_preserves union) ?_
    intro fu
    refine Preserves.ite _ (Preserves.pure _) ?_
    refine Preserves.bind (hPyIn_preserves "connectedMember" union) ?_
    intro c1
    by_cases hc1 : c1 = true
    · simp only [if_pos hc1]
      refine Preserves.bind (Preserves.pure true) ?_
      intro c2
      refine Preserves.ite _ (Preserves.pure _) ?_
      refine Preserves.bind (hPyIn_preserves "noConnection" union) ?_
      intro nc
      refine Preserves.ite _ ?_ (Preserves.pure _)
      refine Preserves.bind (hPySubscript_preserves union "noConnection") ?_
      intro ncv
      refine Preserves.bind (hPyGet_preserves ncv "memberDistance") ?_
      intro dist
      refine Preserves.bind (hMapGet_preserves hDISTANCE_TO_DEGREE dist) ?_
      intro deg
      exact Preserves.pure _
    · simp only [if_neg hc1]
      refine Preserves.bind (hPyIn_preserves "connected" union) ?_
      intro c2
      refine Preserves.ite _ (Preserves.pure _) ?_
      refine Preserves.bind (hPyIn_preserves "noConnection" union) ?_
      intro nc
      refine Preserves.ite _ ?_ (Preserves.pure _)
      refine Preserves.bind (hPySubscript_preserves union "noConnection") ?_
      intro ncv
      refine Preserves.bind (hPyGet_preserves ncv "memberDistance") ?_
      intro dist
      refine Preserves.bind (hMapGet_preserves hDISTANCE_TO_DEGREE dist) ?_
      intro deg
      exact Preserves.pure _
  · simp only [if_neg ht1]
    refine Preserves.bind (hPyGet_preserves rel "memberRelationshipData") ?_
    intro union
    refine Preserves.bind (hFalsy_preserves union) ?_
    intro fu
    refine Preserves.ite _ (Preserves.pure _) ?_
    refine Preserves.bind (hPyIn_preserves "connectedMember" union) ?_
    intro c1
    by_cases hc1 : c1 = true
    · simp only [if_pos hc1]
      refine Preserves.bind (Preserves.pure true) ?_
      intro c2
      refine Preserves.ite _ (Preserves.pure _) ?_
      refine Preserves.bind (hPyIn_preserves "noConnection" union) ?_
      intro nc
      refine Preserves.ite _ ?_ (Preserves.pure _)
      refine Preserves.bind (hPySubscript_preserves union "noConnection") ?_
      intro ncv
      refine Preserves.bind (hPyGet_preserves ncv "memberDistance") ?_
      intro dist
      refine Preserves.bind (hMapGet_preserves hDISTANCE_TO_DEGREE dist) ?_
      intro deg
      exact Preserves.pure _
    · simp only [if_neg hc1]
      refine Preserves.bind (hPyIn_preserves "connected" union) ?_
      intro c2
      refine Preserves.ite _ (Preserves.pure _) ?_
      refine Preserves.bind (hPyIn_preserves "noConnection" union) ?_
      intro nc
      refine Preserves.ite _ ?_ (Preserves.pure _)
      refine Preserves.bind (hPySubscript_preserves union "noConnection") ?_
      intro ncv
      refine Preserves.bind (hPyGet_preserves ncv "memberDistance") ?_
      intro dist
      refine Preserves.bind (hMapGet_preserves hDISTANCE_TO_DEGREE dist) ?_
      intro deg
      exact Preserves.pure _

theorem hFindProfileEntityLoop_preserves (items : List HVal)
    (public_identifier : Option String) :
    Preserves (hFindProfileEntityLoop items public_identifier) := by
  induction items with
  | nil => exact Preserves.pure _
  | cons entity rest ih =>
      unfold hFindProfileEntityLoop
      refine Preserves.bind (hPyGet_preserves entity "$type") ?_
      intro t
      refine Preserves.ite _ ?_ ih
      cases public_identifier with
      | none => exact Preserves.pure _
      | some pid =>
          refine Preserves.bind (hPyGet_preserves entity "publicIdentifier") ?_
          intro v
          exact Preserves.ite _ (Preserves.pure _) ih

theorem hPositionsInColl_preserves (elems : List HVal)
    (urn_map : List (HVal × HVal)) (acc : List HPosition) :
    Preserves (hPositionsInColl elems urn_map acc) := by
  induction elems generalizing acc with
  | nil => exact Preserves.pure acc
  | cons pos_urn rest ih =>
      unfold hPositionsInColl
      refine Preserves.bind (hMapGet_preserves urn_map pos_urn) ?_
      intro pos
      refine Preserves.bind (hFalsy_preserves pos) ?_
      intro f
      refine Preserves.ite _ (ih acc) ?_
      refine Preserves.bind (h_enrich_position_preserves pos urn_map) ?_
      intro p
      exact ih _

theorem hPositionGroupsLoop_preserves (groups : List HVal)
    (urn_map : List (HVal × HVal)) (acc : List HPosition) :
    Preserves (hPositionGroupsLoop groups urn_map acc) := by
  induction groups generalizing acc with
  | nil => exact Preserves.pure acc
  | cons group_urn rest ih =>
      unfold hPositionGroupsLoop
      refine Preserves.bind (hMapGet_preserves urn_map group_urn) ?_
      intro group
      refine Preserves.bind (hFalsy_preserves group) ?_
      intro fg
      refine Preserves.ite _ (ih acc) ?_
      refine Preserves.bind
        (hPyGet_preserves group "*profilePositionInPositionGroup") ?_
      intro positions_urn
      refine Preserves.bind (hFalsy_preserves positions_urn) ?_
      intro fp
      refine Preserves.ite _ (ih acc) ?_
      refine Preserves.bind (hMapGet_preserves urn_map positions_urn) ?_
      intro pos_coll
      refine Preserves.bind (hFalsy_preserves pos_coll) ?_
      intro fc
      refine Preserves.ite _ (ih acc) ?_
      refine Preserves.bind (hPyGetOpt_preserves pos_coll "*elements") ?_
      intro pelems
      cases pelems with
      | some ev =>
          refine Preserves.bind (hPyIter_preserves ev) ?_
          intro plist
          refine Preserves.bind (hPositionsInColl_preserves plist urn_map acc) ?_
          intro acc2
          exact ih acc2
      | none =>
          refine Preserves.bind (Preserves.pure []) ?_
          intro plist
          refine Preserves.bind (hPositionsInColl_preserves plist urn_map acc) ?_
          intro acc2
          exact ih acc2

theorem hExtractPositions_preserves (profile_entity : HVal)
    (urn_map : List (HVal × HVal)) :
    Preserves (hExtractPositions profile_entity urn_map) := by
  unfold hExtractPositions
  refine Preserves.bind (hPyGet_preserves profile_entity "*profilePositionGroups") ?_
  intro pos_groups_urn
  refine Preserves.bind (hFalsy_preserves pos_groups_urn) ?_
  intro fg
  refine Preserves.ite _ (Preserves.pure _) ?_
  refine Preserves.bind (hMapGet_preserves urn_map pos_groups_urn) ?_
  intro group_resp
  refine Preserves.bind (hFalsy_preserves group_resp) ?_
  intro fr
  refine Preserves.ite _ (Preserves.pure _) ?_
  refine Preserves.bind (hPyGetOpt_preserves group_resp "*elements") ?_
  intro elems
  cases elems with
  | some ev =>
      refine Preserves.bind (hPyIter_preserves ev) ?_
      intro groups
      exact hPositionGroupsLoop_preserves groups urn_map []
  | none =>
      refine Preserves.bind (Preserves.pure []) ?_
      intro groups
      exact hPositionGroupsLoop_preserves groups urn_map []

theorem hEducationsLoop_preserves (elems : List HVal)
    (urn_map : List (HVal × HVal)) (acc : List HEducation) :
    Preserves (hEducationsLoop elems urn_map acc) := by
  induction elems generalizing acc with
  | nil => exact Preserves.pure acc
  | cons e_urn rest ih =>
      unfold hEducationsLoop
      refine Preserves.bind (hMapGet_preserves urn_map e_urn) ?_
      intro edu
      refine Preserves.bind (hFalsy_preserves edu) ?_
      intro f
      refine Preserves.ite _ (ih acc) ?_
      refine Preserves.bind (h_enrich_education_preserves edu urn_map) ?_
      intro e
      exact ih _

theorem hExtractEducations_preserves (profile_entity : HVal)
    (urn_map : List (HVal × HVal)) :
    Preserves (hExtractEducations profile_entity urn_map) := by
  unfold hExtractEducations
  refine Preserves.bind (hPyGet_preserves profile_entity "*profileEducations") ?_
  intro edu_urn
  refine Preserves.bind (hFalsy_preserves edu_urn) ?_
  intro fg
  refine Preserves.ite _ (Preserves.pure _) ?_
  refine Preserves.bind (hMapGet_preserves urn_map edu_urn) ?_
  intro edu_coll
  refine Preserves.bind (hFalsy_preserves edu_coll) ?_
  intro fc
  refine Preserves.ite _ (Preserves.pure _) ?_
  refine Preserves.bind (hPyGetOpt_preserves edu_coll "*elements") ?_
  intro elems
  cases elems with
  | some ev =>
      refine Preserves.bind (hPyIter_preserves ev) ?_
      intro items
      exact hEducationsLoop_preserves items urn_map []
  | none =>
      refine Preserves.bind (Preserves.pure []) ?_
      intro items
      exact hEducationsLoop_preserves items urn_map []

theorem hSelectProfileEntity_preserves (json_response : HVal)
    (public_identifier : Option String) (urn_map : List (HVal × HVal)) :
    Preserves (hSelectProfileEntity json_response public_identifier urn_map) := by
  unfold hSelectProfileEntity
  refine Preserves.bind (hPyGetOpt_preserves json_response "included") ?_
  intro included
  have tail : ∀ items : List HVal, Preserves (do
      let found ← hFindProfileEntityLoop items public_identifier
      let ff ← hFalsy found
      if ff then do
        let dataOpt ← hPyGetOpt json_response "data"
        match dataOpt with
        | some data => do
            let elemsOpt ← hPyGetOpt data "*elements"
            let main_urn ←
              match elemsOpt with
              | some ev => hPyIndex0 ev
              | none => pure .null
            hMapGet urn_map main_urn
        | none => hMapGet urn_map .null
      else pure found) := by
    intro items
    refine Preserves.bind
      (hFindProfileEntityLoop_preserves items public_identifier) ?_
    intro found
    refine Preserves.bind (hFalsy_preserves found) ?_
    intro ff
    refine Preserves.ite _ ?_ (Preserves.pure _)
    refine Preserves.bind (hPyGetOpt_preserves json_response "data") ?_
    intro dataOpt
    cases dataOpt with
    | some data =>
        refine Preserves.bind (hPyGetOpt_preserves data "*elements") ?_
        intro elemsOpt
        cases elemsOpt with
        | some ev =>
            refine Preserves.bind (hPyIndex0_preserves ev) ?_
            intro main_urn
            exact hMapGet_preserves urn_map main_urn
        | none =>
            refine Preserves.bind (Preserves.pure _) ?_
            intro main_urn
            exact hMapGet_preserves urn_map main_urn
    | none => exact hMapGet_preserves urn_map .null
  cases included with
  | some v =>
      refine Preserves.bind (hPyIter_preserves v) ?_
      intro items
      exact tail items
  | none =>
      refine Preserves.bind (Preserves.pure []) ?_
      intro items
      exact tail items

theorem hAssembleProfile_preserves (profile_entity : HVal)
    (urn_map : List (HVal × HVal)) :
    Preserves (hAssembleProfile profile_entity urn_map) := by
  unfold hAssembleProfile
  refine Preserves.bind (hPyGetD_preserves profile_entity "firstName" (.str "")) ?_
  intro first_name
  refine Preserves.bind (hPyGetD_preserves profile_entity "lastName" (.str "")) ?_
  intro last_name
  refine Preserves.bind
    (h_extract_connection_info_preserves profile_entity urn_map) ?_
  intro conn
  refine Preserves.bind (hExtractPositions_preserves profile_entity urn_map) ?_
  intro positions
  refine Preserves.bind (hExtractEducations_preserves profile_entity urn_map) ?_
  intro educations
  refine Preserves.bind (hPySubscript_preserves profile_entity "entityUrn") ?_
  intro urn
  refine Preserves.bind (hPyGet_preserves profile_entity "headline") ?_
  intro headline
  refine Preserves.bind (hPyGet_preserves profile_entity "summary") ?_
  intro summary
  refine Preserves.bind (hPyGet_preserves profile_entity "publicIdentifier") ?_
  intro public_id
  refine Preserves.bind (hPyGet_preserves profile_entity "locationName") ?_
  intro location_name
  refine Preserves.bind
    (h_resolve_star_field_preserves profile_entity urn_map "*geo") ?_
  intro geo
  refine Preserves.bind
    (h_resolve_star_field_preserves profile_entity urn_map "*industry") ?_
  intro industry
  refine Preserves.bind
    (hPyGetD_preserves profile_entity "publicIdentifier" (.str "")) ?_
  intro url_pid
  refine Preserves.bind (hPyStr_preserves url_pid) ?_
  intro url_pid_s
  refine Preserves.bind (hPyStr_preserves first_name) ?_
  intro fn_s
  refine Preserves.bind (hPyStr_preserves last_name) ?_
  intro ln_s
  exact Preserves.pure _

theorem h_parse_preserves (json_response : HVal)
    (public_identifier : Option String) :
    Preserves (h_parse_linkedin_voyager_response json_response
      public_identifier) := by
  unfold h_parse_linkedin_voyager_response
  refine Preserves.bind (h_resolve_references_preserves json_response) ?_
  intro urn_map
  refine Preserves.bind
    (hSelectProfileEntity_preserves json_response public_identifier urn_map) ?_
  intro profile_entity
  refine Preserves.bind (hFalsy_preserves profile_entity) ?_
  intro fp
  exact Preserves.ite _ (Preserves.fail _)
    (hAssembleProfile_preserves profile_entity urn_map)


/-! ### C9: input payload immutability -/

/-- A concrete three-cell payload heap: a root dict whose `included` list
holds one root-tagged profile entity. -/
def C9payloadHeap : Heap :=
  [(0, .dict [("included", .ref 1)]),
   (1, .arr [.ref 2]),
   (2, .dict [("$type", .str PROFILE_TYPE), ("entityUrn", .str "urn:w")])]

/-- The profile materialized from `C9payloadHeap`. -/
def C9payloadProfile : HLinkedInProfile :=
  { url := "https://www.linkedin.com/in//"
    urn := .str "urn:w"
    full_name := ""
    first_name := .str ""
    last_name := .str ""
    headline := .null
    summary := .null
    public_identifier := .null
    location_name := .null
    geo := .null
    industry := .null
    positions := []
    educations := []
    connection_distance := .null
    connection_degree := .null }

/-- C9: input payload immutability.  Over the explicit object-heap model of
the payload graph (the root dict, its `included` entity list, and every
entity dict and nested container, all addressed heap cells, with every
reference-valued field — including the urn map's aliases into the payload —
pointing back into that same heap), every run of the full materialization
`h_parse_linkedin_voyager_response` that returns a result returns the heap
exactly as it was given: no cell is added, removed, or modified, so no
field of any input entity changes. -/
theorem C9_payload_immutability (json_response : HVal)
    (public_identifier : Option String) (heap : Heap)
    (r : HLinkedInProfile) (heap2 : Heap)
    (hrun : h_parse_linkedin_voyager_response json_response public_identifier
      heap = .ok (r, heap2)) :
    heap2 = heap :=
  h_parse_preserves json_response public_identifier heap r heap2 hrun

/-- Witness: on the concrete payload heap the materialization succeeds and
the final heap is the input heap, unchanged. -/
theorem C9_payload_immutability_witness :
    h_parse_linkedin_voyager_response (.ref 0) none C9payloadHeap =
      .ok (C9payloadProfile, C9payloadHeap) ∧
    C9payloadHeap = C9payloadHeap :=
  ⟨by decide, C9_payload_immutability (.ref 0) none C9payloadHeap
    C9payloadProfile C9payloadHeap (by decide)⟩

end Fastboard
